import Mathlib

/-!
# Loan billing engine

A shallow embedding of the loan billing engine (`internal/services/loan.go`,
`internal/models`, `internal/repositories`) and a verification of its
payment processor and delinquency evaluator.

## Modelling conventions

* The relational store is a record of four tables, each a list of rows.  A
  row's primary key (`ID uuid.UUID`, assigned by the database on insert) is
  its position in the table: rows are never deleted by the program (the
  `DeletedAt` soft-delete column is never written), so positions are stable,
  unique and fresh on insert, which is all the program uses of a UUID.
* `time.Time` instants are integers (nanoseconds); `t.Before(u)` is `t < u`.
* `int64` values are integers; the one subtraction performed on stored
  values (`loan.CurrentBalance - amount`) wraps to 64 bits as in Go.
* `float64` values are IEEE 754 binary64 numbers: every operation of the
  amortization formula rounds its exact result to the nearest representable
  value, ties to even; the conversion of a value outside the `int64` range
  gives the most negative `int64`, as on amd64.
* `time.Now()` is taken in a zone whose offset does not change (UTC), where
  the calendar days of `AddDate` are days of 24 hours.
* Every repository call may fail: a `Faults` oracle tells, per repository
  method, whether the call returns an injected persistence error (and then
  performs no write).
* The bookkeeping columns `CreatedAt`/`UpdatedAt` and the preloaded
  association fields are not modelled.
-/

namespace Billing

/-! ## Errors and fault injection -/

/-- Error values returned by the engine.  `recordNotFound` is
`gorm.ErrRecordNotFound` (what `First` returns for an absent row); the three
message errors are the `errors.New(...)` values of `services/loan.go`;
`persistence c` is an opaque failure of the repository layer. -/
inductive Err where
  | recordNotFound
  | borrowerNotFound
  | noUnpaidSchedules
  | amountMismatch
  | persistence (code : Nat)
  deriving DecidableEq, Repr

/-- The repository methods called by the loan service. -/
inductive RepoOp where
  | borrowersGetByID
  | borrowersCreate
  | borrowersUpdateDelinquencyStatus
  | loansGetByID
  | loansCreate
  | loansUpdateStatus
  | loansUpdateBalance
  | loansUpdateLastPaymentDate
  | loansGetPotentialDelinquent
  | schedulesGetByLoanID
  | schedulesGetUnpaidByLoanID
  | schedulesCreateBatch
  | schedulesUpdatePaidStatus
  | schedulesCountUnpaidByLoanID
  | paymentsCreate
  deriving DecidableEq, Repr

/-- A fault oracle: `f op = some c` makes the call of `op` fail with the
opaque error `persistence c`. -/
abbrev Faults := RepoOp → Option Nat

/-- The repository in which no call fails on its own. -/
def noFaults : Faults := fun _ => none

/-! ## `float64`

Go's `float64` is IEEE 754 binary64.  A finite value is kept as
`mantissa * 2 ^ exponent`; an operation computes the exact result as a
fraction of two integers and rounds it to the nearest representable value,
ties to even (Go's only rounding mode).  The sign of a zero is not kept: no
operation used here can tell `-0` from `+0`. -/

/-- A `float64`: a finite value `m * 2 ^ e`, an infinity, or NaN.  Every
`float64` is a value of this type (a finite one with `|m| < 2 ^ 53` and
`-1074 ≤ e ≤ 971`), so what is proved for all values of the type holds for
all `float64`. -/
inductive F64 where
  | finite (m : Int) (e : Int)
  | inf (negative : Bool)
  | nan
  deriving DecidableEq, Repr

/-- The number of binary digits of `n`: 0 for `n = 0`, and the `len` with
`2 ^ (len - 1) ≤ n < 2 ^ len` for `n > 0`; the first argument bounds the
recursion. -/
def bitLengthAux : Nat → Nat → Nat
  | 0, _ => 0
  | fuel + 1, n => if n = 0 then 0 else bitLengthAux fuel (n / 2) + 1

/-- The number of binary digits of `n`. -/
def bitLength (n : Nat) : Nat := bitLengthAux n n

/-- Round the fraction `± a / d` (`d > 0`) to the nearest `float64`, ties to
even: 53 significant bits, least exponent `-1074` (subnormal values), overflow
to an infinity from `2 ^ 1024 - 2 ^ 970` on. -/
def F64.round (negative : Bool) (a d : Nat) : F64 :=
  if a = 0 then .finite 0 0
  else
    let l0 : Int := (bitLength a : Int) - (bitLength d : Int)
    -- `2 ^ l ≤ a / d < 2 ^ (l + 1)`
    let l : Int := if d * 2 ^ l0.toNat ≤ a * 2 ^ (-l0).toNat then l0 else l0 - 1
    let e : Int := max (l - 52) (-1074)
    let n := a * 2 ^ (-e).toNat
    let k := d * 2 ^ e.toNat
    let q := n / k
    let r := n % k
    let m := if k < 2 * r ∨ (2 * r = k ∧ q % 2 = 1) then q + 1 else q
    if 971 < e ∨ (e = 971 ∧ 9007199254740992 ≤ m) then .inf negative
    else .finite (if negative then -(m : Int) else (m : Int)) e

/-- The conversion `float64(n)` of an integer. -/
def F64.ofInt (n : Int) : F64 :=
  F64.round (decide (n < 0)) n.natAbs 1

/-- The product `x * y`. -/
def F64.mul : F64 → F64 → F64
  | .nan, _ => .nan
  | _, .nan => .nan
  | .inf s, .inf t => .inf (s != t)
  | .inf s, .finite m _ => if m = 0 then .nan else .inf (s != decide (m < 0))
  | .finite m _, .inf s => if m = 0 then .nan else .inf (s != decide (m < 0))
  | .finite m₁ e₁, .finite m₂ e₂ =>
    F64.round (decide (m₁ * m₂ < 0)) ((m₁ * m₂).natAbs * 2 ^ (e₁ + e₂).toNat)
      (2 ^ (-(e₁ + e₂)).toNat)

/-- The quotient `x / y`. -/
def F64.div : F64 → F64 → F64
  | .nan, _ => .nan
  | _, .nan => .nan
  | .inf _, .inf _ => .nan
  | .inf s, .finite m _ => .inf (s != decide (m < 0))
  | .finite _ _, .inf _ => .finite 0 0
  | .finite m₁ e₁, .finite m₂ e₂ =>
    if m₂ = 0 then (if m₁ = 0 then .nan else .inf (decide (m₁ < 0)))
    else
      F64.round (decide (m₁ < 0) != decide (m₂ < 0)) (m₁.natAbs * 2 ^ (e₁ - e₂).toNat)
        (m₂.natAbs * 2 ^ (e₂ - e₁).toNat)

/-- The sum `x + y`. -/
def F64.add : F64 → F64 → F64
  | .nan, _ => .nan
  | _, .nan => .nan
  | .inf s, .inf t => if s = t then .inf s else .nan
  | .inf s, .finite _ _ => .inf s
  | .finite _ _, .inf s => .inf s
  | .finite m₁ e₁, .finite m₂ e₂ =>
    let e := min e₁ e₂
    let n : Int := m₁ * 2 ^ (e₁ - e).toNat + m₂ * 2 ^ (e₂ - e).toNat
    F64.round (decide (n < 0)) (n.natAbs * 2 ^ e.toNat) (2 ^ (-e).toNat)

/-- The negation `-x`. -/
def F64.neg : F64 → F64
  | .finite m e => .finite (-m) e
  | .inf s => .inf (!s)
  | .nan => .nan

instance : Neg F64 := ⟨F64.neg⟩
instance : Mul F64 := ⟨F64.mul⟩
instance : Div F64 := ⟨F64.div⟩
instance : Add F64 := ⟨F64.add⟩
instance (n : Nat) : OfNat F64 n := ⟨F64.ofInt n⟩

/-! ## Data model (`internal/models`) -/

/-- Row of `models.Borrower`. -/
structure Borrower where
  Name : String
  ContactInfo : String
  IsDelinquent : Bool
  deriving DecidableEq, Repr

/-- Row of `models.Loan`. -/
structure Loan where
  BorrowerID : Nat
  Amount : Int
  InterestRate : F64
  TermWeeks : Nat
  StartDate : Int
  Status : String
  CurrentBalance : Int
  LastPaymentDate : Option Int
  deriving DecidableEq

/-- Row of `models.Schedule` (an installment). -/
structure Schedule where
  LoanID : Nat
  WeekNumber : Nat
  DueDate : Int
  Amount : Int
  Paid : Bool
  deriving DecidableEq, Repr

/-- Row of `models.Payment`. -/
structure Payment where
  LoanID : Nat
  ScheduleID : Nat
  Amount : Int
  PaymentDate : Int
  deriving DecidableEq, Repr

/-- The persistent state: the four tables. -/
structure DB where
  borrowers : List Borrower
  loans : List Loan
  schedules : List Schedule
  payments : List Payment
  deriving DecidableEq

/-- The empty database. -/
def DB.empty : DB := ⟨[], [], [], []⟩

/-! ## Machine integers -/

/-- Two's-complement wrap of an integer to the `int64` range. -/
def wrapInt64 (x : Int) : Int :=
  (9223372036854775808 + x) % 18446744073709551616 - 9223372036854775808

/-- The `int64` range. -/
def inInt64 (x : Int) : Prop :=
  -9223372036854775808 ≤ x ∧ x < 9223372036854775808

instance (x : Int) : Decidable (inInt64 x) := by
  unfold inInt64; infer_instance

/-- The conversion `int64(x)` of a `float64`: truncation toward zero.  For
NaN, an infinity or a value outside the `int64` range Go leaves the result to
the implementation; the amd64 result (the most negative `int64`) is taken. -/
def toInt64 : F64 → Int
  | .finite m e =>
    let t : Int := if 0 ≤ e then m * 2 ^ e.toNat else Int.tdiv m (2 ^ (-e).toNat)
    if inInt64 t then t else -9223372036854775808
  | _ => -9223372036854775808

/-- Nanoseconds in a day. -/
def nanosPerDay : Int := 86400000000000

/-- `t.AddDate(0, 0, days)` for a time in a zone whose offset does not
change: the calendar days Go adds are then days of 24 hours. -/
def AddDate (t : Int) (days : Int) : Int := t + days * nanosPerDay

/-- The result of a Go call that returns `(value, error)` and may panic. -/
inductive Outcome (α : Type) where
  | ok (a : α)
  | error (e : Err)
  | panic

/-- The result of a Go call that returns `error` and may panic. -/
inductive ErrorOrPanic where
  | nil
  | error (e : Err)
  | panic

/-- `UPDATE t SET ... WHERE id = ?`: rewrite the row with primary key `id`,
if there is one (no row matched is not an error in gorm). -/
def updateWhereID {α : Type} (rows : List α) (id : Nat) (g : α → α) : List α :=
  match rows[id]? with
  | some r => rows.set id (g r)
  | none => rows

/-! ## Delinquency evaluator

The loop of `LoanService.IsDelinquent` (lines 120-135), repeated verbatim in
`LoanService.MakePayment` (lines 215-231). -/

/-- One iteration of the loop; the state is
`(consecutiveMissed, maxConsecutiveMissed)`. -/
def streakStep (currentDate : Int) (st : Nat × Nat) (s : Schedule) : Nat × Nat :=
  if !s.Paid && decide (s.DueDate < currentDate) then
    let consecutiveMissed := st.1 + 1
    (consecutiveMissed, if consecutiveMissed > st.2 then consecutiveMissed else st.2)
  else
    (0, st.2)

/-- The loop over `schedules`, from `consecutiveMissed = 0`,
`maxConsecutiveMissed = 0`; returns `maxConsecutiveMissed`. -/
def maxConsecutiveMissed (schedules : List Schedule) (currentDate : Int) : Nat :=
  (schedules.foldl (streakStep currentDate) (0, 0)).2

/-- The verdict: `isDelinquent := maxConsecutiveMissed >= 2`. -/
def isDelinquentVerdict (schedules : List Schedule) (currentDate : Int) : Bool :=
  decide (maxConsecutiveMissed schedules currentDate ≥ 2)

/-! ## Repositories (`internal/repositories`)

Reads return `Except Err _`; writes return the Go `error` (`none` is `nil`)
together with the state of the store after the call. -/

/-- `GormLoanRepository.GetByID`: `First(&loan, id)`; an absent row is
`gorm.ErrRecordNotFound`. -/
def Loans.GetByID (f : Faults) (db : DB) (id : Nat) : Except Err Loan :=
  match f .loansGetByID with
  | some c => .error (.persistence c)
  | none =>
    match db.loans[id]? with
    | some loan => .ok loan
    | none => .error .recordNotFound

/-- `GormLoanRepository.UpdateStatus`. -/
def Loans.UpdateStatus (f : Faults) (db : DB) (id : Nat) (status : String) : Option Err × DB :=
  match f .loansUpdateStatus with
  | some c => (some (.persistence c), db)
  | none => (none, { db with loans := updateWhereID db.loans id (fun l => { l with Status := status }) })

/-- `GormLoanRepository.UpdateBalance`. -/
def Loans.UpdateBalance (f : Faults) (db : DB) (id : Nat) (balance : Int) : Option Err × DB :=
  match f .loansUpdateBalance with
  | some c => (some (.persistence c), db)
  | none =>
    (none, { db with loans := updateWhereID db.loans id (fun l => { l with CurrentBalance := balance }) })

/-- `GormLoanRepository.UpdateLastPaymentDate`. -/
def Loans.UpdateLastPaymentDate (f : Faults) (db : DB) (id : Nat) (date : Int) : Option Err × DB :=
  match f .loansUpdateLastPaymentDate with
  | some c => (some (.persistence c), db)
  | none =>
    (none, { db with loans := updateWhereID db.loans id (fun l => { l with LastPaymentDate := some date }) })

/-- `ORDER BY week_number` on rows paired with their primary key (a stable
sort: rows with equal week numbers keep their table order). -/
def orderByWeekNumber (rows : List (Nat × Schedule)) : List (Nat × Schedule) :=
  rows.insertionSort (fun a b => a.2.WeekNumber ≤ b.2.WeekNumber)

/-- The rows `WHERE loan_id = ? ORDER BY week_number` of the schedule
table, with their keys. -/
def schedulesOfLoan (table : List Schedule) (loanID : Nat) : List (Nat × Schedule) :=
  orderByWeekNumber (table.enum.filter (fun r => decide (r.2.LoanID = loanID)))

/-- The rows `WHERE loan_id = ? AND paid = false ORDER BY week_number` of the
schedule table, with their keys. -/
def unpaidSchedulesOfLoan (table : List Schedule) (loanID : Nat) : List (Nat × Schedule) :=
  orderByWeekNumber
    (table.enum.filter (fun r => decide (r.2.LoanID = loanID) && decide (r.2.Paid = false)))

/-- The number of rows `WHERE loan_id = ? AND paid = false`. -/
def countUnpaidOfLoan (table : List Schedule) (loanID : Nat) : Nat :=
  table.countP (fun s => decide (s.LoanID = loanID) && decide (s.Paid = false))

/-- `GormScheduleRepository.GetByLoanID`. -/
def Schedules.GetByLoanID (f : Faults) (db : DB) (loanID : Nat) : Except Err (List (Nat × Schedule)) :=
  match f .schedulesGetByLoanID with
  | some c => .error (.persistence c)
  | none => .ok (schedulesOfLoan db.schedules loanID)

/-- `GormScheduleRepository.GetUnpaidByLoanID`. -/
def Schedules.GetUnpaidByLoanID (f : Faults) (db : DB) (loanID : Nat) :
    Except Err (List (Nat × Schedule)) :=
  match f .schedulesGetUnpaidByLoanID with
  | some c => .error (.persistence c)
  | none => .ok (unpaidSchedulesOfLoan db.schedules loanID)

/-- `GormScheduleRepository.UpdatePaidStatus`. -/
def Schedules.UpdatePaidStatus (f : Faults) (db : DB) (id : Nat) (paid : Bool) : Option Err × DB :=
  match f .schedulesUpdatePaidStatus with
  | some c => (some (.persistence c), db)
  | none => (none, { db with schedules := updateWhereID db.schedules id (fun s => { s with Paid := paid }) })

/-- `GormScheduleRepository.CountUnpaidByLoanID`. -/
def Schedules.CountUnpaidByLoanID (f : Faults) (db : DB) (loanID : Nat) : Except Err Nat :=
  match f .schedulesCountUnpaidByLoanID with
  | some c => .error (.persistence c)
  | none => .ok (countUnpaidOfLoan db.schedules loanID)

/-- `GormPaymentRepository.Create`: insert one row. -/
def Payments.Create (f : Faults) (db : DB) (payment : Payment) : Option Err × DB :=
  match f .paymentsCreate with
  | some c => (some (.persistence c), db)
  | none => (none, { db with payments := db.payments ++ [payment] })

/-- `GormBorrowerRepository.UpdateDelinquencyStatus`. -/
def Borrowers.UpdateDelinquencyStatus (f : Faults) (db : DB) (id : Nat) (isDelinquent : Bool) :
    Option Err × DB :=
  match f .borrowersUpdateDelinquencyStatus with
  | some c => (some (.persistence c), db)
  | none =>
    (none, { db with
      borrowers := updateWhereID db.borrowers id (fun b => { b with IsDelinquent := isDelinquent }) })

/-- `GormBorrowerRepository.GetByID`. -/
def Borrowers.GetByID (f : Faults) (db : DB) (id : Nat) : Except Err Borrower :=
  match f .borrowersGetByID with
  | some c => .error (.persistence c)
  | none =>
    match db.borrowers[id]? with
    | some borrower => .ok borrower
    | none => .error .recordNotFound

/-- `GormBorrowerRepository.Create` (called by `BorrowerService.CreateBorrower`):
returns the key of the new row. -/
def Borrowers.Create (f : Faults) (db : DB) (name contactInfo : String) : Except Err Nat × DB :=
  match f .borrowersCreate with
  | some c => (.error (.persistence c), db)
  | none =>
    (.ok db.borrowers.length,
      { db with borrowers := db.borrowers ++
          [{ Name := name, ContactInfo := contactInfo, IsDelinquent := false }] })

/-- `GormLoanRepository.Create`: insert the row; the database assigns its
key, which is returned. -/
def Loans.Create (f : Faults) (db : DB) (loan : Loan) : Except Err Nat × DB :=
  match f .loansCreate with
  | some c => (.error (.persistence c), db)
  | none => (.ok db.loans.length, { db with loans := db.loans ++ [loan] })

/-- `GormScheduleRepository.CreateBatch`: one multi-row insert. -/
def Schedules.CreateBatch (f : Faults) (db : DB) (schedules : List Schedule) : Option Err × DB :=
  match f .schedulesCreateBatch with
  | some c => (some (.persistence c), db)
  | none => (none, { db with schedules := db.schedules ++ schedules })

/-- `GormRepositoryManager.WithTransaction`: `db.Transaction(fn)` runs `fn`
against the transaction; when `fn` returns `nil` its writes are committed,
when it returns an error they are rolled back and the error is returned. -/
def WithTransaction (fn : DB → Option Err × DB) (db : DB) : Option Err × DB :=
  match fn db with
  | (none, tx) => (none, tx)
  | (some e, _) => (some e, db)

/-! ## Amortization calculator and schedule generator -/

/-- `calculateTotalDue` of `services/loan.go`. -/
def calculateTotalDue (principal : Int) (interestRate : F64) (termWeeks : Nat) : Int :=
  let interestFactor : F64 := interestRate / 100 * F64.ofInt (termWeeks : Int) / 52
  toInt64 (F64.ofInt principal * (1 + interestFactor))

/-- `Loan.CalculateTotalDue` of `models/loan.go`. -/
def Loan.CalculateTotalDue (l : Loan) : Int :=
  let interestFactor : F64 := l.InterestRate / 100 * F64.ofInt (l.TermWeeks : Int) / 52
  toInt64 (F64.ofInt l.Amount * (1 + interestFactor))

/-- `Loan.CalculateWeeklyPayment`: `totalDue / int64(l.TermWeeks)`, Go's
truncated `int64` division; `none` is the run-time panic of a division by
zero. -/
def Loan.CalculateWeeklyPayment (l : Loan) : Option Int :=
  let totalDue := l.CalculateTotalDue
  let divisor := wrapInt64 (l.TermWeeks : Int)
  if divisor = 0 then none else some (wrapInt64 (Int.tdiv totalDue divisor))

/-- The slice built by the loop of `generateLoanSchedule` (lines 75-86), for
`week = 1, ..., loan.TermWeeks`. -/
def scheduleRows (loanID : Nat) (loan : Loan) (weeklyPayment : Int) : List Schedule :=
  (List.range loan.TermWeeks).map fun k =>
    { LoanID := loanID
      WeekNumber := k + 1
      DueDate := AddDate loan.StartDate (((k + 1 : Nat) : Int) * 7)
      Amount := weeklyPayment
      Paid := false }

/-- `LoanService.generateLoanSchedule`; `loanID` is `loan.ID`. -/
def generateLoanSchedule (f : Faults) (db : DB) (loanID : Nat) (loan : Loan) :
    ErrorOrPanic × DB :=
  match loan.CalculateWeeklyPayment with
  | none => (.panic, db)
  | some weeklyPayment =>
    match Schedules.CreateBatch f db (scheduleRows loanID loan weeklyPayment) with
    | (some err, db1) => (.error err, db1)
    | (none, db1) => (.nil, db1)

/-- The loan value built by `CreateLoan` (lines 37-49): the total due is
computed by `calculateTotalDue` and becomes the initial balance. -/
def newLoanRow (now : Int) (borrowerID : Nat) (amount : Int) (interestRate : F64)
    (termWeeks : Nat) : Loan :=
  let totalDue := calculateTotalDue amount interestRate termWeeks
  { BorrowerID := borrowerID
    Amount := amount
    InterestRate := interestRate
    TermWeeks := termWeeks
    StartDate := now
    Status := "active"
    CurrentBalance := totalDue
    LastPaymentDate := none }

/-- `LoanService.CreateLoan`; `now` is the reading of `time.Now()`.  On
success the key of the new loan is returned with the loan. -/
def CreateLoan (f : Faults) (now : Int) (borrowerID : Nat) (amount : Int) (interestRate : F64)
    (termWeeks : Nat) (db : DB) : Outcome (Nat × Loan) × DB :=
  match Borrowers.GetByID f db borrowerID with
  | .error _ => (.error .borrowerNotFound, db)
  | .ok _ =>
  let loan := newLoanRow now borrowerID amount interestRate termWeeks
  match Loans.Create f db loan with
  | (.error err, db1) => (.error err, db1)
  | (.ok loanID, db1) =>
  match generateLoanSchedule f db1 loanID loan with
  | (.panic, db2) => (.panic, db2)
  | (.error err, db2) => (.error err, db2)
  | (.nil, db2) => (.ok (loanID, loan), db2)

/-! ## Delinquency check (`LoanService.IsDelinquent`) -/

/-- `LoanService.IsDelinquent` (`checkDelinquent`): the returned pair
`(isDelinquent, err)` and the state after the call. -/
def IsDelinquent (f : Faults) (currentDate : Int) (loanID : Nat) (db : DB) :
    (Bool × Option Err) × DB :=
  match Loans.GetByID f db loanID with
  | .error err => ((false, some err), db)
  | .ok loan =>
  match Schedules.GetByLoanID f db loanID with
  | .error err => ((false, some err), db)
  | .ok schedules =>
  let isDelinquent := isDelinquentVerdict (schedules.map Prod.snd) currentDate
  if isDelinquent then
    match Borrowers.UpdateDelinquencyStatus f db loan.BorrowerID true with
    | (some err, db1) => ((isDelinquent, some err), db1)
    | (none, db1) => ((isDelinquent, none), db1)
  else
    ((isDelinquent, none), db)

/-! ## Payment processor (`LoanService.MakePayment`) -/

/-- The function passed to `WithTransaction` by `MakePayment` (lines
150-234).  `paymentDate` and `currentDate` are the two readings of
`time.Now()`.  The second component is the state of the transaction when the
function returns. -/
def MakePaymentTx (f : Faults) (paymentDate currentDate : Int) (loanID : Nat) (amount : Int)
    (repo : DB) : Option Err × DB :=
  match Loans.GetByID f repo loanID with
  | .error err => (some err, repo)
  | .ok loan =>
  match Schedules.GetUnpaidByLoanID f repo loanID with
  | .error _ => (some .noUnpaidSchedules, repo)
  | .ok [] => (some .noUnpaidSchedules, repo)
  | .ok (schedule :: _) =>
  if amount ≠ schedule.2.Amount then (some .amountMismatch, repo) else
  match Payments.Create f repo
      { LoanID := loanID, ScheduleID := schedule.1, Amount := amount, PaymentDate := paymentDate } with
  | (some err, r1) => (some err, r1)
  | (none, r1) =>
  match Schedules.UpdatePaidStatus f r1 schedule.1 true with
  | (some err, r2) => (some err, r2)
  | (none, r2) =>
  match Loans.UpdateBalance f r2 loanID (wrapInt64 (loan.CurrentBalance - amount)) with
  | (some err, r3) => (some err, r3)
  | (none, r3) =>
  match Loans.UpdateLastPaymentDate f r3 loanID paymentDate with
  | (some err, r4) => (some err, r4)
  | (none, r4) =>
  match Schedules.CountUnpaidByLoanID f r4 loanID with
  | .error err => (some err, r4)
  | .ok unpaidCount =>
  match (if unpaidCount = 0 then Loans.UpdateStatus f r4 loanID "closed" else (none, r4)) with
  | (some err, r5) => (some err, r5)
  | (none, r5) =>
  match Schedules.GetByLoanID f r5 loanID with
  | .error err => (some err, r5)
  | .ok schedules =>
  Borrowers.UpdateDelinquencyStatus f r5 loan.BorrowerID
    (isDelinquentVerdict (schedules.map Prod.snd) currentDate)

/-- `LoanService.MakePayment` (`applyPayment`): the returned error and the
persistent state after the call. -/
def MakePayment (f : Faults) (paymentDate currentDate : Int) (loanID : Nat) (amount : Int)
    (db : DB) : Option Err × DB :=
  WithTransaction (MakePaymentTx f paymentDate currentDate loanID amount) db

/-! ## Delinquency sweep (`internal/scheduler/cron.go`, `GetPotentialDelinquent`) -/

/-- `GormLoanRepository.GetPotentialDelinquent`; `now` is the reading of
`time.Now()`: the rows `WHERE status = 'active' AND (last_payment_date IS NULL
OR last_payment_date < cutoff)` with `cutoff = now.AddDate(0, 0, -14)`, with
their keys, in table order. -/
def Loans.GetPotentialDelinquent (f : Faults) (now : Int) (db : DB) :
    Except Err (List (Nat × Loan)) :=
  match f .loansGetPotentialDelinquent with
  | some c => .error (.persistence c)
  | none =>
    let cutoffDate := AddDate now (-14)
    .ok (db.loans.enum.filter fun r =>
      decide (r.2.Status = "active") &&
        (match r.2.LastPaymentDate with
          | none => true
          | some d => decide (d < cutoffDate)))

/-- `LoanService.GetPotentialDelinquentLoans`. -/
def GetPotentialDelinquentLoans (f : Faults) (now : Int) (db : DB) :
    Except Err (List (Nat × Loan)) :=
  Loans.GetPotentialDelinquent f now db

/-- `LoanService.GetOutstanding`. -/
def GetOutstanding (f : Faults) (loanID : Nat) (db : DB) : Except Err Int :=
  match Loans.GetByID f db loanID with
  | .error err => .error err
  | .ok loan => .ok loan.CurrentBalance

/-- The state of a run of `checkDelinquency`: the state `svc` of the loan
service it calls, the counter `delinquentCount`, and two logs kept for the
specification: the keys passed to `IsDelinquent`, in call order, and the
results returned. -/
structure SweepState (σ : Type) where
  svc : σ
  delinquentCount : Nat
  evaluated : List Nat
  outcomes : List (Bool × Option Err)

/-- The body of the inner loop of `checkDelinquency` (lines 65-76) for one
loan; `check` is `s.loanService.IsDelinquent` acting on the service state.
An error is logged and the loop continues. -/
def sweepLoan {σ : Type} (check : σ → Nat → (Bool × Option Err) × σ) (st : SweepState σ)
    (loan : Nat × Loan) : SweepState σ :=
  match check st.svc loan.1 with
  | ((isDelinquent, some err), svc) =>
    { svc := svc
      delinquentCount := st.delinquentCount
      evaluated := st.evaluated ++ [loan.1]
      outcomes := st.outcomes ++ [(isDelinquent, some err)] }
  | ((isDelinquent, none), svc) =>
    { svc := svc
      delinquentCount := if isDelinquent then st.delinquentCount + 1 else st.delinquentCount
      evaluated := st.evaluated ++ [loan.1]
      outcomes := st.outcomes ++ [(isDelinquent, none)] }

/-- The Go slice expression `s[i:j]`; `none` is the run-time panic for bounds
out of range. -/
def goSlice {α : Type} (s : List α) (i j : Nat) : Option (List α) :=
  if i ≤ j ∧ j ≤ s.length then some ((s.drop i).take (j - i)) else none

/-- `batchSize := 500`. -/
def batchSize : Nat := 500

/-- The outer loop of `checkDelinquency` (lines 59-85) from index `i`:
`for i < totalLoans; i += batchSize`.  `none` is a slice panic.  The pause
between batches is not modelled. -/
def processBatches {σ : Type} (check : σ → Nat → (Bool × Option Err) × σ)
    (potentialDelinquentLoans : List (Nat × Loan)) (i : Nat) (st : SweepState σ) :
    Option (SweepState σ) :=
  if _ : i < potentialDelinquentLoans.length then
    let totalLoans := potentialDelinquentLoans.length
    let end_ := if i + batchSize > totalLoans then totalLoans else i + batchSize
    match goSlice potentialDelinquentLoans i end_ with
    | none => none
    | some batch =>
      processBatches check potentialDelinquentLoans (i + batchSize)
        (batch.foldl (sweepLoan check) st)
  else some st
termination_by potentialDelinquentLoans.length - i
decreasing_by
  simp only [batchSize]
  omega

/-- What a run of `checkDelinquency` does. -/
inductive SweepOutcome (σ : Type) where
  | fetchFailed (err : Err)
  | panicked
  | done (scanned : Nat) (st : SweepState σ)

/-- `Scheduler.checkDelinquency`; `fetch` is
`s.loanService.GetPotentialDelinquentLoans`.  On completion the two logged
numbers are `totalLoans` and `delinquentCount`. -/
def checkDelinquency {σ : Type} (fetch : σ → Except Err (List (Nat × Loan)))
    (check : σ → Nat → (Bool × Option Err) × σ) (svc : σ) : SweepOutcome σ :=
  match fetch svc with
  | .error err => .fetchFailed err
  | .ok potentialDelinquentLoans =>
    match processBatches check potentialDelinquentLoans 0
        { svc := svc, delinquentCount := 0, evaluated := [], outcomes := [] } with
    | none => .panicked
    | some st => .done potentialDelinquentLoans.length st

/-- The loan service as the scheduler sees it: the store and the number of
calls made so far; call number `k` reads the clock `clock k` and meets the
failure pattern `faults k`. -/
def serviceCheck (faults : Nat → Faults) (clock : Nat → Int) (svc : DB × Nat) (loanID : Nat) :
    (Bool × Option Err) × (DB × Nat) :=
  ((IsDelinquent (faults svc.2) (clock svc.2) loanID svc.1).1,
    ((IsDelinquent (faults svc.2) (clock svc.2) loanID svc.1).2, svc.2 + 1))

/-- The single flat loop over the candidates, for comparison with the
batched double loop. -/
def sweepFlat {σ : Type} (check : σ → Nat → (Bool × Option Err) × σ)
    (loans : List (Nat × Loan)) (st : SweepState σ) : SweepState σ :=
  loans.foldl (sweepLoan check) st

/-! ## Reachable states -/

/-- The states the engine can be in: those obtained from the empty store by
any sequence of calls of its operations, each with any arguments, at any
time and under any pattern of repository failures.  A loan term is a Go
`uint` whose `int64` conversion is the term itself (`termWeeks < 2^63`;
the schedule loop materialises `termWeeks` rows). -/
inductive Reachable : DB → Prop where
  | empty : Reachable DB.empty
  | createBorrower {db : DB} (h : Reachable db) (f : Faults) (name contactInfo : String) :
      Reachable (Borrowers.Create f db name contactInfo).2
  | createLoan {db : DB} (h : Reachable db) (f : Faults) (now : Int) (borrowerID : Nat)
      (amount : Int) (interestRate : F64) (termWeeks : Nat)
      (hterm : termWeeks < 9223372036854775808) :
      Reachable (CreateLoan f now borrowerID amount interestRate termWeeks db).2
  | makePayment {db : DB} (h : Reachable db) (f : Faults) (paymentDate currentDate : Int)
      (loanID : Nat) (amount : Int) :
      Reachable (MakePayment f paymentDate currentDate loanID amount db).2
  | isDelinquent {db : DB} (h : Reachable db) (f : Faults) (currentDate : Int) (loanID : Nat) :
      Reachable (IsDelinquent f currentDate loanID db).2

/-- The sum of the amounts of the payment records of a loan. -/
def paymentsTotal (payments : List Payment) (loanID : Nat) : Int :=
  ((payments.filter (fun p => decide (p.LoanID = loanID))).map (fun p => p.Amount)).sum

/-! ## The consistency invariant of reachable states -/

/-- The number of rows `WHERE loan_id = ? AND paid = true`. -/
def paidCountOfLoan (table : List Schedule) (loanID : Nat) : Nat :=
  table.countP (fun s => decide (s.LoanID = loanID) && decide (s.Paid = true))

/-- The weekly installment of a loan (0 where `CalculateWeeklyPayment`
panics). -/
def weeklyAmount (loan : Loan) : Int := loan.CalculateWeeklyPayment.getD 0

/-- What holds of a loan row, its installments and its payment records in
every reachable state. -/
structure LoanConsistent (schedules : List Schedule) (payments : List Payment) (L : Nat)
    (loan : Loan) : Prop where
  term : loan.TermWeeks < 9223372036854775808
  amount : ∀ s ∈ schedules, s.LoanID = L → s.Amount = weeklyAmount loan
  count : paidCountOfLoan schedules L + countUnpaidOfLoan schedules L ≤ loan.TermWeeks
  paid : paymentsTotal payments L = (paidCountOfLoan schedules L : Int) * weeklyAmount loan
  balance : loan.CurrentBalance =
    loan.CalculateTotalDue - (paidCountOfLoan schedules L : Int) * weeklyAmount loan
  status : (loan.Status = "closed" ∧ countUnpaidOfLoan schedules L = 0 ∧
      0 < paidCountOfLoan schedules L) ∨
    (loan.Status = "active" ∧
      (0 < countUnpaidOfLoan schedules L ∨ paidCountOfLoan schedules L = 0))

/-- The invariant of the store. -/
structure Consistent (db : DB) : Prop where
  schedule_loan : ∀ s ∈ db.schedules, s.LoanID < db.loans.length
  payment_loan : ∀ p ∈ db.payments, p.LoanID < db.loans.length
  loan : ∀ L loan, db.loans[L]? = some loan → LoanConsistent db.schedules db.payments L loan

/-! ## The delinquency evaluator as a run-length computation -/

/-- The loop's test: unpaid and past due. -/
def missed (currentDate : Int) (s : Schedule) : Bool :=
  !s.Paid && decide (s.DueDate < currentDate)

/-- Length of the run of missed entries at the head of the list. -/
def leadRun (currentDate : Int) : List Schedule → Nat
  | [] => 0
  | s :: t => if missed currentDate s then leadRun currentDate t + 1 else 0

/-- Length of the longest run of consecutive missed entries. -/
def bestRun (currentDate : Int) : List Schedule → Nat
  | [] => 0
  | s :: t => max (leadRun currentDate (s :: t)) (bestRun currentDate t)

/-- The shape of the installments of a loan in every reachable state: week
numbers between 1 and the term, one row per week number, due dates `7 * week`
days after the start date, all weeks present once the schedule exists, and
the paid installments are those of the first `paidCountOfLoan` weeks. -/
structure LoanShape (table : List Schedule) (L : Nat) (loan : Loan) : Prop where
  week : ∀ (i : Nat) (s : Schedule), table[i]? = some s → s.LoanID = L →
    1 ≤ s.WeekNumber ∧ s.WeekNumber ≤ loan.TermWeeks ∧
      s.DueDate = AddDate loan.StartDate ((s.WeekNumber : Int) * 7)
  uniq : ∀ (i j : Nat) (s t : Schedule), table[i]? = some s → table[j]? = some t →
    s.LoanID = L → t.LoanID = L → s.WeekNumber = t.WeekNumber → i = j
  dense : (∃ s ∈ table, s.LoanID = L) → ∀ w, 1 ≤ w → w ≤ loan.TermWeeks →
    ∃ (i : Nat) (s : Schedule), table[i]? = some s ∧ s.LoanID = L ∧ s.WeekNumber = w
  paidFirst : ∀ (i : Nat) (s : Schedule), table[i]? = some s → s.LoanID = L →
    (s.Paid = true ↔ s.WeekNumber ≤ paidCountOfLoan table L)
  total : paidCountOfLoan table L + countUnpaidOfLoan table L = loan.TermWeeks ∨
    ∀ s ∈ table, s.LoanID ≠ L

/-- The shape invariant of the store. -/
def Shaped (db : DB) : Prop :=
  ∀ L loan, db.loans[L]? = some loan → LoanShape db.schedules L loan

/-- The number of payment records of a loan. -/
def paymentCountOfLoan (payments : List Payment) (loanID : Nat) : Nat :=
  payments.countP (fun p => decide (p.LoanID = loanID))

/-- The store after `k` calls of `MakePayment` one after the other on one
loan with one amount, by a repository that does not fail; `clock j` holds the
two readings of `time.Now()` of call `j`. -/
def payTimes (clock : Nat → Int × Int) (loanID : Nat) (amount : Int) : Nat → DB → DB
  | 0, db => db
  | k + 1, db =>
    (MakePayment noFaults (clock k).1 (clock k).2 loanID amount
      (payTimes clock loanID amount k db)).2

/-- The formula of the specification over exact numbers: the floor of
`principal * (1 + rate / 100 * termWeeks / 52)`. -/
def totalDueExact (principal : Int) (rate : ℚ) (termWeeks : Nat) : Int :=
  ⌊(principal : ℚ) * (1 + rate / 100 * (termWeeks : ℚ) / 52)⌋

/-- The formula of the specification evaluated in `float64`: every
operation of `principal * (1 + rate / 100 * termWeeks / 52)` is rounded, and
the product is converted to `int64`. -/
def totalDueFloat64 (principal : Int) (rate : F64) (termWeeks : Nat) : Int :=
  toInt64
    (F64.mul (F64.ofInt principal)
      (F64.add (F64.ofInt 1)
        (F64.div (F64.mul (F64.div rate (F64.ofInt 100)) (F64.ofInt termWeeks))
          (F64.ofInt 52))))

/-! ## Auxiliary definitions used by the proofs -/

instance weekNumberLe_total :
    IsTotal (Nat × Schedule) (fun a b => a.2.WeekNumber ≤ b.2.WeekNumber) :=
  ⟨fun a b => Nat.le_total a.2.WeekNumber b.2.WeekNumber⟩

instance weekNumberLe_trans :
    IsTrans (Nat × Schedule) (fun a b => a.2.WeekNumber ≤ b.2.WeekNumber) :=
  ⟨fun _ _ _ hab hbc => Nat.le_trans hab hbc⟩

/-- The repository calls made by every run of the transaction function that
gets past validation (`UpdateStatus` is made only when no unpaid installment
remains). -/
def paymentWriteCalls : List RepoOp :=
  [.paymentsCreate, .schedulesUpdatePaidStatus, .loansUpdateBalance, .loansUpdateLastPaymentDate,
    .schedulesCountUnpaidByLoanID, .schedulesGetByLoanID, .borrowersUpdateDelinquencyStatus]

/-- The store used in the worked examples: one borrower (flagged
delinquent), one active loan of two weekly installments of 55, stored in the
table in descending week order, none paid. -/
def exampleDB : DB :=
  { borrowers := [⟨"Test Borrower", "test@example.com", true⟩]
    loans := [⟨0, 100, 10, 2, 0, "active", 110, none⟩]
    schedules := [⟨0, 2, 14, 55, false⟩, ⟨0, 1, 7, 55, false⟩]
    payments := [] }

/-- The store after creating a borrower and a loan of 100 at rate 0 over 2
weeks, with a repository that does not fail. -/
def exampleCreated : DB :=
  (CreateLoan noFaults 0 0 100 0 2 (Borrowers.Create noFaults DB.empty "a" "b").2).2

/-- The store after creating a borrower and, at time 0, a loan of 300 at
rate 0 over 3 weeks: installments of 100 due on days 7, 14 and 21. -/
def lateCreated : DB :=
  { borrowers := [⟨"a", "b", false⟩]
    loans := [⟨0, 300, 0, 3, 0, "active", 300, none⟩]
    schedules := [⟨0, 1, 7 * nanosPerDay, 100, false⟩, ⟨0, 2, 14 * nanosPerDay, 100, false⟩,
      ⟨0, 3, 21 * nanosPerDay, 100, false⟩]
    payments := [] }

/-- The store `lateCreated` after the first installment was paid on day 20
(the verdict of that day is false: only the installment of day 14 is
missed). -/
def lateStore : DB :=
  { borrowers := [⟨"a", "b", false⟩]
    loans := [⟨0, 300, 0, 3, 0, "active", 200, some (20 * nanosPerDay)⟩]
    schedules := [⟨0, 1, 7 * nanosPerDay, 100, true⟩, ⟨0, 2, 14 * nanosPerDay, 100, false⟩,
      ⟨0, 3, 21 * nanosPerDay, 100, false⟩]
    payments := [⟨0, 0, 100, 20 * nanosPerDay⟩] }

/-- The store `lateCreated` after the same borrower took, on day 20, a
second loan of 200 at rate 0 over 2 weeks (installments of 100 due on days 27
and 34). -/
def twoLoansCreated : DB :=
  { borrowers := [⟨"a", "b", false⟩]
    loans := [⟨0, 300, 0, 3, 0, "active", 300, none⟩,
      ⟨0, 200, 0, 2, 20 * nanosPerDay, "active", 200, none⟩]
    schedules := [⟨0, 1, 7 * nanosPerDay, 100, false⟩, ⟨0, 2, 14 * nanosPerDay, 100, false⟩,
      ⟨0, 3, 21 * nanosPerDay, 100, false⟩, ⟨1, 1, 27 * nanosPerDay, 100, false⟩,
      ⟨1, 2, 34 * nanosPerDay, 100, false⟩]
    payments := [] }

/-- The store `twoLoansCreated` after `IsDelinquent` was called for the first
loan on day 22: the borrower is flagged. -/
def twoLoansFlagged : DB :=
  { twoLoansCreated with borrowers := [⟨"a", "b", true⟩] }

/-- The store after creating a borrower and a loan of 9,000,000,000,000,000,000
at 100% over 52 weeks: the total, twice the principal, is above `2^63`. -/
def overflowCreated : DB :=
  (CreateLoan noFaults 0 0 9000000000000000000 100 52
    (Borrowers.Create noFaults DB.empty "a" "b").2).2

/-! ## The loop computes the longest run -/

theorem leadRun_le_bestRun (cd : Int) (l : List Schedule) : leadRun cd l ≤ bestRun cd l := by
  cases l with
  | nil => simp [leadRun, bestRun]
  | cons s t => simp [bestRun]

theorem foldl_streakStep (cd : Int) (l : List Schedule) :
    ∀ c m : Nat, c ≤ m →
      (l.foldl (streakStep cd) (c, m)).2 = max m (max (c + leadRun cd l) (bestRun cd l)) := by
  induction l with
  | nil => intro c m h; simp [leadRun, bestRun]; omega
  | cons s t ih =>
    intro c m h
    have hle := leadRun_le_bestRun cd t
    by_cases hs : missed cd s = true
    · have hstep : streakStep cd (c, m) s = (c + 1, if c + 1 > m then c + 1 else m) := by
        unfold missed at hs
        simp [streakStep, hs]
      rw [List.foldl_cons, hstep, ih _ _ (by split <;> omega)]
      simp only [leadRun, bestRun, hs, if_true]
      split <;> omega
    · have hstep : streakStep cd (c, m) s = (0, m) := by
        unfold missed at hs
        simp [streakStep, hs]
      rw [List.foldl_cons, hstep, ih _ _ (Nat.zero_le _)]
      simp only [leadRun, bestRun, hs]
      simp only [Bool.false_eq_true, if_false]
      omega

theorem maxConsecutiveMissed_eq_bestRun (l : List Schedule) (cd : Int) :
    maxConsecutiveMissed l cd = bestRun cd l := by
  have h := foldl_streakStep cd l 0 0 (Nat.le_refl 0)
  have hle := leadRun_le_bestRun cd l
  unfold maxConsecutiveMissed
  rw [h]; omega

theorem le_leadRun_iff (cd : Int) (l : List Schedule) :
    ∀ k : Nat, k ≤ leadRun cd l ↔ ∀ j, j < k → ∃ s, l[j]? = some s ∧ missed cd s = true := by
  induction l with
  | nil =>
    intro k
    simp only [leadRun, Nat.le_zero, List.getElem?_nil]
    constructor
    · intro h j hj; omega
    · intro h
      by_contra hk
      obtain ⟨s, hs, _⟩ := h 0 (by omega)
      cases hs
  | cons s t ih =>
    intro k
    by_cases hs : missed cd s = true
    · simp only [leadRun, hs, if_true]
      cases k with
      | zero => simp
      | succ k =>
        rw [Nat.succ_le_succ_iff, ih k]
        constructor
        · intro h j hj
          cases j with
          | zero => exact ⟨s, by simp, hs⟩
          | succ j => simpa using h j (by omega)
        · intro h j hj
          simpa using h (j + 1) (by omega)
    · simp only [leadRun, hs, Bool.false_eq_true, if_false, Nat.le_zero]
      constructor
      · intro h j hj; omega
      · intro h
        by_contra hk
        obtain ⟨s', hs', hm⟩ := h 0 (by omega)
        simp at hs'
        subst hs'
        exact hs hm

theorem le_bestRun_iff (cd : Int) (l : List Schedule) :
    ∀ k : Nat, 1 ≤ k →
      (k ≤ bestRun cd l ↔
        ∃ i, ∀ j, j < k → ∃ s, l[i + j]? = some s ∧ missed cd s = true) := by
  induction l with
  | nil =>
    intro k hk
    simp only [bestRun, List.getElem?_nil]
    constructor
    · intro h; omega
    · rintro ⟨i, h⟩
      obtain ⟨s, hs, _⟩ := h 0 (by omega)
      cases hs
  | cons s t ih =>
    intro k hk
    simp only [bestRun]
    rw [le_max_iff, le_leadRun_iff, ih k hk]
    constructor
    · rintro (h | ⟨i, h⟩)
      · exact ⟨0, fun j hj => by simpa using h j hj⟩
      · refine ⟨i + 1, fun j hj => ?_⟩
        have := h j hj
        rwa [show i + 1 + j = (i + j) + 1 by omega, List.getElem?_cons_succ]
    · rintro ⟨i, h⟩
      cases i with
      | zero => left; intro j hj; simpa using h j hj
      | succ i =>
        right
        refine ⟨i, fun j hj => ?_⟩
        have := h j hj
        rwa [show i + 1 + j = (i + j) + 1 by omega, List.getElem?_cons_succ] at this

theorem missed_iff (cd : Int) (s : Schedule) :
    missed cd s = true ↔ s.Paid = false ∧ s.DueDate < cd := by
  simp [missed]

/-- The loop result depends on the entries only through the loop's test. -/
theorem bestRun_congr (cd : Int) :
    ∀ l l' : List Schedule, l.map (missed cd) = l'.map (missed cd) →
      bestRun cd l = bestRun cd l' := by
  have hlead : ∀ l l' : List Schedule, l.map (missed cd) = l'.map (missed cd) →
      leadRun cd l = leadRun cd l' := by
    intro l
    induction l with
    | nil => intro l' h; cases l' with
      | nil => rfl
      | cons _ _ => simp at h
    | cons s t ih =>
      intro l' h
      cases l' with
      | nil => simp at h
      | cons s' t' =>
        simp only [List.map_cons, List.cons.injEq] at h
        simp only [leadRun, h.1, ih t' h.2]
  intro l
  induction l with
  | nil => intro l' h; cases l' with
    | nil => rfl
    | cons _ _ => simp at h
  | cons s t ih =>
    intro l' h
    cases l' with
    | nil => simp at h
    | cons s' t' =>
      have h' := h
      simp only [List.map_cons, List.cons.injEq] at h'
      simp only [bestRun, hlead _ _ h, ih t' h'.2]

theorem isDelinquentVerdict_iff_window (l : List Schedule) (cd : Int) :
    isDelinquentVerdict l cd = true ↔
      ∃ i a b, l[i]? = some a ∧ l[i + 1]? = some b ∧
        (a.Paid = false ∧ a.DueDate < cd) ∧ (b.Paid = false ∧ b.DueDate < cd) := by
  unfold isDelinquentVerdict
  rw [decide_eq_true_iff, ge_iff_le, maxConsecutiveMissed_eq_bestRun,
    le_bestRun_iff cd l 2 (by omega)]
  constructor
  · rintro ⟨i, h⟩
    obtain ⟨a, ha, hma⟩ := h 0 (by omega)
    obtain ⟨b, hb, hmb⟩ := h 1 (by omega)
    exact ⟨i, a, b, by simpa using ha, hb, (missed_iff cd a).1 hma, (missed_iff cd b).1 hmb⟩
  · rintro ⟨i, a, b, ha, hb, hma, hmb⟩
    refine ⟨i, fun j hj => ?_⟩
    have hj' : j = 0 ∨ j = 1 := by omega
    rcases hj' with rfl | rfl
    · exact ⟨a, by simpa using ha, (missed_iff cd a).2 hma⟩
    · exact ⟨b, hb, (missed_iff cd b).2 hmb⟩

/-! ## Queries on the schedule table -/

theorem mem_orderByWeekNumber {r : Nat × Schedule} {rows : List (Nat × Schedule)} :
    r ∈ orderByWeekNumber rows ↔ r ∈ rows :=
  (List.perm_insertionSort _ rows).mem_iff

theorem orderByWeekNumber_sorted (rows : List (Nat × Schedule)) :
    List.Sorted (fun a b => a.2.WeekNumber ≤ b.2.WeekNumber) (orderByWeekNumber rows) :=
  List.sorted_insertionSort _ rows

theorem orderByWeekNumber_eq_nil {rows : List (Nat × Schedule)} :
    orderByWeekNumber rows = [] ↔ rows = [] := by
  constructor
  · intro h
    have := (List.perm_insertionSort (fun a b : Nat × Schedule => a.2.WeekNumber ≤ b.2.WeekNumber)
      rows).length_eq
    unfold orderByWeekNumber at h
    rw [h] at this
    exact List.length_eq_zero.1 this.symm
  · rintro rfl; rfl

theorem mem_unpaidSchedulesOfLoan {table : List Schedule} {loanID i : Nat} {s : Schedule} :
    (i, s) ∈ unpaidSchedulesOfLoan table loanID ↔
      table[i]? = some s ∧ s.LoanID = loanID ∧ s.Paid = false := by
  unfold unpaidSchedulesOfLoan
  rw [mem_orderByWeekNumber, List.mem_filter, List.mk_mem_enum_iff_getElem?]
  simp

theorem mem_schedulesOfLoan {table : List Schedule} {loanID i : Nat} {s : Schedule} :
    (i, s) ∈ schedulesOfLoan table loanID ↔ table[i]? = some s ∧ s.LoanID = loanID := by
  unfold schedulesOfLoan
  rw [mem_orderByWeekNumber, List.mem_filter, List.mk_mem_enum_iff_getElem?]
  simp

/-- The head of the unpaid list is an unpaid row of the loan with the least
week number among the loan's unpaid rows. -/
theorem unpaidSchedulesOfLoan_head {table : List Schedule} {loanID i : Nat} {s : Schedule}
    {rest : List (Nat × Schedule)} (h : unpaidSchedulesOfLoan table loanID = (i, s) :: rest) :
    table[i]? = some s ∧ s.LoanID = loanID ∧ s.Paid = false ∧
      ∀ (j : Nat) (t : Schedule), table[j]? = some t → t.LoanID = loanID → t.Paid = false →
        s.WeekNumber ≤ t.WeekNumber := by
  have hmem : (i, s) ∈ unpaidSchedulesOfLoan table loanID := by rw [h]; exact List.mem_cons_self _ _
  obtain ⟨h1, h2, h3⟩ := mem_unpaidSchedulesOfLoan.1 hmem
  refine ⟨h1, h2, h3, ?_⟩
  intro j t ht1 ht2 ht3
  have hjt : (j, t) ∈ unpaidSchedulesOfLoan table loanID := mem_unpaidSchedulesOfLoan.2 ⟨ht1, ht2, ht3⟩
  have hsorted := orderByWeekNumber_sorted
    (table.enum.filter (fun r => decide (r.2.LoanID = loanID) && decide (r.2.Paid = false)))
  have h' : orderByWeekNumber
      (table.enum.filter (fun r => decide (r.2.LoanID = loanID) && decide (r.2.Paid = false))) =
      (i, s) :: rest := h
  rw [h'] at hsorted
  rw [h] at hjt
  rcases List.mem_cons.1 hjt with heq | hrest
  · cases heq; exact Nat.le_refl _
  · exact (List.sorted_cons.1 hsorted).1 _ hrest

theorem countUnpaidOfLoan_eq_zero {table : List Schedule} {loanID : Nat} :
    countUnpaidOfLoan table loanID = 0 ↔ ∀ s ∈ table, s.LoanID = loanID → s.Paid = true := by
  unfold countUnpaidOfLoan
  rw [List.countP_eq_zero]
  simp

theorem unpaidSchedulesOfLoan_eq_nil {table : List Schedule} {loanID : Nat} :
    unpaidSchedulesOfLoan table loanID = [] ↔ countUnpaidOfLoan table loanID = 0 := by
  rw [countUnpaidOfLoan_eq_zero]
  unfold unpaidSchedulesOfLoan
  rw [orderByWeekNumber_eq_nil, List.filter_eq_nil_iff]
  constructor
  · intro h s hs hl
    obtain ⟨n, hn⟩ := List.getElem?_of_mem hs
    have := h (n, s) (List.mk_mem_enum_iff_getElem?.2 hn)
    simpa [hl] using this
  · rintro h ⟨n, s⟩ hmem
    have hs : s ∈ table := List.getElem?_mem (List.mk_mem_enum_iff_getElem?.1 hmem)
    have := h s hs
    by_cases hl : s.LoanID = loanID
    · simp [hl, this hl]
    · simp [hl]

theorem updateWhereID_of_getElem? {α : Type} {rows : List α} {id : Nat} {r : α} (g : α → α)
    (h : rows[id]? = some r) : updateWhereID rows id g = rows.set id (g r) := by
  simp [updateWhereID, h]

theorem updateWhereID_length {α : Type} (rows : List α) (id : Nat) (g : α → α) :
    (updateWhereID rows id g).length = rows.length := by
  unfold updateWhereID
  split <;> simp

theorem getElem?_updateWhereID {α : Type} (rows : List α) (id j : Nat) (g : α → α) :
    (updateWhereID rows id g)[j]? = if id = j then rows[j]?.map g else rows[j]? := by
  unfold updateWhereID
  split
  · rename_i r hr
    rw [List.getElem?_set]
    by_cases hij : id = j
    · subst hij
      have hlt : id < rows.length := by
        rcases Nat.lt_or_ge id rows.length with h | h
        · exact h
        · rw [List.getElem?_eq_none h] at hr; cases hr
      simp [hr, hlt]
    · simp [hij]
  · rename_i hr
    by_cases hij : id = j
    · subst hij; simp [hr]
    · simp [hij]

/-! ## The payment transaction, step by step -/

/-- A successful run of the transaction function: the validations passed, no
call that was made failed, and the final state is the initial one with the
six writes applied. -/
theorem MakePaymentTx_success {f : Faults} {pd cd : Int} {L : Nat} {a : Int} {db : DB}
    (h : (MakePaymentTx f pd cd L a db).1 = none) :
    ∃ loan i sch rest,
      db.loans[L]? = some loan ∧
      unpaidSchedulesOfLoan db.schedules L = (i, sch) :: rest ∧
      a = sch.Amount ∧
      (f .loansGetByID = none ∧ f .schedulesGetUnpaidByLoanID = none ∧
        (∀ op ∈ paymentWriteCalls, f op = none) ∧
        (countUnpaidOfLoan (db.schedules.set i { sch with Paid := true }) L = 0 →
          f .loansUpdateStatus = none)) ∧
      (MakePaymentTx f pd cd L a db).2 =
        { payments := db.payments ++ [⟨L, i, a, pd⟩]
          schedules := db.schedules.set i { sch with Paid := true }
          loans := db.loans.set L
            { loan with
              CurrentBalance := wrapInt64 (loan.CurrentBalance - a)
              LastPaymentDate := some pd
              Status :=
                if countUnpaidOfLoan (db.schedules.set i { sch with Paid := true }) L = 0
                then "closed" else loan.Status }
          borrowers := updateWhereID db.borrowers loan.BorrowerID (fun b =>
            { b with
              IsDelinquent := isDelinquentVerdict
                ((schedulesOfLoan (db.schedules.set i { sch with Paid := true }) L).map Prod.snd)
                cd }) } := by
  have hdef := h
  unfold MakePaymentTx at h
  rcases h1 : f .loansGetByID with _ | c
  swap
  · simp [Loans.GetByID, h1] at h
  rcases hl : db.loans[L]? with _ | loan
  · simp [Loans.GetByID, h1, hl] at h
  simp only [Loans.GetByID, h1, hl] at h
  rcases h2 : f .schedulesGetUnpaidByLoanID with _ | c
  swap
  · simp [Schedules.GetUnpaidByLoanID, h2] at h
  simp only [Schedules.GetUnpaidByLoanID, h2] at h
  rcases hu : unpaidSchedulesOfLoan db.schedules L with _ | ⟨⟨i, sch⟩, rest⟩
  · simp [hu] at h
  simp only [hu] at h
  by_cases ha : a = sch.Amount
  swap
  · simp [ha] at h
  obtain ⟨hsi, -, -, -⟩ := unpaidSchedulesOfLoan_head hu
  have hLlt : L < db.loans.length := by
    rcases Nat.lt_or_ge L db.loans.length with h' | h'
    · exact h'
    · rw [List.getElem?_eq_none h'] at hl; cases hl
  simp only [ha, ne_eq, not_true_eq_false, if_false] at h
  rcases h3 : f .paymentsCreate with _ | c
  swap
  · simp [Payments.Create, h3] at h
  simp only [Payments.Create, h3] at h
  rcases h4 : f .schedulesUpdatePaidStatus with _ | c
  swap
  · simp [Schedules.UpdatePaidStatus, h4] at h
  simp only [Schedules.UpdatePaidStatus, h4, updateWhereID_of_getElem? _ hsi] at h
  rcases h5 : f .loansUpdateBalance with _ | c
  swap
  · simp [Loans.UpdateBalance, h5] at h
  simp only [Loans.UpdateBalance, h5, updateWhereID_of_getElem? _ hl] at h
  rcases h6 : f .loansUpdateLastPaymentDate with _ | c
  swap
  · simp [Loans.UpdateLastPaymentDate, h6] at h
  have hl2 : ∀ x : Loan, (db.loans.set L x)[L]? = some x := by
    intro x; simp [List.getElem?_set, hLlt]
  simp only [Loans.UpdateLastPaymentDate, h6, updateWhereID_of_getElem? _ (hl2 _)] at h
  rcases h7 : f .schedulesCountUnpaidByLoanID with _ | c
  swap
  · simp [Schedules.CountUnpaidByLoanID, h7] at h
  simp only [Schedules.CountUnpaidByLoanID, h7] at h
  rcases h9 : f .schedulesGetByLoanID with _ | c
  swap
  · exfalso
    by_cases hc : countUnpaidOfLoan (db.schedules.set i { sch with Paid := true }) L = 0
    · cases h8 : f .loansUpdateStatus <;>
        simp [hc, Loans.UpdateStatus, h8, Schedules.GetByLoanID, h9] at h
    · simp [hc, Schedules.GetByLoanID, h9] at h
  rcases h10 : f .borrowersUpdateDelinquencyStatus with _ | c
  swap
  · exfalso
    by_cases hc : countUnpaidOfLoan (db.schedules.set i { sch with Paid := true }) L = 0
    · cases h8 : f .loansUpdateStatus <;>
        simp [hc, Loans.UpdateStatus, h8, Schedules.GetByLoanID, h9,
          Borrowers.UpdateDelinquencyStatus, h10] at h
    · simp [hc, Schedules.GetByLoanID, h9, Borrowers.UpdateDelinquencyStatus, h10] at h
  have hops : ∀ op ∈ paymentWriteCalls, f op = none := by
    intro op hop
    simp only [paymentWriteCalls, List.mem_cons, List.mem_singleton, List.not_mem_nil,
      or_false] at hop
    rcases hop with rfl | rfl | rfl | rfl | rfl | rfl | rfl <;> assumption
  by_cases hc : countUnpaidOfLoan (db.schedules.set i { sch with Paid := true }) L = 0
  · rcases h8 : f .loansUpdateStatus with _ | c
    swap
    · simp [hc, Loans.UpdateStatus, h8] at h
    refine ⟨loan, i, sch, rest, rfl, rfl, ha, ⟨rfl, rfl, hops, fun _ => rfl⟩, ?_⟩
    simp [MakePaymentTx, Loans.GetByID, h1, hl, Schedules.GetUnpaidByLoanID, h2, hu, ha,
      Payments.Create, h3, Schedules.UpdatePaidStatus, h4, updateWhereID_of_getElem? _ hsi,
      Loans.UpdateBalance, h5, updateWhereID_of_getElem? _ hl, Loans.UpdateLastPaymentDate, h6,
      Schedules.CountUnpaidByLoanID, h7, hc, Loans.UpdateStatus, h8, Schedules.GetByLoanID, h9,
      Borrowers.UpdateDelinquencyStatus, h10, updateWhereID_of_getElem? _ (hl2 _)]
  · refine ⟨loan, i, sch, rest, rfl, rfl, ha, ⟨rfl, rfl, hops, fun h0 => absurd h0 hc⟩, ?_⟩
    simp [MakePaymentTx, Loans.GetByID, h1, hl, Schedules.GetUnpaidByLoanID, h2, hu, ha,
      Payments.Create, h3, Schedules.UpdatePaidStatus, h4, updateWhereID_of_getElem? _ hsi,
      Loans.UpdateBalance, h5, updateWhereID_of_getElem? _ hl, Loans.UpdateLastPaymentDate, h6,
      Schedules.CountUnpaidByLoanID, h7, hc, Schedules.GetByLoanID, h9,
      Borrowers.UpdateDelinquencyStatus, h10, updateWhereID_of_getElem? _ (hl2 _)]

/-- Without injected failures the transaction function fails exactly at the
three validations, in order. -/
theorem MakePaymentTx_noFaults_fst (pd cd : Int) (L : Nat) (a : Int) (db : DB) :
    (MakePaymentTx noFaults pd cd L a db).1 =
      match db.loans[L]? with
      | none => some Err.recordNotFound
      | some _ =>
        match unpaidSchedulesOfLoan db.schedules L with
        | [] => some Err.noUnpaidSchedules
        | schedule :: _ => if a ≠ schedule.2.Amount then some Err.amountMismatch else none := by
  unfold MakePaymentTx
  rcases hl : db.loans[L]? with _ | loan
  · simp [Loans.GetByID, noFaults, hl]
  rcases hu : unpaidSchedulesOfLoan db.schedules L with _ | ⟨⟨i, sch⟩, rest⟩
  · simp [Loans.GetByID, noFaults, hl, Schedules.GetUnpaidByLoanID, hu]
  by_cases ha : a = sch.Amount
  swap
  · simp [Loans.GetByID, noFaults, hl, Schedules.GetUnpaidByLoanID, hu, ha]
  by_cases hc : countUnpaidOfLoan
      (updateWhereID db.schedules i fun s => { s with Paid := true }) L = 0
  · simp [Loans.GetByID, noFaults, hl, Schedules.GetUnpaidByLoanID, hu, ha,
      Payments.Create, Schedules.UpdatePaidStatus, Loans.UpdateBalance,
      Loans.UpdateLastPaymentDate, Schedules.CountUnpaidByLoanID, hc, Loans.UpdateStatus,
      Schedules.GetByLoanID, Borrowers.UpdateDelinquencyStatus]
  · simp [Loans.GetByID, noFaults, hl, Schedules.GetUnpaidByLoanID, hu, ha,
      Payments.Create, Schedules.UpdatePaidStatus, Loans.UpdateBalance,
      Loans.UpdateLastPaymentDate, Schedules.CountUnpaidByLoanID, hc,
      Schedules.GetByLoanID, Borrowers.UpdateDelinquencyStatus]

/-- The validation phase performs no write: whenever the transaction
function stops at one of the three validations, the transaction state is the
initial state. -/
theorem MakePaymentTx_validation_failure {f : Faults} {pd cd : Int} {L : Nat} {a : Int} {db : DB}
    (hv : db.loans[L]? = none ∨ unpaidSchedulesOfLoan db.schedules L = [] ∨
      ∃ i sch rest, unpaidSchedulesOfLoan db.schedules L = (i, sch) :: rest ∧ a ≠ sch.Amount) :
    (MakePaymentTx f pd cd L a db).1 ≠ none ∧ (MakePaymentTx f pd cd L a db).2 = db := by
  unfold MakePaymentTx
  rcases h1 : f .loansGetByID with _ | c
  swap
  · simp [Loans.GetByID, h1]
  rcases hl : db.loans[L]? with _ | loan
  · simp [Loans.GetByID, h1, hl]
  rcases h2 : f .schedulesGetUnpaidByLoanID with _ | c
  swap
  · simp [Loans.GetByID, h1, hl, Schedules.GetUnpaidByLoanID, h2]
  rcases hv with hv | hv | ⟨i, sch, rest, hu, ha⟩
  · rw [hl] at hv; cases hv
  · simp [Loans.GetByID, h1, hl, Schedules.GetUnpaidByLoanID, h2, hv]
  · simp [Loans.GetByID, h1, hl, Schedules.GetUnpaidByLoanID, h2, hu, ha]

theorem WithTransaction_fst (fn : DB → Option Err × DB) (db : DB) :
    (WithTransaction fn db).1 = (fn db).1 := by
  unfold WithTransaction
  split <;> simp_all

theorem WithTransaction_snd_of_none {fn : DB → Option Err × DB} {db : DB}
    (h : (fn db).1 = none) : (WithTransaction fn db).2 = (fn db).2 := by
  unfold WithTransaction
  split <;> simp_all

theorem WithTransaction_snd_of_ne_none {fn : DB → Option Err × DB} {db : DB}
    (h : (fn db).1 ≠ none) : (WithTransaction fn db).2 = db := by
  unfold WithTransaction
  split <;> simp_all

/-! ## The `float64` model -/

theorem bitLengthAux_zero (fuel : Nat) : bitLengthAux fuel 0 = 0 := by
  cases fuel <;> simp [bitLengthAux]

/-- The recursion bound `n` is enough: `bitLength n` is the number of binary
digits of `n`. -/
theorem bitLengthAux_spec :
    ∀ (fuel n : Nat), n ≤ fuel → 0 < n →
      2 ^ (bitLengthAux fuel n - 1) ≤ n ∧ n < 2 ^ bitLengthAux fuel n := by
  intro fuel
  induction fuel with
  | zero => intro n h1 h2; omega
  | succ fuel ih =>
    intro n h1 h2
    have hn : n ≠ 0 := by omega
    simp only [bitLengthAux, if_neg hn, Nat.add_sub_cancel]
    by_cases h0 : n / 2 = 0
    · rw [h0, bitLengthAux_zero]
      have : n = 1 := by omega
      subst this
      decide
    · obtain ⟨hlo, hhi⟩ := ih (n / 2) (by omega) (by omega)
      have hk : 1 ≤ bitLengthAux fuel (n / 2) := by
        rcases Nat.eq_zero_or_pos (bitLengthAux fuel (n / 2)) with h | h
        · rw [h] at hhi; simp at hhi; omega
        · exact h
      have e : 2 ^ bitLengthAux fuel (n / 2) = 2 * 2 ^ (bitLengthAux fuel (n / 2) - 1) := by
        rw [← pow_succ']
        congr 1
        omega
      rw [pow_succ]
      omega

theorem bitLength_spec (n : Nat) (h : 0 < n) :
    2 ^ (bitLength n - 1) ≤ n ∧ n < 2 ^ bitLength n :=
  bitLengthAux_spec n n (Nat.le_refl n) h

/-! ## Worked values of the amortization formula -/

set_option maxRecDepth 100000 in
theorem calculateTotalDue_5000000 :
    (newLoanRow 0 0 5000000 10 50).CalculateTotalDue = 5480769 := by
  decide

set_option maxRecDepth 100000 in
theorem calculateTotalDue_300 : calculateTotalDue 300 0 3 = 300 := by
  decide

set_option maxRecDepth 100000 in
theorem calculateTotalDue_7800 : calculateTotalDue 7800 10 10 = 7949 := by
  decide

set_option maxRecDepth 100000 in
theorem calculateTotalDue_13 : calculateTotalDue 13 10 80 = 14 := by
  decide

set_option maxRecDepth 100000 in
theorem calculateWeeklyPayment_7800 :
    (newLoanRow 0 0 7800 10 10).CalculateWeeklyPayment = some 794 := by
  decide

set_option maxRecDepth 100000 in
theorem calculateWeeklyPayment_5000000 :
    (newLoanRow 0 0 5000000 10 50).CalculateWeeklyPayment = some 109615 := by
  decide

set_option maxRecDepth 100000 in
theorem calculateTotalDue_overflow :
    calculateTotalDue 9000000000000000000 100 52 = -9223372036854775808 := by
  decide

set_option maxRecDepth 100000 in
theorem calculateWeeklyPayment_overflow :
    (newLoanRow 0 0 9000000000000000000 100 52).CalculateWeeklyPayment =
      some (-177372539170284150) := by
  decide

set_option maxRecDepth 100000 in
theorem calculateWeeklyPayment_maxTerm :
    (newLoanRow 0 0 100 0 18446744073709551615).CalculateTotalDue = 100 ∧
    (newLoanRow 0 0 100 0 18446744073709551615).CalculateWeeklyPayment = some (-100) := by
  decide

/-! ## Arithmetic of the weekly installment -/

theorem tdiv_mul_bounds_nonneg (td n m : Int) (hn : 1 ≤ n) (hm0 : 0 ≤ m) (hmn : m ≤ n)
    (htd : 0 ≤ td) : 0 ≤ m * td.tdiv n ∧ m * td.tdiv n ≤ td := by
  have hq : 0 ≤ td.tdiv n := Int.tdiv_nonneg htd (by omega)
  have hr : 0 ≤ td.tmod n := Int.tmod_nonneg n htd
  have hdm := Int.tdiv_add_tmod td n
  constructor
  · exact Int.mul_nonneg hm0 hq
  · have : m * td.tdiv n ≤ n * td.tdiv n := Int.mul_le_mul_of_nonneg_right hmn hq
    omega

theorem tdiv_mul_bounds_nonpos (td n m : Int) (hn : 1 ≤ n) (hm0 : 0 ≤ m) (hmn : m ≤ n)
    (htd : td ≤ 0) : td ≤ m * td.tdiv n ∧ m * td.tdiv n ≤ 0 := by
  have h := tdiv_mul_bounds_nonneg (-td) n m hn hm0 hmn (by omega)
  rw [Int.neg_tdiv, Int.mul_neg] at h
  omega

theorem wrapInt64_of_inInt64 {x : Int} (h : inInt64 x) : wrapInt64 x = x := by
  unfold inInt64 at h
  unfold wrapInt64
  omega

theorem inInt64_wrapInt64 (x : Int) : inInt64 (wrapInt64 x) := by
  unfold inInt64 wrapInt64
  omega

theorem inInt64_toInt64 (q : F64) : inInt64 (toInt64 q) := by
  have hmin : inInt64 (-9223372036854775808) := by unfold inInt64; omega
  cases q with
  | finite m e =>
    simp only [toInt64]
    generalize (if 0 ≤ e then m * 2 ^ e.toNat else Int.tdiv m (2 ^ (-e).toNat)) = t
    split
    · assumption
    · exact hmin
  | inf negative => exact hmin
  | nan => exact hmin

theorem inInt64_calculateTotalDue (loan : Loan) : inInt64 loan.CalculateTotalDue :=
  inInt64_toInt64 _

/-- The total due and the weekly installment depend only on the principal,
the rate and the term. -/
theorem weeklyAmount_congr {l l' : Loan} (h1 : l'.Amount = l.Amount)
    (h2 : l'.InterestRate = l.InterestRate) (h3 : l'.TermWeeks = l.TermWeeks) :
    weeklyAmount l' = weeklyAmount l ∧ l'.CalculateTotalDue = l.CalculateTotalDue := by
  have htd : l'.CalculateTotalDue = l.CalculateTotalDue := by
    unfold Loan.CalculateTotalDue; rw [h1, h2, h3]
  refine ⟨?_, htd⟩
  unfold weeklyAmount Loan.CalculateWeeklyPayment
  rw [htd, h3]

/-- For a term `1 ≤ n < 2^63` the weekly installment is the truncated
quotient, and `k` installments (`k ≤ n`) never exceed the total due in
absolute value: the balance after `k` payments is representable. -/
theorem weeklyAmount_spec (loan : Loan) (h1 : 1 ≤ loan.TermWeeks)
    (h2 : loan.TermWeeks < 9223372036854775808) :
    loan.CalculateWeeklyPayment = some (weeklyAmount loan) ∧
    weeklyAmount loan = loan.CalculateTotalDue.tdiv (loan.TermWeeks : Int) ∧
    ∀ k : Nat, k ≤ loan.TermWeeks →
      inInt64 (loan.CalculateTotalDue - (k : Int) * weeklyAmount loan) ∧
      (0 ≤ loan.CalculateTotalDue →
        0 ≤ loan.CalculateTotalDue - (k : Int) * weeklyAmount loan ∧
        loan.CalculateTotalDue - (k : Int) * weeklyAmount loan ≤ loan.CalculateTotalDue) := by
  have htd := inInt64_calculateTotalDue loan
  have hw : wrapInt64 (loan.TermWeeks : Int) = (loan.TermWeeks : Int) :=
    wrapInt64_of_inInt64 (by unfold inInt64; omega)
  have hbound : ∀ m : Int, 0 ≤ m → m ≤ (loan.TermWeeks : Int) →
      inInt64 (loan.CalculateTotalDue - m * loan.CalculateTotalDue.tdiv (loan.TermWeeks : Int)) ∧
      (0 ≤ loan.CalculateTotalDue →
        0 ≤ loan.CalculateTotalDue - m * loan.CalculateTotalDue.tdiv (loan.TermWeeks : Int) ∧
        loan.CalculateTotalDue - m * loan.CalculateTotalDue.tdiv (loan.TermWeeks : Int) ≤
          loan.CalculateTotalDue) := by
    intro m hm0 hmn
    unfold inInt64 at htd ⊢
    rcases Int.le_total 0 loan.CalculateTotalDue with hpos | hneg
    · have := tdiv_mul_bounds_nonneg loan.CalculateTotalDue loan.TermWeeks m (by omega) hm0 hmn hpos
      omega
    · have := tdiv_mul_bounds_nonpos loan.CalculateTotalDue loan.TermWeeks m (by omega) hm0 hmn hneg
      omega
  have hq : inInt64 (loan.CalculateTotalDue.tdiv (loan.TermWeeks : Int)) := by
    have h := (hbound ((loan.TermWeeks : Int) - 1) (by omega) (by omega)).1
    have hn := (hbound (loan.TermWeeks : Int) (by omega) (by omega)).1
    unfold inInt64 at h hn htd ⊢
    have e : ((loan.TermWeeks : Int) - 1) * loan.CalculateTotalDue.tdiv (loan.TermWeeks : Int) =
        (loan.TermWeeks : Int) * loan.CalculateTotalDue.tdiv (loan.TermWeeks : Int) -
          loan.CalculateTotalDue.tdiv (loan.TermWeeks : Int) := by ring
    rw [e] at h
    rcases Int.le_total 0 loan.CalculateTotalDue with hpos | hneg
    · have := tdiv_mul_bounds_nonneg loan.CalculateTotalDue loan.TermWeeks 1 (by omega)
        (by omega) (by omega) hpos
      omega
    · have := tdiv_mul_bounds_nonpos loan.CalculateTotalDue loan.TermWeeks 1 (by omega)
        (by omega) (by omega) hneg
      omega
  have hcw : loan.CalculateWeeklyPayment =
      some (loan.CalculateTotalDue.tdiv (loan.TermWeeks : Int)) := by
    unfold Loan.CalculateWeeklyPayment
    simp only [hw]
    rw [if_neg (by omega), wrapInt64_of_inInt64 hq]
  have hwa : weeklyAmount loan = loan.CalculateTotalDue.tdiv (loan.TermWeeks : Int) := by
    unfold weeklyAmount; rw [hcw]; rfl
  refine ⟨by rw [hwa]; exact hcw, hwa, ?_⟩
  intro k hk
  rw [hwa]
  exact hbound k (by omega) (by omega)

/-! ## Counting installments and payments -/

theorem lt_length_of_getElem? {α : Type} {l : List α} {i : Nat} {x : α} (h : l[i]? = some x) :
    i < l.length := by
  rcases Nat.lt_or_ge i l.length with h' | h'
  · exact h'
  · rw [List.getElem?_eq_none h'] at h; cases h

theorem paidCountOfLoan_set {table : List Schedule} {i : Nat} {sch : Schedule} (L : Nat)
    (hi : table[i]? = some sch) (hp : sch.Paid = false) :
    paidCountOfLoan (table.set i { sch with Paid := true }) L =
      paidCountOfLoan table L + if sch.LoanID = L then 1 else 0 := by
  have hlt := lt_length_of_getElem? hi
  have hget : table[i] = sch := by
    rw [List.getElem?_eq_getElem hlt] at hi; exact Option.some.inj hi
  unfold paidCountOfLoan
  rw [List.countP_set _ _ _ _ hlt, hget]
  simp [hp]

theorem countUnpaidOfLoan_set {table : List Schedule} {i : Nat} {sch : Schedule} (L : Nat)
    (hi : table[i]? = some sch) (hp : sch.Paid = false) :
    countUnpaidOfLoan (table.set i { sch with Paid := true }) L +
      (if sch.LoanID = L then 1 else 0) = countUnpaidOfLoan table L := by
  have hlt := lt_length_of_getElem? hi
  have hget : table[i] = sch := by
    rw [List.getElem?_eq_getElem hlt] at hi; exact Option.some.inj hi
  have hmem : sch ∈ table := List.getElem?_mem hi
  unfold countUnpaidOfLoan
  rw [List.countP_set _ _ _ _ hlt, hget]
  by_cases hL : sch.LoanID = L
  · have hpos : 0 < table.countP
        (fun s => decide (s.LoanID = L) && decide (s.Paid = false)) :=
      List.countP_pos_iff.2 ⟨sch, hmem, by simp [hL, hp]⟩
    generalize List.countP (fun s => decide (s.LoanID = L) && decide (s.Paid = false)) table = c
      at hpos ⊢
    simp [hL, hp]
    omega
  · simp [hL]

theorem paymentsTotal_append_singleton (payments : List Payment) (p : Payment) (L : Nat) :
    paymentsTotal (payments ++ [p]) L =
      paymentsTotal payments L + if p.LoanID = L then p.Amount else 0 := by
  unfold paymentsTotal
  rw [List.filter_append, List.map_append, List.sum_append]
  by_cases h : p.LoanID = L
  · simp [h]
  · simp [h]

theorem paymentsTotal_eq_zero {payments : List Payment} {L : Nat}
    (h : ∀ p ∈ payments, p.LoanID ≠ L) : paymentsTotal payments L = 0 := by
  unfold paymentsTotal
  have : payments.filter (fun p => decide (p.LoanID = L)) = [] := by
    rw [List.filter_eq_nil_iff]
    intro p hp
    simpa using h p hp
  rw [this]; rfl

theorem paidCountOfLoan_eq_zero {table : List Schedule} {L : Nat}
    (h : ∀ s ∈ table, s.LoanID ≠ L) : paidCountOfLoan table L = 0 := by
  unfold paidCountOfLoan
  rw [List.countP_eq_zero]
  intro s hs
  simp [h s hs]

theorem countUnpaidOfLoan_eq_zero_of_ne {table : List Schedule} {L : Nat}
    (h : ∀ s ∈ table, s.LoanID ≠ L) : countUnpaidOfLoan table L = 0 := by
  unfold countUnpaidOfLoan
  rw [List.countP_eq_zero]
  intro s hs
  simp [h s hs]

theorem paidCountOfLoan_append (t₁ t₂ : List Schedule) (L : Nat) :
    paidCountOfLoan (t₁ ++ t₂) L = paidCountOfLoan t₁ L + paidCountOfLoan t₂ L := by
  unfold paidCountOfLoan; rw [List.countP_append]

theorem countUnpaidOfLoan_append (t₁ t₂ : List Schedule) (L : Nat) :
    countUnpaidOfLoan (t₁ ++ t₂) L = countUnpaidOfLoan t₁ L + countUnpaidOfLoan t₂ L := by
  unfold countUnpaidOfLoan; rw [List.countP_append]

theorem mem_scheduleRows {loanID : Nat} {loan : Loan} {w : Int} {s : Schedule}
    (h : s ∈ scheduleRows loanID loan w) :
    s.LoanID = loanID ∧ s.Amount = w ∧ s.Paid = false := by
  unfold scheduleRows at h
  rw [List.mem_map] at h
  obtain ⟨k, _, rfl⟩ := h
  exact ⟨rfl, rfl, rfl⟩

theorem length_scheduleRows (loanID : Nat) (loan : Loan) (w : Int) :
    (scheduleRows loanID loan w).length = loan.TermWeeks := by
  simp [scheduleRows]

theorem paidCountOfLoan_scheduleRows (loanID : Nat) (loan : Loan) (w : Int) (L : Nat) :
    paidCountOfLoan (scheduleRows loanID loan w) L = 0 := by
  unfold paidCountOfLoan
  rw [List.countP_eq_zero]
  intro s hs
  simp [(mem_scheduleRows hs).2.2]

theorem countUnpaidOfLoan_scheduleRows (loanID : Nat) (loan : Loan) (w : Int) :
    countUnpaidOfLoan (scheduleRows loanID loan w) loanID = loan.TermWeeks := by
  unfold countUnpaidOfLoan
  rw [← length_scheduleRows loanID loan w, List.countP_eq_length]
  intro s hs
  simp [(mem_scheduleRows hs).1, (mem_scheduleRows hs).2.2]

theorem exists_schedule_iff_count_pos (table : List Schedule) (L : Nat) :
    (∃ s ∈ table, s.LoanID = L) ↔ 0 < paidCountOfLoan table L + countUnpaidOfLoan table L := by
  unfold paidCountOfLoan countUnpaidOfLoan
  constructor
  · rintro ⟨s, hs, hL⟩
    cases hp : s.Paid
    · have : 0 < table.countP (fun s => decide (s.LoanID = L) && decide (s.Paid = false)) :=
        List.countP_pos_iff.2 ⟨s, hs, by simp [hL, hp]⟩
      omega
    · have : 0 < table.countP (fun s => decide (s.LoanID = L) && decide (s.Paid = true)) :=
        List.countP_pos_iff.2 ⟨s, hs, by simp [hL, hp]⟩
      omega
  · intro h
    have h' : 0 < table.countP (fun s => decide (s.LoanID = L) && decide (s.Paid = true)) ∨
        0 < table.countP (fun s => decide (s.LoanID = L) && decide (s.Paid = false)) := by omega
    rcases h' with h' | h'
    · obtain ⟨s, hs, hp⟩ := List.countP_pos_iff.1 h'
      simp only [Bool.and_eq_true, decide_eq_true_eq] at hp
      exact ⟨s, hs, hp.1⟩
    · obtain ⟨s, hs, hp⟩ := List.countP_pos_iff.1 h'
      simp only [Bool.and_eq_true, decide_eq_true_eq] at hp
      exact ⟨s, hs, hp.1⟩

/-! ## Preservation of the invariant -/

theorem Consistent.empty : Consistent DB.empty :=
  ⟨by simp [DB.empty], by simp [DB.empty], by simp [DB.empty]⟩

/-- The invariant does not mention the borrower table. -/
theorem Consistent.of_tables_eq {db db' : DB} (h : Consistent db) (hl : db'.loans = db.loans)
    (hs : db'.schedules = db.schedules) (hp : db'.payments = db.payments) : Consistent db' := by
  refine ⟨?_, ?_, ?_⟩
  · rw [hs, hl]; exact h.schedule_loan
  · rw [hp, hl]; exact h.payment_loan
  · rw [hs, hl, hp]; exact h.loan

/-- Inserting a loan row (active, balance = total due) keeps the invariant:
no installment and no payment refers to the fresh key. -/
theorem Consistent.addLoan {db : DB} (h : Consistent db) (loan : Loan)
    (hterm : loan.TermWeeks < 9223372036854775808) (hstatus : loan.Status = "active")
    (hbal : loan.CurrentBalance = loan.CalculateTotalDue) :
    Consistent { db with loans := db.loans ++ [loan] } := by
  have hfreshS : ∀ s ∈ db.schedules, s.LoanID ≠ db.loans.length :=
    fun s hs => Nat.ne_of_lt (h.schedule_loan s hs)
  have hfreshP : ∀ p ∈ db.payments, p.LoanID ≠ db.loans.length :=
    fun p hp => Nat.ne_of_lt (h.payment_loan p hp)
  refine ⟨?_, ?_, ?_⟩
  · intro s hs
    have := h.schedule_loan s hs
    simp only [List.length_append, List.length_singleton]; omega
  · intro p hp
    have := h.payment_loan p hp
    simp only [List.length_append, List.length_singleton]; omega
  · intro L loan' hL
    show LoanConsistent db.schedules db.payments L loan'
    have hL' : (db.loans ++ [loan])[L]? = some loan' := hL
    rcases Nat.lt_or_ge L db.loans.length with hlt | hge
    · rw [List.getElem?_append_left hlt] at hL'
      exact h.loan L loan' hL'
    · rw [List.getElem?_append_right hge] at hL'
      have hL0 : L = db.loans.length := by
        have := lt_length_of_getElem? hL'
        simp at this; omega
      subst hL0
      simp at hL'
      subst hL'
      have hp0 := paidCountOfLoan_eq_zero hfreshS
      have hu0 := countUnpaidOfLoan_eq_zero_of_ne hfreshS
      refine ⟨hterm, ?_, ?_, ?_, ?_, ?_⟩
      · intro s hs hsL; exact absurd hsL (hfreshS s hs)
      · rw [hp0, hu0]; omega
      · rw [hp0, paymentsTotal_eq_zero hfreshP]; simp
      · rw [hp0, hbal]; simp
      · right; exact ⟨hstatus, Or.inr hp0⟩

/-- Inserting a loan row and then its generated schedule keeps the
invariant. -/
theorem Consistent.addLoanWithSchedule {db : DB} (h : Consistent db) (loan : Loan) (w : Int)
    (hterm : loan.TermWeeks < 9223372036854775808) (hstatus : loan.Status = "active")
    (hbal : loan.CurrentBalance = loan.CalculateTotalDue)
    (hw : loan.CalculateWeeklyPayment = some w) :
    Consistent { db with
      loans := db.loans ++ [loan]
      schedules := db.schedules ++ scheduleRows db.loans.length loan w } := by
  have hfreshS : ∀ s ∈ db.schedules, s.LoanID ≠ db.loans.length :=
    fun s hs => Nat.ne_of_lt (h.schedule_loan s hs)
  have hfreshP : ∀ p ∈ db.payments, p.LoanID ≠ db.loans.length :=
    fun p hp => Nat.ne_of_lt (h.payment_loan p hp)
  have hwa : weeklyAmount loan = w := by unfold weeklyAmount; rw [hw]; rfl
  refine ⟨?_, ?_, ?_⟩
  · intro s hs
    have hs' : s ∈ db.schedules ++ scheduleRows db.loans.length loan w := hs
    simp only [List.length_append, List.length_singleton]
    rcases List.mem_append.1 hs' with hs' | hs'
    · have := h.schedule_loan s hs'; omega
    · rw [(mem_scheduleRows hs').1]; omega
  · intro p hp
    have := h.payment_loan p hp
    simp only [List.length_append, List.length_singleton]; omega
  · intro L loan' hL
    show LoanConsistent (db.schedules ++ scheduleRows db.loans.length loan w) db.payments L loan'
    have hL' : (db.loans ++ [loan])[L]? = some loan' := hL
    rcases Nat.lt_or_ge L db.loans.length with hlt | hge
    · rw [List.getElem?_append_left hlt] at hL'
      have hold := h.loan L loan' hL'
      have hne : ∀ s ∈ scheduleRows db.loans.length loan w, s.LoanID ≠ L := by
        intro s hs; rw [(mem_scheduleRows hs).1]; omega
      have hp : paidCountOfLoan (db.schedules ++ scheduleRows db.loans.length loan w) L =
          paidCountOfLoan db.schedules L := by
        rw [paidCountOfLoan_append, paidCountOfLoan_eq_zero hne]; rfl
      have hu : countUnpaidOfLoan (db.schedules ++ scheduleRows db.loans.length loan w) L =
          countUnpaidOfLoan db.schedules L := by
        rw [countUnpaidOfLoan_append, countUnpaidOfLoan_eq_zero_of_ne hne]; rfl
      refine ⟨hold.term, ?_, ?_, ?_, ?_, ?_⟩
      · intro s hs hsL
        rcases List.mem_append.1 hs with hs | hs
        · exact hold.amount s hs hsL
        · exact absurd hsL (hne s hs)
      · rw [hp, hu]; exact hold.count
      · rw [hp]; exact hold.paid
      · rw [hp]; exact hold.balance
      · rw [hp, hu]; exact hold.status
    · rw [List.getElem?_append_right hge] at hL'
      have hL0 : L = db.loans.length := by
        have := lt_length_of_getElem? hL'
        simp at this; omega
      subst hL0
      simp at hL'
      subst hL'
      have hp : paidCountOfLoan (db.schedules ++ scheduleRows db.loans.length loan w)
          db.loans.length = 0 := by
        rw [paidCountOfLoan_append, paidCountOfLoan_eq_zero hfreshS,
          paidCountOfLoan_scheduleRows]
      have hu : countUnpaidOfLoan (db.schedules ++ scheduleRows db.loans.length loan w)
          db.loans.length = loan.TermWeeks := by
        rw [countUnpaidOfLoan_append, countUnpaidOfLoan_eq_zero_of_ne hfreshS,
          countUnpaidOfLoan_scheduleRows]; omega
      refine ⟨hterm, ?_, ?_, ?_, ?_, ?_⟩
      · intro s hs hsL
        rcases List.mem_append.1 hs with hs | hs
        · exact absurd hsL (hfreshS s hs)
        · rw [hwa]; exact (mem_scheduleRows hs).2.1
      · rw [hp, hu]; omega
      · rw [hp, paymentsTotal_eq_zero hfreshP]; simp
      · rw [hp, hbal]; simp
      · right; exact ⟨hstatus, Or.inr hp⟩

/-- In a consistent store the subtraction of the payment processor does not
overflow, and the state after a successful payment is consistent. -/
theorem Consistent.pay {db : DB} (h : Consistent db) {L i : Nat} {loan : Loan} {sch : Schedule}
    {rest : List (Nat × Schedule)} (a pd : Int) (borrowers : List Borrower)
    (hl : db.loans[L]? = some loan)
    (hu : unpaidSchedulesOfLoan db.schedules L = (i, sch) :: rest) (ha : a = sch.Amount) :
    wrapInt64 (loan.CurrentBalance - a) = loan.CurrentBalance - a ∧
    loan.Status = "active" ∧
    a = weeklyAmount loan ∧
    Consistent
      { payments := db.payments ++ [⟨L, i, a, pd⟩]
        schedules := db.schedules.set i { sch with Paid := true }
        loans := db.loans.set L
          { loan with
            CurrentBalance := wrapInt64 (loan.CurrentBalance - a)
            LastPaymentDate := some pd
            Status :=
              if countUnpaidOfLoan (db.schedules.set i { sch with Paid := true }) L = 0
              then "closed" else loan.Status }
        borrowers := borrowers } := by
  obtain ⟨hsi, hsL, hsP, -⟩ := unpaidSchedulesOfLoan_head hu
  have hmem : sch ∈ db.schedules := List.getElem?_mem hsi
  have hLlt := lt_length_of_getElem? hl
  have hc := h.loan L loan hl
  have hpc := @paidCountOfLoan_set db.schedules i sch L hsi hsP
  have huc := @countUnpaidOfLoan_set db.schedules i sch L hsi hsP
  rw [if_pos hsL] at hpc huc
  have hcount := hc.count
  have hn1 : 1 ≤ loan.TermWeeks := by omega
  obtain ⟨-, -, hrange⟩ := weeklyAmount_spec loan hn1 hc.term
  have haw : a = weeklyAmount loan := by rw [ha]; exact hc.amount sch hmem hsL
  have hk := (hrange (paidCountOfLoan db.schedules L + 1) (by omega)).1
  have hbal : loan.CurrentBalance - a = loan.CalculateTotalDue -
      ((paidCountOfLoan db.schedules L + 1 : Nat) : Int) * weeklyAmount loan := by
    rw [hc.balance, haw]; push_cast; ring
  have hwrap : wrapInt64 (loan.CurrentBalance - a) = loan.CurrentBalance - a := by
    apply wrapInt64_of_inInt64; rw [hbal]; exact hk
  have hactive : loan.Status = "active" := by
    rcases hc.status with ⟨_, h0, _⟩ | ⟨h1, _⟩
    · omega
    · exact h1
  refine ⟨hwrap, hactive, haw, ?_, ?_, ?_⟩
  · intro s hs
    have hs' : s ∈ db.schedules.set i { sch with Paid := true } := hs
    show s.LoanID < (db.loans.set L _).length
    rw [List.length_set]
    rcases List.mem_or_eq_of_mem_set hs' with hs' | hs'
    · exact h.schedule_loan s hs'
    · rw [hs']; exact h.schedule_loan sch hmem
  · intro p hp
    have hp' : p ∈ db.payments ++ [⟨L, i, a, pd⟩] := hp
    show p.LoanID < (db.loans.set L _).length
    rw [List.length_set]
    rcases List.mem_append.1 hp' with hp' | hp'
    · exact h.payment_loan p hp'
    · rw [List.mem_singleton.1 hp']; exact hLlt
  · intro L' loan' hL'
    show LoanConsistent (db.schedules.set i { sch with Paid := true })
      (db.payments ++ [⟨L, i, a, pd⟩]) L' loan'
    have hL'' : (db.loans.set L
          { loan with
            CurrentBalance := wrapInt64 (loan.CurrentBalance - a)
            LastPaymentDate := some pd
            Status :=
              if countUnpaidOfLoan (db.schedules.set i { sch with Paid := true }) L = 0
              then "closed" else loan.Status })[L']? = some loan' := hL'
    rw [List.getElem?_set] at hL''
    by_cases hLL : L = L'
    · subst hLL
      simp only [if_true, hLlt] at hL''
      have hloan' := Option.some.inj hL''
      have hT : loan'.TermWeeks = loan.TermWeeks := by rw [← hloan']
      have hB : loan'.CurrentBalance = wrapInt64 (loan.CurrentBalance - a) := by rw [← hloan']
      have hS : loan'.Status =
          if countUnpaidOfLoan (db.schedules.set i { sch with Paid := true }) L = 0
          then "closed" else loan.Status := by rw [← hloan']
      obtain ⟨hwk, htd⟩ := @weeklyAmount_congr loan loan'
        (by rw [← hloan']) (by rw [← hloan']) (by rw [← hloan'])
      refine ⟨by rw [hT]; exact hc.term, ?_, ?_, ?_, ?_, ?_⟩
      · intro s hs hsL'
        rw [hwk]
        rcases List.mem_or_eq_of_mem_set hs with hs | hs
        · exact hc.amount s hs hsL'
        · rw [hs]; exact hc.amount sch hmem hsL
      · rw [hT]
        omega
      · rw [hwk, paymentsTotal_append_singleton, hpc, hc.paid]
        simp only [if_true]
        rw [haw]; push_cast; ring
      · rw [hwk, htd, hB, hwrap, hbal, hpc]
      · by_cases h0 : countUnpaidOfLoan (db.schedules.set i { sch with Paid := true }) L = 0
        · left
          refine ⟨?_, h0, by omega⟩
          rw [hS, if_pos h0]
        · right
          refine ⟨?_, Or.inl (by omega)⟩
          rw [hS, if_neg h0]; exact hactive
    · simp only [hLL, if_false] at hL''
      have hold := h.loan L' loan' hL''
      have hpc' := @paidCountOfLoan_set db.schedules i sch L' hsi hsP
      have huc' := @countUnpaidOfLoan_set db.schedules i sch L' hsi hsP
      have hne : ¬ sch.LoanID = L' := by rw [hsL]; exact hLL
      rw [if_neg hne, Nat.add_zero] at hpc' huc'
      refine ⟨hold.term, ?_, ?_, ?_, ?_, ?_⟩
      · intro s hs hsL'
        rcases List.mem_or_eq_of_mem_set hs with hs | hs
        · exact hold.amount s hs hsL'
        · rw [hs] at hsL'; exact absurd hsL' hne
      · rw [hpc', huc']; exact hold.count
      · rw [paymentsTotal_append_singleton, hpc']
        simp only [hLL, if_false, add_zero]
        exact hold.paid
      · rw [hpc']; exact hold.balance
      · rw [hpc', huc']; exact hold.status

/-! ## The store after `CreateLoan` and `MakePayment` -/

/-- The three possible effects of `CreateLoan` on the store: nothing (the
borrower lookup or the loan insert failed), the loan row alone (the schedule
generation panicked or the batch insert failed), or the loan row and its
schedule (success). -/
theorem CreateLoan_cases (f : Faults) (now : Int) (b : Nat) (amount : Int) (rate : F64) (n : Nat)
    (db : DB) :
    ((∀ x, (CreateLoan f now b amount rate n db).1 ≠ .ok x) ∧
      (CreateLoan f now b amount rate n db).2 = db) ∨
    ((∀ x, (CreateLoan f now b amount rate n db).1 ≠ .ok x) ∧
      (CreateLoan f now b amount rate n db).2 =
        { db with loans := db.loans ++ [newLoanRow now b amount rate n] }) ∨
    (∃ w, (newLoanRow now b amount rate n).CalculateWeeklyPayment = some w ∧
      (CreateLoan f now b amount rate n db).1 =
        .ok (db.loans.length, newLoanRow now b amount rate n) ∧
      (CreateLoan f now b amount rate n db).2 =
        { db with
          loans := db.loans ++ [newLoanRow now b amount rate n]
          schedules := db.schedules ++
            scheduleRows db.loans.length (newLoanRow now b amount rate n) w }) := by
  unfold CreateLoan
  generalize newLoanRow now b amount rate n = loan
  rcases hb : Borrowers.GetByID f db b with e | br
  · left; exact ⟨fun x hx => (by cases hx), rfl⟩
  dsimp only
  rcases h1 : f .loansCreate with _ | c
  swap
  · left
    have hc : Loans.Create f db loan = (.error (.persistence c), db) := by
      unfold Loans.Create; rw [h1]
    rw [hc]
    exact ⟨fun x hx => (by cases hx), rfl⟩
  right
  have hc : Loans.Create f db loan =
      (.ok db.loans.length, { db with loans := db.loans ++ [loan] }) := by
    unfold Loans.Create; rw [h1]
  rw [hc]
  dsimp only
  unfold generateLoanSchedule
  rcases hw : loan.CalculateWeeklyPayment with _ | w
  · left
    exact ⟨fun x hx => (by cases hx), rfl⟩
  dsimp only
  rcases h2 : f .schedulesCreateBatch with _ | c
  swap
  · left
    have hb2 : ∀ d rows, Schedules.CreateBatch f d rows = (some (.persistence c), d) := by
      intro d rows; unfold Schedules.CreateBatch; rw [h2]
    rw [hb2]
    exact ⟨fun x hx => (by cases hx), rfl⟩
  right
  have hb2 : ∀ d rows, Schedules.CreateBatch f d rows =
      (none, { d with schedules := d.schedules ++ rows }) := by
    intro d rows; unfold Schedules.CreateBatch; rw [h2]
  refine ⟨w, rfl, ?_⟩
  rw [hb2]
  exact ⟨rfl, rfl⟩

theorem MakePayment_fst (f : Faults) (pd cd : Int) (L : Nat) (a : Int) (db : DB) :
    (MakePayment f pd cd L a db).1 = (MakePaymentTx f pd cd L a db).1 := by
  unfold MakePayment; rw [WithTransaction_fst]

/-- The effect of `MakePayment` on the store: nothing when it returns an
error, the six writes when it returns `nil`. -/
theorem MakePayment_cases (f : Faults) (pd cd : Int) (L : Nat) (a : Int) (db : DB) :
    ((MakePayment f pd cd L a db).1 ≠ none ∧ (MakePayment f pd cd L a db).2 = db) ∨
    ((MakePayment f pd cd L a db).1 = none ∧
      ∃ loan i sch rest,
        db.loans[L]? = some loan ∧
        unpaidSchedulesOfLoan db.schedules L = (i, sch) :: rest ∧
        a = sch.Amount ∧
        (MakePayment f pd cd L a db).2 =
          { payments := db.payments ++ [⟨L, i, a, pd⟩]
            schedules := db.schedules.set i { sch with Paid := true }
            loans := db.loans.set L
              { loan with
                CurrentBalance := wrapInt64 (loan.CurrentBalance - a)
                LastPaymentDate := some pd
                Status :=
                  if countUnpaidOfLoan (db.schedules.set i { sch with Paid := true }) L = 0
                  then "closed" else loan.Status }
            borrowers := updateWhereID db.borrowers loan.BorrowerID (fun b =>
              { b with
                IsDelinquent := isDelinquentVerdict
                  ((schedulesOfLoan (db.schedules.set i { sch with Paid := true }) L).map
                    Prod.snd) cd }) }) := by
  by_cases h : (MakePaymentTx f pd cd L a db).1 = none
  · right
    obtain ⟨loan, i, sch, rest, hl, hu, ha, _, hst⟩ := MakePaymentTx_success h
    refine ⟨by rw [MakePayment_fst]; exact h, loan, i, sch, rest, hl, hu, ha, ?_⟩
    unfold MakePayment
    rw [WithTransaction_snd_of_none h, hst]
  · left
    refine ⟨by rw [MakePayment_fst]; exact h, ?_⟩
    unfold MakePayment
    exact WithTransaction_snd_of_ne_none h

/-- `IsDelinquent` writes at most the borrower table. -/
theorem IsDelinquent_tables (f : Faults) (cd : Int) (L : Nat) (db : DB) :
    (IsDelinquent f cd L db).2.loans = db.loans ∧
    (IsDelinquent f cd L db).2.schedules = db.schedules ∧
    (IsDelinquent f cd L db).2.payments = db.payments := by
  unfold IsDelinquent
  rcases Loans.GetByID f db L with e | loan
  · simp
  rcases Schedules.GetByLoanID f db L with e | schedules
  · simp
  simp only []
  split
  · unfold Borrowers.UpdateDelinquencyStatus
    rcases f .borrowersUpdateDelinquencyStatus with _ | c <;> simp
  · simp

/-- Every reachable state is consistent. -/
theorem Reachable.consistent {db : DB} (h : Reachable db) : Consistent db := by
  induction h with
  | empty => exact Consistent.empty
  | createBorrower h f name contactInfo ih =>
    apply ih.of_tables_eq <;>
    · unfold Borrowers.Create
      rcases f .borrowersCreate with _ | c <;> rfl
  | createLoan h f now b amount rate n hterm ih =>
    rcases CreateLoan_cases f now b amount rate n _ with ⟨_, h1⟩ | ⟨_, h1⟩ | ⟨w, hw, _, h1⟩
    · rw [h1]; exact ih
    · rw [h1]; exact ih.addLoan _ hterm rfl rfl
    · rw [h1]; exact ih.addLoanWithSchedule _ w hterm rfl rfl hw
  | makePayment h f pd cd L a ih =>
    rcases MakePayment_cases f pd cd L a _ with ⟨_, h1⟩ | ⟨_, loan, i, sch, rest, hl, hu, ha, h1⟩
    · rw [h1]; exact ih
    · rw [h1]; exact (ih.pay a pd _ hl hu ha).2.2.2
  | isDelinquent h f cd L ih =>
    obtain ⟨h1, h2, h3⟩ := IsDelinquent_tables f cd L _
    exact ih.of_tables_eq h1 h2 h3

/-! ## Claims on the delinquency evaluator -/

/-- C8: the verdict computed by the loop of `IsDelinquent` is true exactly
when two adjacent entries are both unpaid and past due (`DueDate < asOf`);
more generally the loop's `maxConsecutiveMissed` reaches `k` exactly when the
list has a window of `k` consecutive unpaid past-due entries, so it is the
maximum run length.  Two unpaid past-due entries separated by a paid one give
false, two consecutive ones give true. -/
theorem isDelinquentVerdict_iff_two_consecutive_missed (schedules : List Schedule) (asOf : Int) :
    (isDelinquentVerdict schedules asOf = true ↔
      ∃ i a b, schedules[i]? = some a ∧ schedules[i + 1]? = some b ∧
        (a.Paid = false ∧ a.DueDate < asOf) ∧ (b.Paid = false ∧ b.DueDate < asOf)) ∧
    (∀ k, 1 ≤ k → (k ≤ maxConsecutiveMissed schedules asOf ↔
      ∃ i, ∀ j, j < k → ∃ s, schedules[i + j]? = some s ∧ s.Paid = false ∧ s.DueDate < asOf)) ∧
    (∀ a p b : Schedule, a.Paid = false → a.DueDate < asOf → p.Paid = true →
      b.Paid = false → b.DueDate < asOf →
      isDelinquentVerdict [a, p, b] asOf = false ∧ isDelinquentVerdict [a, b] asOf = true) := by
  refine ⟨isDelinquentVerdict_iff_window schedules asOf, ?_, ?_⟩
  · intro k hk
    rw [maxConsecutiveMissed_eq_bestRun, le_bestRun_iff asOf schedules k hk]
    simp only [missed_iff]
  · intro a p b ha1 ha2 hp hb1 hb2
    constructor
    · simp [isDelinquentVerdict, maxConsecutiveMissed, streakStep, ha1, ha2, hp, hb1, hb2]
    · simp [isDelinquentVerdict, maxConsecutiveMissed, streakStep, ha1, ha2, hb1, hb2]

/-- Witness for C8 on the schedule of `TestIsDelinquent` (days relative to
`asOf = 0`): weeks 2 and 3 are unpaid and past due, so the verdict is true
and the adjacent pair exists. -/
theorem isDelinquentVerdict_iff_two_consecutive_missed_witness :
    isDelinquentVerdict
        [⟨0, 1, -21, 109615, true⟩, ⟨0, 2, -14, 109615, false⟩, ⟨0, 3, -7, 109615, false⟩,
          ⟨0, 4, 0, 109615, false⟩] 0 = true ∧
      (2 ≤ maxConsecutiveMissed
        [⟨0, 1, -21, 109615, true⟩, ⟨0, 2, -14, 109615, false⟩, ⟨0, 3, -7, 109615, false⟩,
          ⟨0, 4, 0, 109615, false⟩] 0 ↔
        ∃ i, ∀ j, j < 2 → ∃ s,
          ([⟨0, 1, -21, 109615, true⟩, ⟨0, 2, -14, 109615, false⟩, ⟨0, 3, -7, 109615, false⟩,
            ⟨0, 4, 0, 109615, false⟩] : List Schedule)[i + j]? = some s ∧
            s.Paid = false ∧ s.DueDate < 0) ∧
      isDelinquentVerdict [⟨0, 1, -14, 5, false⟩, ⟨0, 2, -7, 5, true⟩, ⟨0, 3, -1, 5, false⟩] 0 = false :=
  ⟨by decide,
   (isDelinquentVerdict_iff_two_consecutive_missed _ 0).2.1 2 (by decide),
   ((isDelinquentVerdict_iff_two_consecutive_missed [] 0).2.2
      ⟨0, 1, -14, 5, false⟩ ⟨0, 2, -7, 5, true⟩ ⟨0, 3, -1, 5, false⟩
      rfl (by decide) rfl rfl (by decide)).1⟩

/-- C9: an unpaid installment whose due date is `asOf` or later does not
count toward the streak: the loop step resets the counter on it exactly as on
a paid entry, flipping the paid flag of such an entry leaves the verdict
unchanged, and a list whose unpaid entries are all due at `asOf` or later is
not delinquent. -/
theorem not_past_due_never_counts (schedules : List Schedule) (asOf : Int) :
    (∀ (st : Nat × Nat) (s : Schedule), asOf ≤ s.DueDate →
      streakStep asOf st s = (0, st.2) ∧
      streakStep asOf st s = streakStep asOf st { s with Paid := true }) ∧
    (∀ i s, schedules[i]? = some s → asOf ≤ s.DueDate →
      isDelinquentVerdict (schedules.set i { s with Paid := !s.Paid }) asOf =
        isDelinquentVerdict schedules asOf) ∧
    ((∀ s ∈ schedules, s.Paid = false → asOf ≤ s.DueDate) →
      isDelinquentVerdict schedules asOf = false) := by
  refine ⟨?_, ?_, ?_⟩
  · intro st s hs
    have : ¬ s.DueDate < asOf := by omega
    simp [streakStep, this]
  · intro i s hi hs
    have hnot : ¬ s.DueDate < asOf := by omega
    unfold isDelinquentVerdict
    rw [maxConsecutiveMissed_eq_bestRun, maxConsecutiveMissed_eq_bestRun]
    congr 2
    apply bestRun_congr
    apply List.ext_getElem?
    intro n
    simp only [List.getElem?_map, List.getElem?_set]
    by_cases hn : i = n
    · subst hn
      have hlt : i < schedules.length := by
        rcases Nat.lt_or_ge i schedules.length with h | h
        · exact h
        · rw [List.getElem?_eq_none h] at hi; cases hi
      simp [hi, hlt, missed, hnot]
    · simp [hn]
  · intro h
    cases hv : isDelinquentVerdict schedules asOf with
    | false => rfl
    | true =>
      obtain ⟨i, a, b, ha, _, ⟨hap, had⟩, _⟩ := (isDelinquentVerdict_iff_window schedules asOf).1 hv
      have := h a (List.getElem?_mem ha) hap
      omega

/-- Witness for C9: on the schedule of `TestIsDelinquent` with the two
past-due installments paid, the installment due today (`DueDate = asOf`) is
unpaid and the loan is not delinquent; paying it changes nothing. -/
theorem not_past_due_never_counts_witness :
    isDelinquentVerdict
        [⟨0, 1, -14, 109615, true⟩, ⟨0, 2, -7, 109615, true⟩, ⟨0, 3, 0, 109615, false⟩] 0 = false ∧
      isDelinquentVerdict
        (([⟨0, 1, -14, 109615, true⟩, ⟨0, 2, -7, 109615, true⟩, ⟨0, 3, 0, 109615, false⟩] :
          List Schedule).set 2 { (⟨0, 3, 0, 109615, false⟩ : Schedule) with Paid := !false }) 0 =
        isDelinquentVerdict
          [⟨0, 1, -14, 109615, true⟩, ⟨0, 2, -7, 109615, true⟩, ⟨0, 3, 0, 109615, false⟩] 0 :=
  ⟨(not_past_due_never_counts _ 0).2.2 (by decide),
   (not_past_due_never_counts
      [⟨0, 1, -14, 109615, true⟩, ⟨0, 2, -7, 109615, true⟩, ⟨0, 3, 0, 109615, false⟩] 0).2.1
      2 ⟨0, 3, 0, 109615, false⟩ rfl (by decide)⟩

/-! ## Claims on the payment processor -/

/-- C2: payments are strictly FIFO.  A successful `MakePayment` on loan `L`
(under any failure pattern) changes the schedule table in exactly one row:
an unpaid installment of `L` whose week number is the lowest among the unpaid
installments of `L` gets `Paid = true`; its other fields and every other row
(of `L` or of any other loan) are unchanged. -/
theorem makePayment_marks_only_oldest_unpaid (f : Faults) (paymentDate currentDate : Int)
    (L : Nat) (amount : Int) (db : DB)
    (hok : (MakePayment f paymentDate currentDate L amount db).1 = none) :
    ∃ i sch,
      db.schedules[i]? = some sch ∧ sch.LoanID = L ∧ sch.Paid = false ∧
      (∀ (j : Nat) (t : Schedule), db.schedules[j]? = some t → t.LoanID = L → t.Paid = false →
        sch.WeekNumber ≤ t.WeekNumber) ∧
      (MakePayment f paymentDate currentDate L amount db).2.schedules =
        db.schedules.set i { sch with Paid := true } ∧
      (MakePayment f paymentDate currentDate L amount db).2.schedules[i]? =
        some { sch with Paid := true } ∧
      (∀ j, j ≠ i →
        (MakePayment f paymentDate currentDate L amount db).2.schedules[j]? = db.schedules[j]?) := by
  have hok' : (MakePaymentTx f paymentDate currentDate L amount db).1 = none := by
    rw [← WithTransaction_fst]; exact hok
  obtain ⟨loan, i, sch, rest, _, hu, _, _, hst⟩ := MakePaymentTx_success hok'
  obtain ⟨h1, h2, h3, h4⟩ := unpaidSchedulesOfLoan_head hu
  have hs : (MakePayment f paymentDate currentDate L amount db).2.schedules =
      db.schedules.set i { sch with Paid := true } := by
    unfold MakePayment
    rw [WithTransaction_snd_of_none hok', hst]
  have hlt : i < db.schedules.length := by
    rcases Nat.lt_or_ge i db.schedules.length with h | h
    · exact h
    · rw [List.getElem?_eq_none h] at h1; cases h1
  refine ⟨i, sch, h1, h2, h3, h4, hs, ?_, ?_⟩
  · rw [hs]; simp [List.getElem?_set, hlt]
  · intro j hj
    rw [hs, List.getElem?_set]
    simp [Ne.symm hj]

/-- Witness for C2: on the example store the payment of 55 settles the row
at position 1 (week 1), not the row stored first (week 2). -/
theorem makePayment_marks_only_oldest_unpaid_witness :
    ∃ i sch,
      exampleDB.schedules[i]? = some sch ∧ sch.LoanID = 0 ∧ sch.Paid = false ∧
      (∀ (j : Nat) (t : Schedule), exampleDB.schedules[j]? = some t → t.LoanID = 0 →
        t.Paid = false → sch.WeekNumber ≤ t.WeekNumber) ∧
      (MakePayment noFaults 20 21 0 55 exampleDB).2.schedules =
        exampleDB.schedules.set i { sch with Paid := true } ∧
      (MakePayment noFaults 20 21 0 55 exampleDB).2.schedules[i]? =
        some { sch with Paid := true } ∧
      (∀ j, j ≠ i →
        (MakePayment noFaults 20 21 0 55 exampleDB).2.schedules[j]? = exampleDB.schedules[j]?) :=
  makePayment_marks_only_oldest_unpaid noFaults 20 21 0 55 exampleDB (by decide)

/-- C3: a payment that fails at validation (loan absent, no unpaid
installment, or amount different from the first unpaid installment's amount)
returns an error and writes nothing, under any failure pattern: the
transaction function itself ends in the initial state, and so does
`MakePayment`. -/
theorem makePayment_validation_failure_writes_nothing (f : Faults)
    (paymentDate currentDate : Int) (L : Nat) (amount : Int) (db : DB)
    (hv : db.loans[L]? = none ∨ unpaidSchedulesOfLoan db.schedules L = [] ∨
      ∃ i sch rest, unpaidSchedulesOfLoan db.schedules L = (i, sch) :: rest ∧
        amount ≠ sch.Amount) :
    (MakePayment f paymentDate currentDate L amount db).1 ≠ none ∧
    (MakePaymentTx f paymentDate currentDate L amount db).2 = db ∧
    (MakePayment f paymentDate currentDate L amount db).2 = db := by
  obtain ⟨h1, h2⟩ := @MakePaymentTx_validation_failure f paymentDate currentDate L amount db hv
  refine ⟨?_, h2, ?_⟩
  · unfold MakePayment; rw [WithTransaction_fst]; exact h1
  · unfold MakePayment; exact WithTransaction_snd_of_ne_none h1

/-- Witness for C3: a payment of 54 against an installment of 55, a payment
on an absent loan. -/
theorem makePayment_validation_failure_writes_nothing_witness :
    ((MakePayment noFaults 20 21 0 54 exampleDB).1 ≠ none ∧
      (MakePaymentTx noFaults 20 21 0 54 exampleDB).2 = exampleDB ∧
      (MakePayment noFaults 20 21 0 54 exampleDB).2 = exampleDB) ∧
    ((MakePayment noFaults 20 21 7 55 exampleDB).1 ≠ none ∧
      (MakePaymentTx noFaults 20 21 7 55 exampleDB).2 = exampleDB ∧
      (MakePayment noFaults 20 21 7 55 exampleDB).2 = exampleDB) :=
  ⟨makePayment_validation_failure_writes_nothing noFaults 20 21 0 54 exampleDB
      (Or.inr (Or.inr ⟨1, ⟨0, 1, 7, 55, false⟩, [(0, ⟨0, 2, 14, 55, false⟩)],
        by decide, by decide⟩)),
   makePayment_validation_failure_writes_nothing noFaults 20 21 7 55 exampleDB
      (Or.inl (by decide))⟩

/-- C4: with a repository whose calls do not fail on their own,
`MakePayment` returns `nil` exactly when the loan exists, it has an unpaid
installment, and the amount equals the amount of the first unpaid installment
in week order (an unpaid installment of the loan with the lowest week
number); otherwise it returns the loan lookup's not-found error, "no unpaid
schedules found" or "payment amount must match the scheduled amount", the
three conditions being tested in that order. -/
theorem makePayment_result (paymentDate currentDate : Int) (L : Nat) (amount : Int) (db : DB) :
    (MakePayment noFaults paymentDate currentDate L amount db).1 =
      (match db.loans[L]? with
      | none => some Err.recordNotFound
      | some _ =>
        match unpaidSchedulesOfLoan db.schedules L with
        | [] => some Err.noUnpaidSchedules
        | schedule :: _ =>
          if amount ≠ schedule.2.Amount then some Err.amountMismatch else none) ∧
    ((MakePayment noFaults paymentDate currentDate L amount db).1 = none ↔
      ∃ loan i sch rest, db.loans[L]? = some loan ∧
        unpaidSchedulesOfLoan db.schedules L = (i, sch) :: rest ∧ amount = sch.Amount) ∧
    (∀ i sch rest, unpaidSchedulesOfLoan db.schedules L = (i, sch) :: rest →
      db.schedules[i]? = some sch ∧ sch.LoanID = L ∧ sch.Paid = false ∧
      ∀ (j : Nat) (t : Schedule), db.schedules[j]? = some t → t.LoanID = L → t.Paid = false →
        sch.WeekNumber ≤ t.WeekNumber) ∧
    (unpaidSchedulesOfLoan db.schedules L = [] ↔
      ∀ s ∈ db.schedules, s.LoanID = L → s.Paid = true) := by
  have hfst : (MakePayment noFaults paymentDate currentDate L amount db).1 =
      (MakePaymentTx noFaults paymentDate currentDate L amount db).1 := by
    unfold MakePayment; rw [WithTransaction_fst]
  refine ⟨?_, ?_, ?_, ?_⟩
  · rw [hfst]; exact MakePaymentTx_noFaults_fst paymentDate currentDate L amount db
  · rw [hfst, MakePaymentTx_noFaults_fst]
    constructor
    · intro h
      rcases hl : db.loans[L]? with _ | loan
      · simp [hl] at h
      rcases hu : unpaidSchedulesOfLoan db.schedules L with _ | ⟨⟨i, sch⟩, rest⟩
      · simp [hl, hu] at h
      · simp only [hl, hu] at h
        by_cases ha : amount = sch.Amount
        · exact ⟨loan, i, sch, rest, rfl, rfl, ha⟩
        · simp [ha] at h
    · rintro ⟨loan, i, sch, rest, hl, hu, ha⟩
      simp [hl, hu, ha]
  · intro i sch rest hu
    exact unpaidSchedulesOfLoan_head hu
  · rw [unpaidSchedulesOfLoan_eq_nil, countUnpaidOfLoan_eq_zero]

/-- Witness for C4 on the example store: the right amount succeeds, a wrong
amount, a fully paid loan and an absent loan fail with the three errors. -/
theorem makePayment_result_witness :
    (MakePayment noFaults 20 21 0 55 exampleDB).1 = none ∧
    (MakePayment noFaults 20 21 0 54 exampleDB).1 = some Err.amountMismatch ∧
    (MakePayment noFaults 20 21 0 55
      { exampleDB with schedules := [⟨0, 2, 14, 55, true⟩, ⟨0, 1, 7, 55, true⟩] }).1 =
        some Err.noUnpaidSchedules ∧
    (MakePayment noFaults 20 21 3 55 exampleDB).1 = some Err.recordNotFound ∧
    (MakePayment noFaults 20 21 3 55 DB.empty).1 =
      (match DB.empty.loans[3]? with
      | none => some Err.recordNotFound
      | some _ =>
        match unpaidSchedulesOfLoan DB.empty.schedules 3 with
        | [] => some Err.noUnpaidSchedules
        | schedule :: _ =>
          if (55 : Int) ≠ schedule.2.Amount then some Err.amountMismatch else none) :=
  ⟨by decide, by decide, by decide, by decide, (makePayment_result 20 21 3 55 DB.empty).1⟩

/-- C5: `MakePayment` is atomic.  Under any failure pattern, a call that
returns an error leaves the store exactly as it was; and a failure of any
repository call of steps 5-10 makes the call return an error: the seven
calls made on every run past validation, and `UpdateStatus` in the runs
that make it (when no unpaid installment remains after the target is
marked). -/
theorem makePayment_atomic (f : Faults) (paymentDate currentDate : Int) (L : Nat) (amount : Int)
    (db : DB) :
    ((MakePayment f paymentDate currentDate L amount db).1 ≠ none →
      (MakePayment f paymentDate currentDate L amount db).2 = db) ∧
    (∀ op ∈ paymentWriteCalls, f op ≠ none →
      (MakePayment f paymentDate currentDate L amount db).1 ≠ none ∧
      (MakePayment f paymentDate currentDate L amount db).2 = db) ∧
    (f .loansUpdateStatus ≠ none →
      (∀ i sch rest, unpaidSchedulesOfLoan db.schedules L = (i, sch) :: rest →
        countUnpaidOfLoan (db.schedules.set i { sch with Paid := true }) L = 0) →
      (MakePayment f paymentDate currentDate L amount db).1 ≠ none ∧
      (MakePayment f paymentDate currentDate L amount db).2 = db) := by
  have hfst : (MakePayment f paymentDate currentDate L amount db).1 =
      (MakePaymentTx f paymentDate currentDate L amount db).1 := by
    unfold MakePayment; rw [WithTransaction_fst]
  have hroll : (MakePayment f paymentDate currentDate L amount db).1 ≠ none →
      (MakePayment f paymentDate currentDate L amount db).2 = db := by
    intro h
    rw [hfst] at h
    unfold MakePayment
    exact WithTransaction_snd_of_ne_none h
  refine ⟨hroll, ?_, ?_⟩
  · intro op hop hf
    have hne : (MakePayment f paymentDate currentDate L amount db).1 ≠ none := by
      intro h
      rw [hfst] at h
      obtain ⟨_, _, _, _, _, _, _, ⟨_, _, hops, _⟩, _⟩ := MakePaymentTx_success h
      exact hf (hops op hop)
    exact ⟨hne, hroll hne⟩
  · intro hf hcount
    have hne : (MakePayment f paymentDate currentDate L amount db).1 ≠ none := by
      intro h
      rw [hfst] at h
      obtain ⟨_, i, sch, rest, _, hu, _, ⟨_, _, _, hst⟩, _⟩ := MakePaymentTx_success h
      exact hf (hst (hcount i sch rest hu))
    exact ⟨hne, hroll hne⟩

/-- Witness for C5: on the example store, when the balance update fails the
transaction has already inserted the payment and marked the installment, and
`MakePayment` returns the error with the store unchanged. -/
theorem makePayment_atomic_witness :
    (MakePaymentTx (fun op => if op = .loansUpdateBalance then some 7 else none)
        20 21 0 55 exampleDB).2.payments = [⟨0, 1, 55, 20⟩] ∧
    ((MakePayment (fun op => if op = .loansUpdateBalance then some 7 else none)
        20 21 0 55 exampleDB).1 ≠ none ∧
      (MakePayment (fun op => if op = .loansUpdateBalance then some 7 else none)
        20 21 0 55 exampleDB).2 = exampleDB) :=
  ⟨by decide,
   (makePayment_atomic (fun op => if op = .loansUpdateBalance then some 7 else none)
      20 21 0 55 exampleDB).2.1 .loansUpdateBalance (by decide) (by decide)⟩

/-- C10: after a successful `MakePayment` on loan `L` the delinquency flag
of the loan's borrower is the evaluator's verdict over the loan's full
installment list, in week order, as stored after the payment and as of the
second clock reading, whatever the flag was before. -/
theorem makePayment_sets_flag_to_verdict (f : Faults) (paymentDate currentDate : Int)
    (L : Nat) (amount : Int) (db : DB) (loan : Loan) (b : Borrower)
    (hok : (MakePayment f paymentDate currentDate L amount db).1 = none)
    (hloan : db.loans[L]? = some loan)
    (hb : db.borrowers[loan.BorrowerID]? = some b) :
    (MakePayment f paymentDate currentDate L amount db).2.borrowers[loan.BorrowerID]? =
      some { b with
        IsDelinquent := isDelinquentVerdict
          ((schedulesOfLoan (MakePayment f paymentDate currentDate L amount db).2.schedules
            L).map Prod.snd) currentDate } := by
  have hok' : (MakePaymentTx f paymentDate currentDate L amount db).1 = none := by
    rw [← WithTransaction_fst]; exact hok
  obtain ⟨loan', i, sch, rest, hl, hu, _, _, hst⟩ := MakePaymentTx_success hok'
  rw [hloan] at hl
  cases hl
  have hs : (MakePayment f paymentDate currentDate L amount db).2 =
      (MakePaymentTx f paymentDate currentDate L amount db).2 := by
    unfold MakePayment
    exact WithTransaction_snd_of_none hok'
  rw [hs, hst]
  simp [getElem?_updateWhereID, hb]

/-- Witness for C10: on the example store the borrower's flag was true; the
payment at time 21 leaves only week 2 unpaid past due, so the flag is cleared. -/
theorem makePayment_sets_flag_to_verdict_witness :
    (MakePayment noFaults 20 21 0 55 exampleDB).2.borrowers[0]? =
      some { (⟨"Test Borrower", "test@example.com", true⟩ : Borrower) with
        IsDelinquent := isDelinquentVerdict
          ((schedulesOfLoan (MakePayment noFaults 20 21 0 55 exampleDB).2.schedules
            0).map Prod.snd) 21 } ∧
    (MakePayment noFaults 20 21 0 55 exampleDB).2.borrowers =
      [⟨"Test Borrower", "test@example.com", false⟩] :=
  ⟨makePayment_sets_flag_to_verdict noFaults 20 21 0 55 exampleDB
      ⟨0, 100, 10, 2, 0, "active", 110, none⟩ ⟨"Test Borrower", "test@example.com", true⟩
      (by decide) (by decide) (by decide),
   by decide⟩

/-! ## Claims on the balance and the status -/

/-- C1: when loan `L` exists, has an unpaid installment, every repository
call succeeds and the amount is the first unpaid installment's amount,
`MakePayment` returns `nil`, appends exactly one payment record (loan `L`,
the target installment, the amount, the payment date) after the unchanged
earlier records, and sets the balance of `L` to the previous balance minus
the amount: the `int64` difference, which is the exact difference whenever
that is representable, and in every reachable state. -/
theorem makePayment_appends_payment_and_decrements_balance (paymentDate currentDate : Int)
    (L : Nat) (amount : Int) (db : DB) (loan : Loan) (i : Nat) (sch : Schedule)
    (rest : List (Nat × Schedule))
    (hloan : db.loans[L]? = some loan)
    (hunpaid : unpaidSchedulesOfLoan db.schedules L = (i, sch) :: rest)
    (hamount : amount = sch.Amount) :
    (MakePayment noFaults paymentDate currentDate L amount db).1 = none ∧
    (MakePayment noFaults paymentDate currentDate L amount db).2.payments =
      db.payments ++ [⟨L, i, amount, paymentDate⟩] ∧
    ∃ loan', (MakePayment noFaults paymentDate currentDate L amount db).2.loans[L]? =
        some loan' ∧
      loan'.CurrentBalance = wrapInt64 (loan.CurrentBalance - amount) ∧
      (inInt64 (loan.CurrentBalance - amount) →
        loan'.CurrentBalance = loan.CurrentBalance - amount) ∧
      (Reachable db → loan'.CurrentBalance = loan.CurrentBalance - amount) := by
  have hok : (MakePayment noFaults paymentDate currentDate L amount db).1 = none := by
    rw [MakePayment_fst, MakePaymentTx_noFaults_fst]
    simp [hloan, hunpaid, hamount]
  rcases MakePayment_cases noFaults paymentDate currentDate L amount db with
    ⟨hne, _⟩ | ⟨_, loan₁, i₁, sch₁, rest₁, hl, hu, ha, hst⟩
  · exact absurd hok hne
  rw [hloan] at hl
  cases hl
  rw [hunpaid] at hu
  cases hu
  have hLlt := lt_length_of_getElem? hloan
  have hp : (MakePayment noFaults paymentDate currentDate L amount db).2.payments =
      db.payments ++ [⟨L, i, amount, paymentDate⟩] := by rw [hst]
  have hget : ∀ x : Loan, (db.loans.set L x)[L]? = some x := by
    intro x; rw [List.getElem?_set]; simp [hLlt]
  have hl' := hget
    { loan with
      CurrentBalance := wrapInt64 (loan.CurrentBalance - amount)
      LastPaymentDate := some paymentDate
      Status :=
        if countUnpaidOfLoan (db.schedules.set i { sch with Paid := true }) L = 0
        then "closed" else loan.Status }
  refine ⟨hok, hp, _, (by rw [hst]; exact hl'), rfl, ?_, ?_⟩
  · intro h; exact wrapInt64_of_inInt64 h
  · intro hr
    exact (hr.consistent.pay amount paymentDate [] hloan hunpaid hamount).1

/-- Witness for C1 on the example store (balance 110, installment 55). -/
theorem makePayment_appends_payment_and_decrements_balance_witness :
    (MakePayment noFaults 20 21 0 55 exampleDB).1 = none ∧
    (MakePayment noFaults 20 21 0 55 exampleDB).2.payments =
      exampleDB.payments ++ [⟨0, 1, 55, 20⟩] ∧
    ∃ loan', (MakePayment noFaults 20 21 0 55 exampleDB).2.loans[0]? = some loan' ∧
      loan'.CurrentBalance = wrapInt64 (110 - 55) ∧
      (inInt64 (110 - 55) → loan'.CurrentBalance = 110 - 55) ∧
      (Reachable exampleDB → loan'.CurrentBalance = 110 - 55) :=
  makePayment_appends_payment_and_decrements_balance 20 21 0 55 exampleDB
    ⟨0, 100, 10, 2, 0, "active", 110, none⟩ 1 ⟨0, 1, 7, 55, false⟩
    [(0, ⟨0, 2, 14, 55, false⟩)] (by decide) (by decide) (by decide)

theorem calculateTotalDue_eq (loan : Loan) :
    calculateTotalDue loan.Amount loan.InterestRate loan.TermWeeks = loan.CalculateTotalDue :=
  rfl

/-- C6: in every reachable state the current balance of every loan is the
total due of its terms minus the sum of the amounts of its payment records. -/
theorem reachable_balance_eq_totalDue_sub_payments (db : DB) (L : Nat) (loan : Loan)
    (hr : Reachable db) (hloan : db.loans[L]? = some loan) :
    loan.CurrentBalance =
      calculateTotalDue loan.Amount loan.InterestRate loan.TermWeeks -
        paymentsTotal db.payments L := by
  have hc := hr.consistent.loan L loan hloan
  rw [calculateTotalDue_eq, hc.paid]
  exact hc.balance

theorem exampleCreated_reachable : Reachable exampleCreated :=
  Reachable.createLoan (Reachable.createBorrower Reachable.empty noFaults "a" "b")
    noFaults 0 0 100 0 2 (by decide)

/-- C7: in every reachable state a loan that has installments (every loan
returned by a successful `CreateLoan` with `termWeeks ≥ 1` has) is closed
exactly when all of them are paid, and is active otherwise; a successful
`MakePayment` in such a state leaves the loan closed exactly when the
installment it settled was the last unpaid one, and active otherwise. -/
theorem reachable_closed_iff_all_paid (db : DB) (hr : Reachable db) :
    (∀ L loan, db.loans[L]? = some loan → (∃ s ∈ db.schedules, s.LoanID = L) →
      ((loan.Status = "closed" ↔ ∀ s ∈ db.schedules, s.LoanID = L → s.Paid = true) ∧
        (loan.Status = "closed" ∨ loan.Status = "active"))) ∧
    (∀ (f : Faults) (paymentDate currentDate : Int) (L : Nat) (amount : Int),
      (MakePayment f paymentDate currentDate L amount db).1 = none →
      ∃ loan', (MakePayment f paymentDate currentDate L amount db).2.loans[L]? = some loan' ∧
        (countUnpaidOfLoan db.schedules L = 1 → loan'.Status = "closed") ∧
        (countUnpaidOfLoan db.schedules L ≠ 1 → loan'.Status = "active") ∧
        (countUnpaidOfLoan (MakePayment f paymentDate currentDate L amount db).2.schedules L = 0 ↔
          countUnpaidOfLoan db.schedules L = 1)) ∧
    (∀ (f : Faults) (now : Int) (b : Nat) (amount : Int) (rate : F64) (n : Nat) (id : Nat)
      (loan : Loan), 1 ≤ n → (CreateLoan f now b amount rate n db).1 = .ok (id, loan) →
      (CreateLoan f now b amount rate n db).2.loans[id]? = some loan ∧
      loan.Status = "active" ∧
      ∃ s ∈ (CreateLoan f now b amount rate n db).2.schedules, s.LoanID = id ∧ s.Paid = false) := by
  refine ⟨?_, ?_, ?_⟩
  · intro L loan hloan hex
    have hc := hr.consistent.loan L loan hloan
    have hpos := (exists_schedule_iff_count_pos db.schedules L).1 hex
    rw [← countUnpaidOfLoan_eq_zero]
    have hne : ("active" : String) ≠ "closed" := by decide
    rcases hc.status with ⟨h1, h2, _⟩ | ⟨h1, h2⟩
    · exact ⟨⟨fun _ => h2, fun _ => h1⟩, Or.inl h1⟩
    · refine ⟨⟨fun h => ?_, fun h => ?_⟩, Or.inr h1⟩
      · rw [h1] at h; exact absurd h hne
      · omega
  · intro f pd cd L amount hok
    rcases MakePayment_cases f pd cd L amount db with
      ⟨hne, _⟩ | ⟨_, loan, i, sch, rest, hl, hu, ha, hst⟩
    · exact absurd hok hne
    obtain ⟨hsi, hsL, hsP, -⟩ := unpaidSchedulesOfLoan_head hu
    have huc := @countUnpaidOfLoan_set db.schedules i sch L hsi hsP
    rw [if_pos hsL] at huc
    have hLlt := lt_length_of_getElem? hl
    obtain ⟨-, hactive, -, -⟩ := hr.consistent.pay amount pd [] hl hu ha
    have hget : ∀ x : Loan, (db.loans.set L x)[L]? = some x := by
      intro x; rw [List.getElem?_set]; simp [hLlt]
    have hl' := hget
      { loan with
        CurrentBalance := wrapInt64 (loan.CurrentBalance - amount)
        LastPaymentDate := some pd
        Status :=
          if countUnpaidOfLoan (db.schedules.set i { sch with Paid := true }) L = 0
          then "closed" else loan.Status }
    rw [hst]
    refine ⟨_, hl', ?_, ?_, ?_⟩
    · intro h1
      show (if _ then "closed" else loan.Status) = "closed"
      rw [if_pos (by omega)]
    · intro h1
      show (if _ then "closed" else loan.Status) = "active"
      rw [if_neg (by omega)]; exact hactive
    · show countUnpaidOfLoan (db.schedules.set i { sch with Paid := true }) L = 0 ↔ _
      omega
  · intro f now b amount rate n id loan hn hok
    rcases CreateLoan_cases f now b amount rate n db with ⟨h1, _⟩ | ⟨h1, _⟩ | ⟨w, hw, h1, h2⟩
    · exact absurd hok (h1 _)
    · exact absurd hok (h1 _)
    · rw [h1] at hok
      cases hok
      rw [h2]
      refine ⟨by simp, rfl, ?_⟩
      have hlen : 0 < (scheduleRows db.loans.length (newLoanRow now b amount rate n) w).length := by
        rw [length_scheduleRows]; exact hn
      obtain ⟨s, hs⟩ := List.exists_mem_of_length_pos hlen
      exact ⟨s, List.mem_append_right _ hs, (mem_scheduleRows hs).1, (mem_scheduleRows hs).2.2⟩

/-- Witness for C7: the loan of the example store was returned by a
successful `CreateLoan` with a term of 2 weeks; it has installments, so its
status is closed exactly when all of them are paid. -/
theorem reachable_closed_iff_all_paid_witness :
    ((newLoanRow 0 0 100 0 2).Status = "closed" ↔
        ∀ s ∈ exampleCreated.schedules, s.LoanID = 0 → s.Paid = true) ∧
      ((newLoanRow 0 0 100 0 2).Status = "closed" ∨ (newLoanRow 0 0 100 0 2).Status = "active") := by
  have hcreated := (reachable_closed_iff_all_paid (Borrowers.Create noFaults DB.empty "a" "b").2
    (Reachable.createBorrower Reachable.empty noFaults "a" "b")).2.2
    noFaults 0 0 100 0 2 0 (newLoanRow 0 0 100 0 2) (by decide) rfl
  obtain ⟨_, _, s, hs, hsL, _⟩ := hcreated
  exact (reachable_closed_iff_all_paid exampleCreated exampleCreated_reachable).1 0
    (newLoanRow 0 0 100 0 2) rfl ⟨s, hs, hsL⟩

/-! ## Claims on the delinquency check -/

/-- C11: `IsDelinquent` (the read path, also called by the sweep) writes at
most the borrower table; when it returns verdict false (or fails before the
verdict) it writes nothing at all; when it returns verdict true without error
the flag of the loan's borrower is true afterwards; and a borrower row whose
flag is true is left unchanged, so the flag never goes from true to false.
The verdict returned without error is the evaluator's. -/
theorem isDelinquent_only_sets_flag (f : Faults) (currentDate : Int) (L : Nat) (db : DB) :
    ((IsDelinquent f currentDate L db).2.loans = db.loans ∧
      (IsDelinquent f currentDate L db).2.schedules = db.schedules ∧
      (IsDelinquent f currentDate L db).2.payments = db.payments) ∧
    ((IsDelinquent f currentDate L db).1.1 = false → (IsDelinquent f currentDate L db).2 = db) ∧
    (∀ (loan : Loan) (b : Borrower), (IsDelinquent f currentDate L db).1 = (true, none) →
      db.loans[L]? = some loan → db.borrowers[loan.BorrowerID]? = some b →
      (IsDelinquent f currentDate L db).2.borrowers[loan.BorrowerID]? =
        some { b with IsDelinquent := true }) ∧
    (∀ (j : Nat) (b : Borrower), db.borrowers[j]? = some b → b.IsDelinquent = true →
      (IsDelinquent f currentDate L db).2.borrowers[j]? = some b) ∧
    ((IsDelinquent f currentDate L db).1.2 = none →
      (IsDelinquent f currentDate L db).1.1 =
        isDelinquentVerdict ((schedulesOfLoan db.schedules L).map Prod.snd) currentDate) := by
  refine ⟨IsDelinquent_tables f currentDate L db, ?_⟩
  unfold IsDelinquent
  rcases h1 : f .loansGetByID with _ | c
  swap
  · simp [Loans.GetByID, h1]
    exact fun _ _ h _ => h
  rcases hl : db.loans[L]? with _ | loan
  · simp [Loans.GetByID, h1, hl]
    exact fun _ _ h _ => h
  rcases h2 : f .schedulesGetByLoanID with _ | c
  swap
  · simp [Loans.GetByID, h1, hl, Schedules.GetByLoanID, h2]
    exact fun _ _ h _ => h
  simp only [Loans.GetByID, h1, hl, Schedules.GetByLoanID, h2]
  rcases hv : isDelinquentVerdict ((schedulesOfLoan db.schedules L).map Prod.snd) currentDate
  · simp
    exact fun _ _ h _ => h
  rcases h3 : f .borrowersUpdateDelinquencyStatus with _ | c
  swap
  · simp [Borrowers.UpdateDelinquencyStatus, h3]
    exact fun _ _ h _ => h
  simp only [Borrowers.UpdateDelinquencyStatus, h3, if_true]
  refine ⟨by simp, ?_, ?_, by simp⟩
  · intro loan' b _ hloan' hb
    cases hloan'
    simp [getElem?_updateWhereID, hb]
  · intro j b hb hflag
    rw [getElem?_updateWhereID]
    by_cases hj : loan.BorrowerID = j
    · subst hj
      simp only [if_true, hb, Option.map_some']
      congr 1
      cases b
      simp_all
    · simp [hj, hb]

/-- The example store with both installments past due and the borrower not
yet flagged. -/
theorem isDelinquent_only_sets_flag_witness :
    (IsDelinquent noFaults 10 0 exampleDB).1.1 = false ∧
    (IsDelinquent noFaults 10 0 exampleDB).2 = exampleDB ∧
    (IsDelinquent noFaults 30 0
      { exampleDB with borrowers := [⟨"Test Borrower", "test@example.com", false⟩] }).2.borrowers[0]? =
      some { (⟨"Test Borrower", "test@example.com", false⟩ : Borrower) with IsDelinquent := true } :=
  ⟨by decide,
   (isDelinquent_only_sets_flag noFaults 10 0 exampleDB).2.1 (by decide),
   (isDelinquent_only_sets_flag noFaults 30 0
      { exampleDB with borrowers := [⟨"Test Borrower", "test@example.com", false⟩] }).2.2.1
      ⟨0, 100, 10, 2, 0, "active", 110, none⟩ ⟨"Test Borrower", "test@example.com", false⟩
      (by decide) (by decide) (by decide)⟩

/-! ## `CreateLoan`, branch by branch -/

theorem CreateLoan_borrower_error {f : Faults} {now : Int} {b : Nat} {amount : Int} {rate : F64}
    {n : Nat} {db : DB} {e : Err} (hb : Borrowers.GetByID f db b = .error e) :
    CreateLoan f now b amount rate n db = (.error .borrowerNotFound, db) := by
  unfold CreateLoan
  rw [hb]

theorem CreateLoan_create_error {f : Faults} {now : Int} {b : Nat} {amount : Int} {rate : F64}
    {n : Nat} {db : DB} {br : Borrower} {c : Nat} (hb : Borrowers.GetByID f db b = .ok br)
    (h1 : f .loansCreate = some c) :
    CreateLoan f now b amount rate n db = (.error (.persistence c), db) := by
  unfold CreateLoan
  rw [hb]
  dsimp only
  have hc : ∀ loan, Loans.Create f db loan = (.error (.persistence c), db) := by
    intro loan; unfold Loans.Create; rw [h1]
  rw [hc]

theorem CreateLoan_panic {f : Faults} {now : Int} {b : Nat} {amount : Int} {rate : F64}
    {n : Nat} {db : DB} {br : Borrower} (hb : Borrowers.GetByID f db b = .ok br)
    (h1 : f .loansCreate = none)
    (hw : (newLoanRow now b amount rate n).CalculateWeeklyPayment = none) :
    CreateLoan f now b amount rate n db =
      (.panic, { db with loans := db.loans ++ [newLoanRow now b amount rate n] }) := by
  unfold CreateLoan
  rw [hb]
  dsimp only
  have hc : ∀ loan, Loans.Create f db loan =
      (.ok db.loans.length, { db with loans := db.loans ++ [loan] }) := by
    intro loan; unfold Loans.Create; rw [h1]
  rw [hc]
  dsimp only
  unfold generateLoanSchedule
  rw [hw]

theorem CreateLoan_batch_error {f : Faults} {now : Int} {b : Nat} {amount : Int} {rate : F64}
    {n : Nat} {db : DB} {br : Borrower} {w : Int} {c : Nat}
    (hb : Borrowers.GetByID f db b = .ok br) (h1 : f .loansCreate = none)
    (hw : (newLoanRow now b amount rate n).CalculateWeeklyPayment = some w)
    (h2 : f .schedulesCreateBatch = some c) :
    CreateLoan f now b amount rate n db =
      (.error (.persistence c),
        { db with loans := db.loans ++ [newLoanRow now b amount rate n] }) := by
  unfold CreateLoan
  rw [hb]
  dsimp only
  have hc : ∀ loan, Loans.Create f db loan =
      (.ok db.loans.length, { db with loans := db.loans ++ [loan] }) := by
    intro loan; unfold Loans.Create; rw [h1]
  rw [hc]
  dsimp only
  unfold generateLoanSchedule
  rw [hw]
  dsimp only
  have hb2 : ∀ d rows, Schedules.CreateBatch f d rows = (some (.persistence c), d) := by
    intro d rows; unfold Schedules.CreateBatch; rw [h2]
  rw [hb2]

theorem CreateLoan_ok {f : Faults} {now : Int} {b : Nat} {amount : Int} {rate : F64}
    {n : Nat} {db : DB} {br : Borrower} {w : Int}
    (hb : Borrowers.GetByID f db b = .ok br) (h1 : f .loansCreate = none)
    (hw : (newLoanRow now b amount rate n).CalculateWeeklyPayment = some w)
    (h2 : f .schedulesCreateBatch = none) :
    CreateLoan f now b amount rate n db =
      (.ok (db.loans.length, newLoanRow now b amount rate n),
        { db with
          loans := db.loans ++ [newLoanRow now b amount rate n]
          schedules := db.schedules ++
            scheduleRows db.loans.length (newLoanRow now b amount rate n) w }) := by
  unfold CreateLoan
  rw [hb]
  dsimp only
  have hc : ∀ loan, Loans.Create f db loan =
      (.ok db.loans.length, { db with loans := db.loans ++ [loan] }) := by
    intro loan; unfold Loans.Create; rw [h1]
  rw [hc]
  dsimp only
  unfold generateLoanSchedule
  rw [hw]
  dsimp only
  have hb2 : ∀ d rows, Schedules.CreateBatch f d rows =
      (none, { d with schedules := d.schedules ++ rows }) := by
    intro d rows; unfold Schedules.CreateBatch; rw [h2]
  rw [hb2]

theorem Borrowers.GetByID_noFaults {db : DB} {b : Nat} {br : Borrower}
    (h : db.borrowers[b]? = some br) : Borrowers.GetByID noFaults db b = .ok br := by
  simp [Borrowers.GetByID, noFaults, h]

theorem Borrowers.GetByID_absent (f : Faults) {db : DB} {b : Nat}
    (h : db.borrowers[b]? = none) : ∃ e, Borrowers.GetByID f db b = .error e := by
  unfold Borrowers.GetByID
  rcases f .borrowersGetByID with _ | c
  · exact ⟨.recordNotFound, by simp [h]⟩
  · exact ⟨.persistence c, rfl⟩

/-! ## Claims on the schedule generator and on `CreateLoan` -/

theorem getElem?_scheduleRows (loanID : Nat) (loan : Loan) (w : Int) (k : Nat)
    (hk : k < loan.TermWeeks) :
    (scheduleRows loanID loan w)[k]? =
      some ⟨loanID, k + 1, AddDate loan.StartDate (((k + 1 : Nat) : Int) * 7), w, false⟩ := by
  unfold scheduleRows
  rw [List.getElem?_map, List.getElem?_range hk]
  rfl

theorem CreateLoan_noFaults_ok (now : Int) (b : Nat) (amount : Int) (rate : F64) (n : Nat)
    (db : DB) (br : Borrower) (hb : db.borrowers[b]? = some br) (h1 : 1 ≤ n)
    (h2 : n < 9223372036854775808) :
    CreateLoan noFaults now b amount rate n db =
      (.ok (db.loans.length, newLoanRow now b amount rate n),
        { db with
          loans := db.loans ++ [newLoanRow now b amount rate n]
          schedules := db.schedules ++
            scheduleRows db.loans.length (newLoanRow now b amount rate n)
              (weeklyAmount (newLoanRow now b amount rate n)) }) :=
  CreateLoan_ok (Borrowers.GetByID_noFaults hb) rfl
    (weeklyAmount_spec (newLoanRow now b amount rate n) h1 h2).1 rfl

/-- C14: for a loan of `n` weeks the schedule generator builds exactly `n`
installments; in order of generation their week numbers are `1, 2, ..., n`
and their due dates are strictly increasing; when the term is between 1 and
`2^63 - 1` and the batch insert succeeds, exactly these rows are appended to
the schedule table. -/
theorem scheduleRows_dense_and_increasing (loanID : Nat) (loan : Loan) (w : Int) :
    (scheduleRows loanID loan w).length = loan.TermWeeks ∧
    (scheduleRows loanID loan w).map (fun s => s.WeekNumber) =
      (List.range loan.TermWeeks).map (fun k => k + 1) ∧
    (∀ (i j : Nat) (a c : Schedule), (scheduleRows loanID loan w)[i]? = some a →
      (scheduleRows loanID loan w)[j]? = some c → i < j →
      a.WeekNumber < c.WeekNumber ∧ a.DueDate < c.DueDate) ∧
    (∀ (f : Faults) (db : DB), 1 ≤ loan.TermWeeks → loan.TermWeeks < 9223372036854775808 →
      f .schedulesCreateBatch = none →
      generateLoanSchedule f db loanID loan =
        (.nil, { db with
          schedules := db.schedules ++ scheduleRows loanID loan (weeklyAmount loan) })) := by
  refine ⟨length_scheduleRows loanID loan w, ?_, ?_, ?_⟩
  · simp [scheduleRows]
  · intro i j a c ha hc hij
    have hi : i < loan.TermWeeks := by
      have := lt_length_of_getElem? ha; rwa [length_scheduleRows] at this
    have hj : j < loan.TermWeeks := by
      have := lt_length_of_getElem? hc; rwa [length_scheduleRows] at this
    rw [getElem?_scheduleRows loanID loan w i hi] at ha
    rw [getElem?_scheduleRows loanID loan w j hj] at hc
    cases ha
    cases hc
    refine ⟨by show i + 1 < j + 1; omega, ?_⟩
    show AddDate _ _ < AddDate _ _
    unfold AddDate nanosPerDay
    push_cast
    omega
  · intro f db h1 h2 hf
    unfold generateLoanSchedule
    rw [(weeklyAmount_spec loan h1 h2).1]
    dsimp only
    unfold Schedules.CreateBatch
    rw [hf]

/-- Witness for C14: a loan of three weeks. -/
theorem scheduleRows_dense_and_increasing_witness :
    (scheduleRows 0 (newLoanRow 0 0 100 0 3) 33).map (fun s => s.WeekNumber) = [1, 2, 3] ∧
    (generateLoanSchedule noFaults DB.empty 0 (newLoanRow 0 0 100 0 3)).1 = .nil :=
  ⟨(scheduleRows_dense_and_increasing 0 (newLoanRow 0 0 100 0 3) 33).2.1,
   by
    rw [(scheduleRows_dense_and_increasing 0 (newLoanRow 0 0 100 0 3) 33).2.2.2 noFaults
      DB.empty (by decide) (by decide) rfl]⟩

/-- C15: for a loan with a term between 1 and `2^63 - 1` the schedule
generator computes the weekly installment `w` of the loan once
(`Loan.CalculateWeeklyPayment`) and, with a repository that does not fail,
appends its rows to the schedule table; for every week `k` with
`1 ≤ k ≤ termWeeks` the `k`-th of these rows belongs to the loan, has week
number `k`, is due at `StartDate.AddDate(0, 0, 7 * k)`, has the amount `w`
(the same for every `k`) and is unpaid. -/
theorem generated_installment_kth (db : DB) (loanID : Nat) (loan : Loan)
    (h1 : 1 ≤ loan.TermWeeks) (h2 : loan.TermWeeks < 9223372036854775808) :
    ∃ w, loan.CalculateWeeklyPayment = some w ∧
      w = wrapInt64 (Int.tdiv loan.CalculateTotalDue (wrapInt64 (loan.TermWeeks : Int))) ∧
      generateLoanSchedule noFaults db loanID loan =
        (.nil, { db with schedules := db.schedules ++ scheduleRows loanID loan w }) ∧
      ∀ k, 1 ≤ k → k ≤ loan.TermWeeks →
        (db.schedules ++ scheduleRows loanID loan w)[db.schedules.length + (k - 1)]? =
          some { LoanID := loanID, WeekNumber := k,
                 DueDate := AddDate loan.StartDate (7 * (k : Int)),
                 Amount := w, Paid := false } := by
  have hne : wrapInt64 (loan.TermWeeks : Int) ≠ 0 := by
    unfold wrapInt64; omega
  have hw : loan.CalculateWeeklyPayment =
      some (wrapInt64 (Int.tdiv loan.CalculateTotalDue (wrapInt64 (loan.TermWeeks : Int)))) := by
    unfold Loan.CalculateWeeklyPayment
    simp only []
    rw [if_neg hne]
  refine ⟨_, hw, rfl, ?_, ?_⟩
  · unfold generateLoanSchedule
    rw [hw]
    rfl
  · intro k hk1 hk2
    rw [List.getElem?_append_right (by omega)]
    have e : db.schedules.length + (k - 1) - db.schedules.length = k - 1 := by omega
    rw [e, getElem?_scheduleRows loanID loan _ (k - 1) (by omega)]
    have hk : k - 1 + 1 = k := by omega
    rw [hk]
    have e7 : ((k : Nat) : Int) * 7 = 7 * (k : Int) := by ring
    rw [e7]

/-- Witness for C15: the second installment generated for a loan of 7800 at
10% over 10 weeks starting at time 0 is due after 14 days and has the amount
794. -/
theorem generated_installment_kth_witness :
    generateLoanSchedule noFaults DB.empty 0 (newLoanRow 0 0 7800 10 10) =
      (.nil, { DB.empty with schedules := scheduleRows 0 (newLoanRow 0 0 7800 10 10) 794 }) ∧
    (scheduleRows 0 (newLoanRow 0 0 7800 10 10) 794)[1]? =
      some { LoanID := 0, WeekNumber := 2, DueDate := 14 * nanosPerDay, Amount := 794,
             Paid := false } := by
  obtain ⟨w, hw, _, hgen, hrow⟩ :=
    generated_installment_kth DB.empty 0 (newLoanRow 0 0 7800 10 10) (by decide) (by decide)
  rw [calculateWeeklyPayment_7800] at hw
  cases hw
  have h2 := hrow 2 (by decide) (by decide)
  exact ⟨hgen, h2⟩

/-- C17: for an existing borrower, a term between 1 and `2^63 - 1` and a
repository that does not fail, `CreateLoan` returns a loan whose borrower,
principal, rate and term are the inputs, whose status is active and whose
balance is `calculateTotalDue` of the inputs, which is also
`Loan.CalculateTotalDue` of the loan, the total from which the weekly amount
of its schedule is derived; the loan row is appended to the loan table and
the schedule table grows by exactly the generator's rows for that loan. -/
theorem createLoan_returns_active_loan_with_schedule (now : Int) (b : Nat) (amount : Int)
    (rate : F64) (n : Nat) (db : DB) (br : Borrower) (hb : db.borrowers[b]? = some br)
    (h1 : 1 ≤ n) (h2 : n < 9223372036854775808) :
    ∃ loan w,
      CreateLoan noFaults now b amount rate n db =
        (.ok (db.loans.length, loan),
          { db with loans := db.loans ++ [loan]
                    schedules := db.schedules ++ scheduleRows db.loans.length loan w }) ∧
      loan.BorrowerID = b ∧ loan.Amount = amount ∧ loan.InterestRate = rate ∧
      loan.TermWeeks = n ∧ loan.StartDate = now ∧ loan.Status = "active" ∧
      loan.LastPaymentDate = none ∧
      loan.CurrentBalance = calculateTotalDue amount rate n ∧
      loan.CurrentBalance = loan.CalculateTotalDue ∧
      loan.CalculateWeeklyPayment = some w ∧
      w = loan.CalculateTotalDue.tdiv (n : Int) ∧
      generateLoanSchedule noFaults { db with loans := db.loans ++ [loan] } db.loans.length loan =
        (.nil, { db with loans := db.loans ++ [loan]
                         schedules := db.schedules ++ scheduleRows db.loans.length loan w }) := by
  have hs := weeklyAmount_spec (newLoanRow now b amount rate n) h1 h2
  refine ⟨newLoanRow now b amount rate n, weeklyAmount (newLoanRow now b amount rate n),
    CreateLoan_noFaults_ok now b amount rate n db br hb h1 h2,
    rfl, rfl, rfl, rfl, rfl, rfl, rfl, rfl, rfl, hs.1, hs.2.1, ?_⟩
  unfold generateLoanSchedule
  rw [hs.1]
  rfl

/-- Witness for C17: a loan of 7800 at 10% over 10 weeks for the first
borrower of a store; its balance is 7949 and its installments are of 794. -/
theorem createLoan_returns_active_loan_with_schedule_witness :
    ∃ loan w,
      CreateLoan noFaults 0 0 7800 10 10 (Borrowers.Create noFaults DB.empty "a" "b").2 =
        (.ok ((Borrowers.Create noFaults DB.empty "a" "b").2.loans.length, loan),
          { (Borrowers.Create noFaults DB.empty "a" "b").2 with
            loans := (Borrowers.Create noFaults DB.empty "a" "b").2.loans ++ [loan]
            schedules := (Borrowers.Create noFaults DB.empty "a" "b").2.schedules ++
              scheduleRows (Borrowers.Create noFaults DB.empty "a" "b").2.loans.length loan w }) ∧
      loan.Status = "active" ∧ loan.CurrentBalance = 7949 ∧ w = 794 := by
  obtain ⟨loan, w, h, _, _, _, _, _, hs, _, hbal, hbal', _, hw, _⟩ :=
    createLoan_returns_active_loan_with_schedule 0 0 7800 10 10
      (Borrowers.Create noFaults DB.empty "a" "b").2 ⟨"a", "b", false⟩ rfl (by decide)
      (by decide)
  rw [calculateTotalDue_7800] at hbal
  refine ⟨loan, w, h, hs, hbal, ?_⟩
  rw [hw, ← hbal', hbal]
  decide

/-- C18: when the borrower identifier does not resolve to a borrower,
`CreateLoan` returns no loan and the error "borrower not found", and the
store is unchanged (no loan and no installment is created), under any failure
pattern. -/
theorem createLoan_borrower_not_found (f : Faults) (now : Int) (b : Nat) (amount : Int)
    (rate : F64) (n : Nat) (db : DB) (hb : db.borrowers[b]? = none) :
    CreateLoan f now b amount rate n db = (.error .borrowerNotFound, db) := by
  obtain ⟨e, he⟩ := Borrowers.GetByID_absent f hb
  exact CreateLoan_borrower_error he

/-- Witness for C18: a loan for borrower 3 of the example store, which has one
borrower. -/
theorem createLoan_borrower_not_found_witness :
    CreateLoan noFaults 0 3 5000000 10 50 exampleDB = (.error .borrowerNotFound, exampleDB) :=
  createLoan_borrower_not_found noFaults 0 3 5000000 10 50 exampleDB (by decide)

/-- C28: `CreateLoan` is not atomic.  When the borrower exists, the term is
between 1 and `2^63 - 1`, the loan insert succeeds and the batch insert of the
schedule fails with `e`, the call returns `e` and no loan, the loan row
(active, balance = total due) stays in the loan table, and the schedule table
is unchanged, so the stored loan has no installment if it had none of that
key before. -/
theorem createLoan_not_atomic (f : Faults) (now : Int) (b : Nat) (amount : Int) (rate : F64)
    (n : Nat) (db : DB) (br : Borrower) (c : Nat)
    (hb : Borrowers.GetByID f db b = .ok br) (hcreate : f .loansCreate = none)
    (hbatch : f .schedulesCreateBatch = some c)
    (h1 : 1 ≤ n) (h2 : n < 9223372036854775808) :
    (CreateLoan f now b amount rate n db).1 = .error (.persistence c) ∧
    (CreateLoan f now b amount rate n db).2.loans = db.loans ++ [newLoanRow now b amount rate n] ∧
    (CreateLoan f now b amount rate n db).2.schedules = db.schedules ∧
    (newLoanRow now b amount rate n).Status = "active" ∧
    (newLoanRow now b amount rate n).CurrentBalance = calculateTotalDue amount rate n ∧
    ((∀ s ∈ db.schedules, s.LoanID < db.loans.length) →
      ∀ s ∈ (CreateLoan f now b amount rate n db).2.schedules, s.LoanID ≠ db.loans.length) := by
  have h := @CreateLoan_batch_error f now b amount rate n db br _ c hb
    hcreate (weeklyAmount_spec (newLoanRow now b amount rate n) h1 h2).1 hbatch
  rw [h]
  refine ⟨rfl, rfl, rfl, rfl, rfl, ?_⟩
  intro hfresh s hs
  exact Nat.ne_of_lt (hfresh s hs)

/-- Witness for C28: the loan of `TestCreateLoan` when the batch insert fails. -/
theorem createLoan_not_atomic_witness :
    (CreateLoan (fun op => if op = .schedulesCreateBatch then some 7 else none) 0 0 5000000 10 50
        exampleDB).1 = .error (.persistence 7) ∧
    (CreateLoan (fun op => if op = .schedulesCreateBatch then some 7 else none) 0 0 5000000 10 50
        exampleDB).2.loans = exampleDB.loans ++ [newLoanRow 0 0 5000000 10 50] ∧
    (CreateLoan (fun op => if op = .schedulesCreateBatch then some 7 else none) 0 0 5000000 10 50
        exampleDB).2.schedules = exampleDB.schedules := by
  obtain ⟨h1, h2, h3, _⟩ := createLoan_not_atomic
    (fun op => if op = .schedulesCreateBatch then some 7 else none) 0 0 5000000 10 50
    exampleDB ⟨"Test Borrower", "test@example.com", true⟩ 7 rfl rfl rfl
    (by decide) (by decide)
  exact ⟨h1, h2, h3⟩

/-- C16, counterexample: `CreateLoan` does not reject invalid terms.  For the
borrower of the example store and a repository that does not fail, a call with
principal -5 and rate -1 returns a loan and persists it, and a call with a
term of 0 weeks inserts the loan row and then panics. -/
theorem createLoan_accepts_invalid_terms :
    (CreateLoan noFaults 0 0 (-5) (-1) 1 exampleDB).1 =
      .ok (1, newLoanRow 0 0 (-5) (-1) 1) ∧
    (CreateLoan noFaults 0 0 (-5) (-1) 1 exampleDB).2.loans =
      exampleDB.loans ++ [newLoanRow 0 0 (-5) (-1) 1] ∧
    (CreateLoan noFaults 0 0 100 10 0 exampleDB).1 = .panic ∧
    (CreateLoan noFaults 0 0 100 10 0 exampleDB).2.loans =
      exampleDB.loans ++ [newLoanRow 0 0 100 10 0] := by
  have h1 := CreateLoan_noFaults_ok 0 0 (-5) (-1) 1 exampleDB
    ⟨"Test Borrower", "test@example.com", true⟩ (by decide) (by decide) (by decide)
  have hw : (newLoanRow 0 0 100 10 0).CalculateWeeklyPayment = none := by
    unfold Loan.CalculateWeeklyPayment
    simp [newLoanRow, wrapInt64]
  have hb : Borrowers.GetByID noFaults exampleDB 0 =
      .ok ⟨"Test Borrower", "test@example.com", true⟩ := rfl
  have h2 := @CreateLoan_panic noFaults 0 0 100 10 0 exampleDB _ hb rfl hw
  rw [h1, h2]
  exact ⟨rfl, rfl, rfl, rfl⟩

/-- C16, amended: `CreateLoan` validates nothing (the constraints are checked
by the HTTP handler before it is called).  For an existing borrower, a
repository that does not fail and a term between 1 and `2^63 - 1`, a call
succeeds whatever the principal and the rate, also when the principal is not
positive or the rate is negative: it returns the loan, and the loan row and
its `termWeeks` installments are persisted. -/
theorem createLoan_does_not_validate (now : Int) (b : Nat) (amount : Int) (rate : F64) (n : Nat)
    (db : DB) (br : Borrower) (hb : db.borrowers[b]? = some br)
    (h1 : 1 ≤ n) (h2 : n < 9223372036854775808) :
    (CreateLoan noFaults now b amount rate n db).1 =
      .ok (db.loans.length, newLoanRow now b amount rate n) ∧
    (CreateLoan noFaults now b amount rate n db).2.loans =
      db.loans ++ [newLoanRow now b amount rate n] ∧
    (CreateLoan noFaults now b amount rate n db).2.schedules.length =
      db.schedules.length + n := by
  rw [CreateLoan_noFaults_ok now b amount rate n db br hb h1 h2]
  refine ⟨rfl, rfl, ?_⟩
  show (db.schedules ++ scheduleRows _ _ _).length = _
  rw [List.length_append, length_scheduleRows]
  rfl

/-- Witness for the amended C16: principal -5 for the borrower of the example
store. -/
theorem createLoan_does_not_validate_witness :
    (CreateLoan noFaults 0 0 (-5) 10 1 exampleDB).1 = .ok (1, newLoanRow 0 0 (-5) 10 1) ∧
    (CreateLoan noFaults 0 0 (-5) 10 1 exampleDB).2.loans =
      exampleDB.loans ++ [newLoanRow 0 0 (-5) 10 1] ∧
    (CreateLoan noFaults 0 0 (-5) 10 1 exampleDB).2.schedules.length =
      exampleDB.schedules.length + 1 :=
  createLoan_does_not_validate 0 0 (-5) 10 1 exampleDB
    ⟨"Test Borrower", "test@example.com", true⟩ (by decide) (by decide) (by decide)

/-- C19, the code at the failing inputs: a persistence failure `persistence 7`
of `GetUnpaidByLoanID` is returned by `MakePayment` as "no unpaid schedules
found", and a persistence failure of the borrower lookup is returned by
`CreateLoan` as "borrower not found", although the loan has unpaid
installments and the borrower exists. -/
theorem persistence_failure_masked :
    (MakePayment (fun op => if op = .schedulesGetUnpaidByLoanID then some 7 else none)
      20 21 0 55 exampleDB).1 = some .noUnpaidSchedules ∧
    unpaidSchedulesOfLoan exampleDB.schedules 0 ≠ [] ∧
    (CreateLoan (fun op => if op = .borrowersGetByID then some 7 else none)
      0 0 5000000 10 50 exampleDB).1 = .error .borrowerNotFound ∧
    exampleDB.borrowers[0]? ≠ none := by
  refine ⟨by decide, by decide, ?_, by decide⟩
  have hb : Borrowers.GetByID (fun op => if op = .borrowersGetByID then some 7 else none)
      exampleDB 0 = .error (.persistence 7) := rfl
  rw [CreateLoan_borrower_error hb]

/-! ## Claims on the sweep -/

/-- C21: the candidate set of the sweep is exactly the loans whose status
is active and whose last-payment date is null or strictly earlier than 14
days before `now`; a closed loan, and an active loan whose last payment is 14
days old or newer, is not a candidate. -/
theorem getPotentialDelinquent_candidates (now : Int) (db : DB) :
    ∃ candidates, GetPotentialDelinquentLoans noFaults now db = .ok candidates ∧
      (∀ (i : Nat) (loan : Loan), (i, loan) ∈ candidates ↔
        db.loans[i]? = some loan ∧ loan.Status = "active" ∧
          (loan.LastPaymentDate = none ∨
            ∃ d, loan.LastPaymentDate = some d ∧ d < now - 14 * nanosPerDay)) ∧
      (∀ (i : Nat) (loan : Loan), loan.Status = "closed" → (i, loan) ∉ candidates) ∧
      (∀ (i : Nat) (loan : Loan) (d : Int), loan.LastPaymentDate = some d →
        now - 14 * nanosPerDay ≤ d → (i, loan) ∉ candidates) := by
  have hmem : ∀ (i : Nat) (loan : Loan),
      (i, loan) ∈ (db.loans.enum.filter fun r =>
        decide (r.2.Status = "active") &&
          (match r.2.LastPaymentDate with
            | none => true
            | some d => decide (d < AddDate now (-14)))) ↔
      db.loans[i]? = some loan ∧ loan.Status = "active" ∧
        (loan.LastPaymentDate = none ∨
          ∃ d, loan.LastPaymentDate = some d ∧ d < now - 14 * nanosPerDay) := by
    intro i loan
    have hcut : AddDate now (-14) = now - 14 * nanosPerDay := by unfold AddDate; ring
    rw [List.mem_filter, List.mk_mem_enum_iff_getElem?, hcut]
    rcases hlp : loan.LastPaymentDate with _ | d
    · simp
    · simp
  refine ⟨_, rfl, hmem, ?_, ?_⟩
  · intro i loan hclosed hin
    have h := ((hmem i loan).1 hin).2.1
    rw [hclosed] at h
    exact absurd h (by decide)
  · intro i loan d hd hle hin
    rcases ((hmem i loan).1 hin).2.2 with h | ⟨d', h, hlt⟩
    · rw [hd] at h; cases h
    · rw [hd] at h; cases h; omega

/-- Witness for C21: in the example store the never-paid active loan is a
candidate; once closed, or once paid on day 20 with `now` on day 30, it is
not. -/
theorem getPotentialDelinquent_candidates_witness :
    GetPotentialDelinquentLoans noFaults 30 exampleDB =
      .ok [(0, ⟨0, 100, 10, 2, 0, "active", 110, none⟩)] ∧
    ∃ candidates, GetPotentialDelinquentLoans noFaults (30 * nanosPerDay)
        { exampleDB with
          loans := [⟨0, 100, 10, 2, 0, "active", 55, some (20 * nanosPerDay)⟩] } =
        .ok candidates ∧
      (0, ⟨0, 100, 10, 2, 0, "active", 55, some (20 * nanosPerDay)⟩) ∉ candidates := by
  refine ⟨rfl, ?_⟩
  obtain ⟨c, hc, _, _, h3⟩ := getPotentialDelinquent_candidates (30 * nanosPerDay)
    { exampleDB with loans := [⟨0, 100, 10, 2, 0, "active", 55, some (20 * nanosPerDay)⟩] }
  exact ⟨c, hc, h3 0 _ (20 * nanosPerDay) rfl (by decide)⟩

theorem goSlice_batch {α : Type} (s : List α) (i : Nat) (hi : i < s.length) :
    goSlice s i (if i + batchSize > s.length then s.length else i + batchSize) =
      some ((s.drop i).take batchSize) := by
  unfold goSlice
  split
  · rw [if_pos ⟨by omega, Nat.le_refl _⟩]
    congr 1
    rw [List.take_of_length_le (by rw [List.length_drop]),
      List.take_of_length_le (by rw [List.length_drop]; omega)]
  · rw [if_pos ⟨by omega, by omega⟩]
    congr 2
    omega

/-- The batched loop from index `i` is the flat loop over the remaining
candidates. -/
theorem processBatches_eq {σ : Type} (check : σ → Nat → (Bool × Option Err) × σ)
    (loans : List (Nat × Loan)) :
    ∀ (m i : Nat) (st : SweepState σ), loans.length - i ≤ m →
      processBatches check loans i st = some (sweepFlat check (loans.drop i) st) := by
  intro m
  induction m with
  | zero =>
    intro i st hm
    unfold processBatches
    rw [dif_neg (by omega), List.drop_of_length_le (by omega)]
    rfl
  | succ m ih =>
    intro i st hm
    unfold processBatches
    by_cases hi : i < loans.length
    · rw [dif_pos hi]
      simp only []
      rw [goSlice_batch loans i hi]
      simp only []
      rw [ih (i + batchSize) _ (by unfold batchSize; omega)]
      congr 1
      unfold sweepFlat
      rw [← List.foldl_append]
      congr 1
      rw [← List.drop_drop, List.take_append_drop]
    · rw [dif_neg hi, List.drop_of_length_le (by omega)]
      rfl

theorem sweepLoan_fields {σ : Type} (check : σ → Nat → (Bool × Option Err) × σ)
    (st : SweepState σ) (loan : Nat × Loan) :
    (sweepLoan check st loan).svc = (check st.svc loan.1).2 ∧
    (sweepLoan check st loan).evaluated = st.evaluated ++ [loan.1] ∧
    (sweepLoan check st loan).outcomes = st.outcomes ++ [(check st.svc loan.1).1] ∧
    (sweepLoan check st loan).delinquentCount =
      st.delinquentCount + if (check st.svc loan.1).1 = (true, none) then 1 else 0 := by
  unfold sweepLoan
  rcases h : check st.svc loan.1 with ⟨⟨v, e⟩, svc⟩
  rcases e with _ | e
  · cases v <;> simp
  · cases v <;> simp

theorem sweepFlat_fields {σ : Type} (check : σ → Nat → (Bool × Option Err) × σ)
    (loans : List (Nat × Loan)) :
    ∀ st : SweepState σ,
      (sweepFlat check loans st).evaluated = st.evaluated ++ loans.map Prod.fst ∧
      (sweepFlat check loans st).outcomes.length = st.outcomes.length + loans.length ∧
      (∃ new, (sweepFlat check loans st).outcomes = st.outcomes ++ new ∧
        (sweepFlat check loans st).delinquentCount =
          st.delinquentCount + new.countP (fun o => decide (o = (true, none)))) := by
  induction loans with
  | nil => intro st; exact ⟨by simp [sweepFlat], by simp [sweepFlat], [], by simp [sweepFlat]⟩
  | cons loan rest ih =>
    intro st
    obtain ⟨h1, h2, new, h3, h4⟩ := ih (sweepLoan check st loan)
    obtain ⟨-, g2, g3, g4⟩ := sweepLoan_fields check st loan
    have hstep : sweepFlat check (loan :: rest) st = sweepFlat check rest (sweepLoan check st loan) :=
      rfl
    rw [hstep]
    refine ⟨?_, ?_, (check st.svc loan.1).1 :: new, ?_, ?_⟩
    · rw [h1, g2]; simp
    · rw [h2, g3]; simp; omega
    · rw [h3, g3]; simp
    · rw [h4, g4, List.countP_cons]
      by_cases hc : (check st.svc loan.1).1 = (true, none)
      · simp [hc]; omega
      · simp [hc]

/-- C23: batch boundaries have no effect.  For every candidate list (of any
length, also 0, 500 or a non-multiple of 500) the batched double loop of
`checkDelinquency` never takes a slice out of bounds and ends in the state of
a single flat loop over the list: the same calls in the same order, the same
results and the same counts. -/
theorem batched_sweep_eq_flat {σ : Type} (check : σ → Nat → (Bool × Option Err) × σ)
    (loans : List (Nat × Loan)) (st : SweepState σ) :
    processBatches check loans 0 st = some (sweepFlat check loans st) ∧
    (∀ i, i < loans.length →
      ∃ batch, goSlice loans i (if i + batchSize > loans.length then loans.length
          else i + batchSize) = some batch ∧ batch = (loans.drop i).take batchSize) ∧
    (sweepFlat check loans st).evaluated = st.evaluated ++ loans.map Prod.fst := by
  refine ⟨processBatches_eq check loans loans.length 0 st (by omega), ?_,
    (sweepFlat_fields check loans st).1⟩
  intro i hi
  exact ⟨_, goSlice_batch loans i hi, rfl⟩

/-- Witness for C23: three candidates, one batch. -/
theorem batched_sweep_eq_flat_witness :
    processBatches (serviceCheck (fun _ => noFaults) (fun _ => 30))
        [(0, ⟨0, 100, 10, 2, 0, "active", 110, none⟩), (5, ⟨0, 100, 10, 2, 0, "active", 110, none⟩),
          (0, ⟨0, 100, 10, 2, 0, "active", 110, none⟩)] 0
        { svc := (exampleDB, 0), delinquentCount := 0, evaluated := [], outcomes := [] } =
      some (sweepFlat (serviceCheck (fun _ => noFaults) (fun _ => 30))
        [(0, ⟨0, 100, 10, 2, 0, "active", 110, none⟩), (5, ⟨0, 100, 10, 2, 0, "active", 110, none⟩),
          (0, ⟨0, 100, 10, 2, 0, "active", 110, none⟩)]
        { svc := (exampleDB, 0), delinquentCount := 0, evaluated := [], outcomes := [] }) :=
  (batched_sweep_eq_flat _ _ _).1

/-- C22: for every list of `N` candidates and every behaviour of the
per-loan check (any results, any errors), `checkDelinquency` passes each
candidate to `IsDelinquent` exactly once, in list order, reports
`scanned = N`, and reports as `delinquent` the number of calls that returned
verdict true without error; a call that returns an error is skipped and the
later candidates are still evaluated and counted. -/
theorem checkDelinquency_counts {σ : Type} (fetch : σ → Except Err (List (Nat × Loan)))
    (check : σ → Nat → (Bool × Option Err) × σ) (svc : σ) (loans : List (Nat × Loan))
    (hfetch : fetch svc = .ok loans) :
    ∃ st, checkDelinquency fetch check svc = .done loans.length st ∧
      st.evaluated = loans.map Prod.fst ∧
      st.outcomes.length = loans.length ∧
      st.delinquentCount = st.outcomes.countP (fun o => decide (o = (true, none))) ∧
      st = sweepFlat check loans
        { svc := svc, delinquentCount := 0, evaluated := [], outcomes := [] } := by
  unfold checkDelinquency
  rw [hfetch]
  simp only []
  rw [processBatches_eq check loans loans.length 0 _ (by omega)]
  simp only [List.drop_zero]
  obtain ⟨h1, h2, new, h3, h4⟩ := sweepFlat_fields check loans
    { svc := svc, delinquentCount := 0, evaluated := [], outcomes := [] }
  refine ⟨_, rfl, by simpa using h1, by simpa using h2, ?_, rfl⟩
  rw [h4, h3]
  simp

/-- Witness for C22: three candidates on the example store on day 30 (both
installments overdue); the second key is absent, so its check fails, and the
third is still evaluated: scanned 3, delinquent 2. -/
theorem checkDelinquency_counts_witness :
    ∃ st, checkDelinquency
        (fun _ => .ok [(0, ⟨0, 100, 10, 2, 0, "active", 110, none⟩),
          (5, ⟨0, 100, 10, 2, 0, "active", 110, none⟩),
          (0, ⟨0, 100, 10, 2, 0, "active", 110, none⟩)])
        (serviceCheck (fun _ => noFaults) (fun _ => 30)) (exampleDB, 0) = .done 3 st ∧
      st.evaluated = [0, 5, 0] ∧ st.delinquentCount = 2 := by
  obtain ⟨st, h, he, _, _, hst⟩ := checkDelinquency_counts
    (fun _ => .ok [(0, ⟨0, 100, 10, 2, 0, "active", 110, none⟩),
      (5, ⟨0, 100, 10, 2, 0, "active", 110, none⟩),
      (0, ⟨0, 100, 10, 2, 0, "active", 110, none⟩)])
    (serviceCheck (fun _ => noFaults) (fun _ => 30)) (exampleDB, 0) _ rfl
  refine ⟨st, h, he, ?_⟩
  rw [hst]
  decide

/-! ## The shape of the schedules of reachable states -/

theorem getElem?_set_cases {α : Type} {l : List α} {i j : Nat} {x s : α}
    (h : (l.set i x)[j]? = some s) : (j = i ∧ s = x) ∨ (j ≠ i ∧ l[j]? = some s) := by
  rw [List.getElem?_set] at h
  by_cases hij : i = j
  · subst hij
    left
    rw [if_pos rfl] at h
    split at h
    · exact ⟨rfl, (Option.some.inj h).symm⟩
    · cases h
  · right
    rw [if_neg hij] at h
    exact ⟨fun e => hij e.symm, h⟩

theorem getElem?_set_self_of {α : Type} {l : List α} {i : Nat} {y : α} (x : α)
    (h : l[i]? = some y) : (l.set i x)[i]? = some x := by
  rw [List.getElem?_set, if_pos rfl, if_pos (lt_length_of_getElem? h)]

theorem getElem?_set_of_ne {α : Type} (l : List α) {i j : Nat} (x : α) (h : j ≠ i) :
    (l.set i x)[j]? = l[j]? := by
  rw [List.getElem?_set, if_neg (fun e => h e.symm)]

/-- The shape of a loan only depends on its own rows, its term and its start
date. -/
theorem LoanShape.transfer {table table' : List Schedule} {L : Nat} {loan loan' : Loan}
    (h : LoanShape table L loan)
    (hto : ∀ (i : Nat) (s : Schedule), table'[i]? = some s → s.LoanID = L → table[i]? = some s)
    (hfrom : ∀ (i : Nat) (s : Schedule), table[i]? = some s → s.LoanID = L → table'[i]? = some s)
    (hpc : paidCountOfLoan table' L = paidCountOfLoan table L)
    (huc : countUnpaidOfLoan table' L = countUnpaidOfLoan table L)
    (hT : loan'.TermWeeks = loan.TermWeeks) (hS : loan'.StartDate = loan.StartDate) :
    LoanShape table' L loan' := by
  refine ⟨?_, ?_, ?_, ?_, ?_⟩
  · intro i s hi hL
    rw [hT, hS]
    exact h.week i s (hto i s hi hL) hL
  · intro i j s t hi hj hsL htL hw
    exact h.uniq i j s t (hto i s hi hsL) (hto j t hj htL) hsL htL hw
  · rintro ⟨s, hs, hsL⟩ w hw1 hw2
    obtain ⟨i, hi⟩ := List.getElem?_of_mem hs
    rw [hT] at hw2
    obtain ⟨i', s', hi', hsL', hw'⟩ :=
      h.dense ⟨s, List.getElem?_mem (hto i s hi hsL), hsL⟩ w hw1 hw2
    exact ⟨i', s', hfrom i' s' hi' hsL', hsL', hw'⟩
  · intro i s hi hL
    rw [hpc]
    exact h.paidFirst i s (hto i s hi hL) hL
  · rw [hpc, huc, hT]
    rcases h.total with ht | ht
    · exact Or.inl ht
    · right
      intro s hs hsL
      obtain ⟨i, hi⟩ := List.getElem?_of_mem hs
      exact ht s (List.getElem?_mem (hto i s hi hsL)) hsL

theorem LoanShape.of_no_rows {table : List Schedule} {L : Nat} {loan : Loan}
    (h : ∀ s ∈ table, s.LoanID ≠ L) : LoanShape table L loan := by
  refine ⟨?_, ?_, ?_, ?_, Or.inr h⟩
  · intro i s hi hL; exact absurd hL (h s (List.getElem?_mem hi))
  · intro i j s t hi _ hL; exact absurd hL (h s (List.getElem?_mem hi))
  · rintro ⟨s, hs, hL⟩; exact absurd hL (h s hs)
  · intro i s hi hL; exact absurd hL (h s (List.getElem?_mem hi))

theorem Shaped.emptyStore : Shaped DB.empty := by
  intro L loan h
  simp [DB.empty] at h

theorem Shaped.sameTables {db db' : DB} (h : Shaped db) (hl : db'.loans = db.loans)
    (hs : db'.schedules = db.schedules) : Shaped db' := by
  intro L loan hL
  rw [hl] at hL
  rw [hs]
  exact h L loan hL

theorem Shaped.withLoan {db : DB} (h : Shaped db) (hc : Consistent db) (loan : Loan) :
    Shaped { db with loans := db.loans ++ [loan] } := by
  intro L loan' hL
  show LoanShape db.schedules L loan'
  have hL' : (db.loans ++ [loan])[L]? = some loan' := hL
  rcases Nat.lt_or_ge L db.loans.length with hlt | hge
  · rw [List.getElem?_append_left hlt] at hL'
    exact h L loan' hL'
  · apply LoanShape.of_no_rows
    intro s hs
    have := hc.schedule_loan s hs
    omega

theorem Shaped.withSchedule {db : DB} (h : Shaped db) (hc : Consistent db) (loan : Loan)
    (w : Int) :
    Shaped { db with
      loans := db.loans ++ [loan]
      schedules := db.schedules ++ scheduleRows db.loans.length loan w } := by
  have hfreshS : ∀ s ∈ db.schedules, s.LoanID ≠ db.loans.length :=
    fun s hs => Nat.ne_of_lt (hc.schedule_loan s hs)
  intro L loan' hL
  show LoanShape (db.schedules ++ scheduleRows db.loans.length loan w) L loan'
  have hL' : (db.loans ++ [loan])[L]? = some loan' := hL
  rcases Nat.lt_or_ge L db.loans.length with hlt | hge
  · rw [List.getElem?_append_left hlt] at hL'
    have hne : ∀ s ∈ scheduleRows db.loans.length loan w, s.LoanID ≠ L := by
      intro s hs; rw [(mem_scheduleRows hs).1]; omega
    refine (h L loan' hL').transfer ?_ ?_ ?_ ?_ rfl rfl
    · intro i s hi hsL
      rcases Nat.lt_or_ge i db.schedules.length with hi' | hi'
      · rwa [List.getElem?_append_left hi'] at hi
      · rw [List.getElem?_append_right hi'] at hi
        exact absurd hsL (hne s (List.getElem?_mem hi))
    · intro i s hi _
      rw [List.getElem?_append_left (lt_length_of_getElem? hi)]
      exact hi
    · rw [paidCountOfLoan_append, paidCountOfLoan_eq_zero hne]; rfl
    · rw [countUnpaidOfLoan_append, countUnpaidOfLoan_eq_zero_of_ne hne]; rfl
  · rw [List.getElem?_append_right hge] at hL'
    have hL0 : L = db.loans.length := by
      have := lt_length_of_getElem? hL'
      simp at this; omega
    subst hL0
    simp at hL'
    subst hL'
    have hp : paidCountOfLoan (db.schedules ++ scheduleRows db.loans.length loan w)
        db.loans.length = 0 := by
      rw [paidCountOfLoan_append, paidCountOfLoan_eq_zero hfreshS,
        paidCountOfLoan_scheduleRows]
    have hu : countUnpaidOfLoan (db.schedules ++ scheduleRows db.loans.length loan w)
        db.loans.length = loan.TermWeeks := by
      rw [countUnpaidOfLoan_append, countUnpaidOfLoan_eq_zero_of_ne hfreshS,
        countUnpaidOfLoan_scheduleRows]; omega
    have hrow : ∀ (i : Nat) (s : Schedule),
        (db.schedules ++ scheduleRows db.loans.length loan w)[i]? = some s →
        s.LoanID = db.loans.length →
        ∃ j, j < loan.TermWeeks ∧ i = db.schedules.length + j ∧
          s = ⟨db.loans.length, j + 1, AddDate loan.StartDate (((j + 1 : Nat) : Int) * 7), w,
            false⟩ := by
      intro i s hi hsL
      rcases Nat.lt_or_ge i db.schedules.length with hi' | hi'
      · rw [List.getElem?_append_left hi'] at hi
        exact absurd hsL (hfreshS s (List.getElem?_mem hi))
      · rw [List.getElem?_append_right hi'] at hi
        have hj : i - db.schedules.length < loan.TermWeeks := by
          have := lt_length_of_getElem? hi; rwa [length_scheduleRows] at this
        rw [getElem?_scheduleRows _ _ _ _ hj] at hi
        exact ⟨i - db.schedules.length, hj, by omega, (Option.some.inj hi).symm⟩
    refine ⟨?_, ?_, ?_, ?_, Or.inl (by rw [hp, hu]; omega)⟩
    · intro i s hi hsL
      obtain ⟨j, hj, -, rfl⟩ := hrow i s hi hsL
      exact ⟨by show 1 ≤ j + 1; omega, by show j + 1 ≤ _; omega, rfl⟩
    · intro i j s t hi hj hsL htL hw
      obtain ⟨a, -, hia, rfl⟩ := hrow i s hi hsL
      obtain ⟨c, -, hjc, rfl⟩ := hrow j t hj htL
      have : a + 1 = c + 1 := hw
      omega
    · intro _ w' hw1 hw2
      refine ⟨db.schedules.length + (w' - 1),
        ⟨db.loans.length, w' - 1 + 1,
          AddDate loan.StartDate (((w' - 1 + 1 : Nat) : Int) * 7), w, false⟩, ?_, rfl, ?_⟩
      · rw [List.getElem?_append_right (by omega)]
        have e : db.schedules.length + (w' - 1) - db.schedules.length = w' - 1 := by omega
        rw [e]
        exact getElem?_scheduleRows _ _ _ _ (by omega)
      · show w' - 1 + 1 = w'
        omega
    · intro i s hi hsL
      obtain ⟨j, -, -, rfl⟩ := hrow i s hi hsL
      rw [hp]
      constructor
      · intro hcontra; cases hcontra
      · intro hle
        have : j + 1 ≤ 0 := hle
        omega

/-- Paying the head of the unpaid list keeps the shape: the target is the
installment of week `paidCountOfLoan + 1`. -/
theorem Shaped.payHead {db : DB} (h : Shaped db) {L i : Nat} {loan : Loan} {sch : Schedule}
    {rest : List (Nat × Schedule)} (loans : List Loan)
    (hl : db.loans[L]? = some loan)
    (hu : unpaidSchedulesOfLoan db.schedules L = (i, sch) :: rest)
    (hloans : ∀ (L' : Nat) (loan' : Loan), loans[L']? = some loan' →
      ∃ old, db.loans[L']? = some old ∧ loan'.TermWeeks = old.TermWeeks ∧
        loan'.StartDate = old.StartDate) :
    sch.WeekNumber = paidCountOfLoan db.schedules L + 1 ∧
    ∀ (L' : Nat) (loan' : Loan), loans[L']? = some loan' →
      LoanShape (db.schedules.set i { sch with Paid := true }) L' loan' := by
  obtain ⟨hsi, hsL, hsP, hmin⟩ := unpaidSchedulesOfLoan_head hu
  have hmem : sch ∈ db.schedules := List.getElem?_mem hsi
  have hsh := h L loan hl
  have hpc := @paidCountOfLoan_set db.schedules i sch L hsi hsP
  have huc := @countUnpaidOfLoan_set db.schedules i sch L hsi hsP
  rw [if_pos hsL] at hpc huc
  have htot : paidCountOfLoan db.schedules L + countUnpaidOfLoan db.schedules L =
      loan.TermWeeks := by
    rcases hsh.total with ht | ht
    · exact ht
    · exact absurd hsL (ht sch hmem)
  have hweek : sch.WeekNumber = paidCountOfLoan db.schedules L + 1 := by
    have h1 : ¬ sch.WeekNumber ≤ paidCountOfLoan db.schedules L := by
      intro hle
      have := (hsh.paidFirst i sch hsi hsL).2 hle
      rw [hsP] at this; cases this
    obtain ⟨i0, s0, hi0, hs0L, hs0w⟩ := hsh.dense ⟨sch, hmem, hsL⟩
      (paidCountOfLoan db.schedules L + 1) (by omega) (by omega)
    have hs0P : s0.Paid = false := by
      cases hp : s0.Paid
      · rfl
      · have := (hsh.paidFirst i0 s0 hi0 hs0L).1 hp
        omega
    have := hmin i0 s0 hi0 hs0L hs0P
    omega
  refine ⟨hweek, ?_⟩
  intro L' loan' hL'
  obtain ⟨old, hold, hT, hS⟩ := hloans L' loan' hL'
  have hsh' := h L' old hold
  by_cases hLL : L' = L
  · subst hLL
    rw [hl] at hold
    cases hold
    have hto : ∀ (j : Nat) (s : Schedule),
        (db.schedules.set i { sch with Paid := true })[j]? = some s →
        ∃ s0, db.schedules[j]? = some s0 ∧ s.LoanID = s0.LoanID ∧
          s.WeekNumber = s0.WeekNumber ∧ s.DueDate = s0.DueDate ∧
          ((j = i ∧ s.Paid = true) ∨ (j ≠ i ∧ s = s0)) := by
      intro j s hj
      rcases getElem?_set_cases hj with ⟨rfl, rfl⟩ | ⟨hne, hj'⟩
      · exact ⟨sch, hsi, rfl, rfl, rfl, Or.inl ⟨rfl, rfl⟩⟩
      · exact ⟨s, hj', rfl, rfl, rfl, Or.inr ⟨hne, rfl⟩⟩
    refine ⟨?_, ?_, ?_, ?_, Or.inl (by rw [hT]; omega)⟩
    · intro j s hj hsL'
      obtain ⟨s0, hj0, e1, e2, e3, -⟩ := hto j s hj
      rw [e2, e3, hT, hS]
      exact hsh.week j s0 hj0 (by rw [← e1]; exact hsL')
    · intro j1 j2 s t hj1 hj2 hsL' htL' hw
      obtain ⟨s0, hs0, e1, e2, -, -⟩ := hto j1 s hj1
      obtain ⟨t0, ht0, g1, g2, -, -⟩ := hto j2 t hj2
      exact hsh.uniq j1 j2 s0 t0 hs0 ht0 (by rw [← e1]; exact hsL') (by rw [← g1]; exact htL')
        (by rw [← e2, ← g2]; exact hw)
    · intro _ w hw1 hw2
      rw [hT] at hw2
      obtain ⟨i0, s0, hi0, hs0L, hs0w⟩ := hsh.dense ⟨sch, hmem, hsL⟩ w hw1 hw2
      by_cases hi0i : i0 = i
      · subst hi0i
        rw [hsi] at hi0
        cases hi0
        exact ⟨i0, _, getElem?_set_self_of _ hsi, hs0L, hs0w⟩
      · exact ⟨i0, s0, by rw [getElem?_set_of_ne _ _ hi0i]; exact hi0, hs0L, hs0w⟩
    · intro j s hj hsL'
      rw [hpc]
      obtain ⟨s0, hj0, e1, e2, -, hcase⟩ := hto j s hj
      rcases hcase with ⟨rfl, hp⟩ | ⟨hne, rfl⟩
      · rw [hsi] at hj0
        cases hj0
        rw [e2, hweek]
        exact ⟨fun _ => Nat.le_refl _, fun _ => hp⟩
      · have hpp := hsh.paidFirst j s hj0 hsL'
        have hnw : s.WeekNumber ≠ paidCountOfLoan db.schedules L' + 1 := by
          intro hw
          exact hne (hsh.uniq j i s sch hj0 hsi hsL' hsL (by rw [hw, hweek]))
        rw [hpp]
        omega
  · have hne : ¬ sch.LoanID = L' := by rw [hsL]; exact fun e => hLL e.symm
    have hpc' := @paidCountOfLoan_set db.schedules i sch L' hsi hsP
    have huc' := @countUnpaidOfLoan_set db.schedules i sch L' hsi hsP
    rw [if_neg hne, Nat.add_zero] at hpc' huc'
    refine hsh'.transfer ?_ ?_ hpc' huc' hT hS
    · intro j s hj hsL'
      rcases getElem?_set_cases hj with ⟨rfl, rfl⟩ | ⟨-, hj'⟩
      · exact absurd hsL' hne
      · exact hj'
    · intro j s hj hsL'
      have hji : j ≠ i := by
        intro e
        subst e
        rw [hsi] at hj
        cases hj
        exact hne hsL'
      rw [getElem?_set_of_ne _ _ hji]
      exact hj

/-- Every reachable state has well-shaped schedules. -/
theorem Reachable.shaped {db : DB} (h : Reachable db) : Shaped db := by
  induction h with
  | empty => exact Shaped.emptyStore
  | createBorrower h f name contactInfo ih =>
    apply ih.sameTables <;>
    · unfold Borrowers.Create
      rcases f .borrowersCreate with _ | c <;> rfl
  | createLoan h f now b amount rate n hterm ih =>
    rcases CreateLoan_cases f now b amount rate n _ with ⟨_, h1⟩ | ⟨_, h1⟩ | ⟨w, hw, _, h1⟩
    · rw [h1]; exact ih
    · rw [h1]; exact ih.withLoan h.consistent _
    · rw [h1]; exact ih.withSchedule h.consistent _ w
  | makePayment h f pd cd L a ih =>
    rcases MakePayment_cases f pd cd L a _ with ⟨_, h1⟩ | ⟨_, loan, i, sch, rest, hl, hu, ha, h1⟩
    · rw [h1]; exact ih
    · rw [h1]
      refine (ih.payHead _ hl hu ?_).2
      intro L' loan' hL'
      rcases getElem?_set_cases hL' with ⟨rfl, rfl⟩ | ⟨-, hj'⟩
      · exact ⟨loan, hl, rfl, rfl⟩
      · exact ⟨loan', hj', rfl, rfl⟩
  | isDelinquent h f cd L ih =>
    obtain ⟨h1, h2, _⟩ := IsDelinquent_tables f cd L _
    exact ih.sameTables h1 h2

/-! ## Payments are settled in week order -/

/-- In every reachable state a loan has as many payment records as paid
installments. -/
theorem Reachable.paymentCount {db : DB} (h : Reachable db) :
    ∀ L, paymentCountOfLoan db.payments L = paidCountOfLoan db.schedules L := by
  induction h with
  | empty => intro L; rfl
  | @createBorrower d h f name contactInfo ih =>
    have e : (Borrowers.Create f d name contactInfo).2.payments = d.payments ∧
        (Borrowers.Create f d name contactInfo).2.schedules = d.schedules := by
      unfold Borrowers.Create
      rcases f .borrowersCreate with _ | c <;> exact ⟨rfl, rfl⟩
    intro L
    rw [e.1, e.2]
    exact ih L
  | createLoan h f now b amount rate n hterm ih =>
    intro L
    rcases CreateLoan_cases f now b amount rate n _ with ⟨_, h1⟩ | ⟨_, h1⟩ | ⟨w, hw, _, h1⟩
    · rw [h1]; exact ih L
    · rw [h1]; exact ih L
    · rw [h1]
      show paymentCountOfLoan _ L = paidCountOfLoan (_ ++ _) L
      rw [paidCountOfLoan_append, paidCountOfLoan_scheduleRows, Nat.add_zero]
      exact ih L
  | makePayment h f pd cd L a ih =>
    intro L'
    rcases MakePayment_cases f pd cd L a _ with ⟨_, h1⟩ | ⟨_, loan, i, sch, rest, hl, hu, ha, h1⟩
    · rw [h1]; exact ih L'
    · rw [h1]
      obtain ⟨hsi, hsL, hsP, -⟩ := unpaidSchedulesOfLoan_head hu
      show paymentCountOfLoan (_ ++ [_]) L' = paidCountOfLoan (List.set _ i _) L'
      rw [paidCountOfLoan_set L' hsi hsP, hsL, ← ih L']
      unfold paymentCountOfLoan
      rw [List.countP_append]
      by_cases hLL : L = L'
      · simp [hLL]
      · simp [hLL]
  | isDelinquent h f cd L ih =>
    obtain ⟨_, h2, h3⟩ := IsDelinquent_tables f cd L _
    intro L'
    rw [h2, h3]
    exact ih L'

/-- C20: in every reachable state the paid installments of a loan are
exactly those of weeks `1, ..., k`, with `k` the number of paid installments
(at most the term): an installment is paid exactly when its week number is at
most `k`, every week `1, ..., k` has an installment, and no two installments
of the loan share a week number; a successful `MakePayment` marks the unpaid
installment of week `k + 1` and no other row, so `k` grows by exactly 1. -/
theorem paid_installments_are_first_weeks (db : DB) (hr : Reachable db) :
    (∀ (L : Nat) (loan : Loan), db.loans[L]? = some loan →
      paidCountOfLoan db.schedules L ≤ loan.TermWeeks ∧
      (∀ s ∈ db.schedules, s.LoanID = L →
        (s.Paid = true ↔ 1 ≤ s.WeekNumber ∧ s.WeekNumber ≤ paidCountOfLoan db.schedules L)) ∧
      (∀ w, 1 ≤ w → w ≤ paidCountOfLoan db.schedules L →
        ∃ s ∈ db.schedules, s.LoanID = L ∧ s.WeekNumber = w ∧ s.Paid = true) ∧
      (∀ (i j : Nat) (s t : Schedule), db.schedules[i]? = some s → db.schedules[j]? = some t →
        s.LoanID = L → t.LoanID = L → s.WeekNumber = t.WeekNumber → i = j)) ∧
    (∀ (f : Faults) (pd cd : Int) (L : Nat) (a : Int),
      (MakePayment f pd cd L a db).1 = none →
      paidCountOfLoan (MakePayment f pd cd L a db).2.schedules L =
        paidCountOfLoan db.schedules L + 1 ∧
      ∃ (i : Nat) (sch : Schedule), db.schedules[i]? = some sch ∧ sch.LoanID = L ∧
        sch.Paid = false ∧ sch.WeekNumber = paidCountOfLoan db.schedules L + 1 ∧
        (MakePayment f pd cd L a db).2.schedules =
          db.schedules.set i { sch with Paid := true }) := by
  refine ⟨?_, ?_⟩
  · intro L loan hloan
    have hs := hr.shaped L loan hloan
    have hc := hr.consistent.loan L loan hloan
    refine ⟨by have := hc.count; omega, ?_, ?_, hs.uniq⟩
    · intro s hmem hsL
      obtain ⟨i, hi⟩ := List.getElem?_of_mem hmem
      have hw := (hs.week i s hi hsL).1
      rw [hs.paidFirst i s hi hsL]
      exact ⟨fun h => ⟨hw, h⟩, fun h => h.2⟩
    · intro w hw1 hw2
      have hex : ∃ s ∈ db.schedules, s.LoanID = L :=
        (exists_schedule_iff_count_pos db.schedules L).2 (by omega)
      obtain ⟨i, s, hi, hsL, hsw⟩ := hs.dense hex w hw1 (by have := hc.count; omega)
      exact ⟨s, List.getElem?_mem hi, hsL, hsw,
        (hs.paidFirst i s hi hsL).2 (by rw [hsw]; exact hw2)⟩
  · intro f pd cd L a hok
    rcases MakePayment_cases f pd cd L a db with ⟨hne, _⟩ | ⟨_, loan, i, sch, rest, hl, hu, ha, h1⟩
    · exact absurd hok hne
    · obtain ⟨hsi, hsL, hsP, -⟩ := unpaidSchedulesOfLoan_head hu
      have hweek := (hr.shaped.payHead db.loans hl hu
        (fun L' loan' h' => ⟨loan', h', rfl, rfl⟩)).1
      rw [h1]
      refine ⟨?_, i, sch, hsi, hsL, hsP, hweek, rfl⟩
      show paidCountOfLoan (List.set _ i _) L = _
      rw [paidCountOfLoan_set L hsi hsP, if_pos hsL]

/-- Witness for C20: the store of the example, reached by creating a
borrower and a loan of two weeks. -/
theorem paid_installments_are_first_weeks_witness :
    paidCountOfLoan exampleCreated.schedules 0 ≤ (newLoanRow 0 0 100 0 2).TermWeeks ∧
    (∀ s ∈ exampleCreated.schedules, s.LoanID = 0 →
      (s.Paid = true ↔
        1 ≤ s.WeekNumber ∧ s.WeekNumber ≤ paidCountOfLoan exampleCreated.schedules 0)) :=
  ⟨((paid_installments_are_first_weeks exampleCreated exampleCreated_reachable).1 0
      (newLoanRow 0 0 100 0 2) rfl).1,
    ((paid_installments_are_first_weeks exampleCreated exampleCreated_reachable).1 0
      (newLoanRow 0 0 100 0 2) rfl).2.1⟩

/-! ## The streak test on reachable states -/

theorem schedulesOfLoan_nodup (table : List Schedule) (L : Nat) :
    (schedulesOfLoan table L).Nodup := by
  unfold schedulesOfLoan orderByWeekNumber
  rw [(List.perm_insertionSort _ _).nodup_iff]
  apply List.Nodup.filter
  apply List.Nodup.of_map Prod.fst
  rw [List.enum_map_fst]
  exact List.nodup_range _

theorem schedulesOfLoan_getElem?_le {table : List Schedule} {L p q : Nat} {x y : Nat × Schedule}
    (hpq : p ≤ q) (hx : (schedulesOfLoan table L)[p]? = some x)
    (hy : (schedulesOfLoan table L)[q]? = some y) : x.2.WeekNumber ≤ y.2.WeekNumber := by
  rcases Nat.eq_or_lt_of_le hpq with rfl | hlt
  · rw [hx] at hy
    cases hy
    exact Nat.le_refl _
  · have hs := orderByWeekNumber_sorted
      (table.enum.filter (fun r => decide (r.2.LoanID = L)))
    have hp := lt_length_of_getElem? hx
    have hq := lt_length_of_getElem? hy
    have h := List.pairwise_iff_getElem.1 hs p q hp hq hlt
    rw [List.getElem?_eq_getElem hp] at hx
    rw [List.getElem?_eq_getElem hq] at hy
    cases hx
    cases hy
    exact h

theorem AddDate_mono (t : Int) {d₁ d₂ : Int} (h : d₁ ≤ d₂) : AddDate t d₁ ≤ AddDate t d₂ := by
  have h0 : (0 : Int) ≤ nanosPerDay := by decide
  have := Int.mul_le_mul_of_nonneg_right h h0
  unfold AddDate
  omega

/-- Between two missed installments of a loan, in week order, every
installment is missed. -/
theorem LoanShape.missed_between {table : List Schedule} {L : Nat} {loan : Loan}
    (h : LoanShape table L loan) (cd : Int) {ia ic ib : Nat} {a c b : Schedule}
    (ha : table[ia]? = some a) (hc : table[ic]? = some c) (hb : table[ib]? = some b)
    (haL : a.LoanID = L) (hcL : c.LoanID = L) (hbL : b.LoanID = L)
    (hac : a.WeekNumber ≤ c.WeekNumber) (hcb : c.WeekNumber ≤ b.WeekNumber)
    (hma : missed cd a = true) (hmb : missed cd b = true) : missed cd c = true := by
  rw [missed_iff] at hma hmb ⊢
  constructor
  · cases hp : c.Paid
    · rfl
    · have h1 := (h.paidFirst ic c hc hcL).1 hp
      have h2 := (h.paidFirst ia a ha haL).2 (by omega)
      rw [hma.1] at h2
      cases h2
  · rw [(h.week ic c hc hcL).2.2]
    have hbd := hmb.2
    rw [(h.week ib b hb hbL).2.2] at hbd
    have hle : (c.WeekNumber : Int) * 7 ≤ (b.WeekNumber : Int) * 7 := by omega
    exact lt_of_le_of_lt (AddDate_mono loan.StartDate hle) hbd

theorem getElem?_map_snd_schedulesOfLoan {table : List Schedule} {L p : Nat} {s : Schedule}
    (h : ((schedulesOfLoan table L).map Prod.snd)[p]? = some s) :
    ∃ i, (schedulesOfLoan table L)[p]? = some (i, s) ∧ table[i]? = some s ∧ s.LoanID = L := by
  rw [List.getElem?_map] at h
  rcases hx : (schedulesOfLoan table L)[p]? with _ | ⟨i, s'⟩
  · rw [hx] at h; cases h
  · rw [hx] at h
    cases h
    have hm := mem_schedulesOfLoan.1 (List.getElem?_mem hx)
    exact ⟨i, rfl, hm.1, hm.2⟩

/-- C27: in every reachable state and for every reading of the clock, the
missed installments of a loan (unpaid, due before the reading) are contiguous
in the week order the evaluator walks, so the verdict of the streak loop is
true exactly when the loan has two different installments that are unpaid and
due before the reading. -/
theorem streak_verdict_iff_two_overdue (db : DB) (hr : Reachable db) (L : Nat) (loan : Loan)
    (hloan : db.loans[L]? = some loan) (cd : Int) :
    (∀ (p j q : Nat) (a c b : Schedule), p ≤ j → j ≤ q →
      ((schedulesOfLoan db.schedules L).map Prod.snd)[p]? = some a →
      ((schedulesOfLoan db.schedules L).map Prod.snd)[j]? = some c →
      ((schedulesOfLoan db.schedules L).map Prod.snd)[q]? = some b →
      missed cd a = true → missed cd b = true → missed cd c = true) ∧
    (isDelinquentVerdict ((schedulesOfLoan db.schedules L).map Prod.snd) cd = true ↔
      ∃ (i j : Nat) (a b : Schedule), i ≠ j ∧
        db.schedules[i]? = some a ∧ db.schedules[j]? = some b ∧
        a.LoanID = L ∧ b.LoanID = L ∧
        (a.Paid = false ∧ a.DueDate < cd) ∧ (b.Paid = false ∧ b.DueDate < cd)) := by
  have hs := hr.shaped L loan hloan
  have hbetween : ∀ (p j q : Nat) (a c b : Schedule), p ≤ j → j ≤ q →
      ((schedulesOfLoan db.schedules L).map Prod.snd)[p]? = some a →
      ((schedulesOfLoan db.schedules L).map Prod.snd)[j]? = some c →
      ((schedulesOfLoan db.schedules L).map Prod.snd)[q]? = some b →
      missed cd a = true → missed cd b = true → missed cd c = true := by
    intro p j q a c b hpj hjq ha hc hb hma hmb
    obtain ⟨ia, hxa, hta, haL⟩ := getElem?_map_snd_schedulesOfLoan ha
    obtain ⟨ic, hxc, htc, hcL⟩ := getElem?_map_snd_schedulesOfLoan hc
    obtain ⟨ib, hxb, htb, hbL⟩ := getElem?_map_snd_schedulesOfLoan hb
    exact hs.missed_between cd hta htc htb haL hcL hbL
      (schedulesOfLoan_getElem?_le hpj hxa hxc) (schedulesOfLoan_getElem?_le hjq hxc hxb) hma hmb
  refine ⟨hbetween, ?_⟩
  rw [isDelinquentVerdict_iff_window]
  constructor
  · rintro ⟨p, a, b, ha, hb, hma, hmb⟩
    obtain ⟨ia, hxa, hta, haL⟩ := getElem?_map_snd_schedulesOfLoan ha
    obtain ⟨ib, hxb, htb, hbL⟩ := getElem?_map_snd_schedulesOfLoan hb
    refine ⟨ia, ib, a, b, ?_, hta, htb, haL, hbL, hma, hmb⟩
    intro e
    subst e
    rw [hta] at htb
    cases htb
    have hnd := List.nodup_iff_getElem?_ne_getElem?.1
      (schedulesOfLoan_nodup db.schedules L) p (p + 1) (by omega) (lt_length_of_getElem? hxb)
    exact hnd (by rw [hxa, hxb])
  · rintro ⟨i, j, a, b, hij, hta, htb, haL, hbL, hma, hmb⟩
    obtain ⟨p, hp⟩ := List.getElem?_of_mem (mem_schedulesOfLoan.2 ⟨hta, haL⟩)
    obtain ⟨q, hq⟩ := List.getElem?_of_mem (mem_schedulesOfLoan.2 ⟨htb, hbL⟩)
    have hpq : p ≠ q := by
      intro e
      subst e
      rw [hp] at hq
      cases hq
      exact hij rfl
    have hmap : ∀ (k : Nat) (x : Nat × Schedule), (schedulesOfLoan db.schedules L)[k]? = some x →
        ((schedulesOfLoan db.schedules L).map Prod.snd)[k]? = some x.2 := by
      intro k x hk
      rw [List.getElem?_map, hk]
      rfl
    have hma' := (missed_iff cd a).2 hma
    have hmb' := (missed_iff cd b).2 hmb
    rcases Nat.lt_or_gt_of_ne hpq with hlt | hgt
    · have hlen : p + 1 < (schedulesOfLoan db.schedules L).length :=
        lt_of_le_of_lt hlt (lt_length_of_getElem? hq)
      have hnext := List.getElem?_eq_getElem hlen
      have hm := hbetween p (p + 1) q a _ b (by omega) hlt (hmap p _ hp) (hmap _ _ hnext)
        (hmap q _ hq) hma' hmb'
      exact ⟨p, a, _, hmap p _ hp, hmap _ _ hnext, hma, (missed_iff cd _).1 hm⟩
    · have hlen : q + 1 < (schedulesOfLoan db.schedules L).length :=
        lt_of_le_of_lt hgt (lt_length_of_getElem? hp)
      have hnext := List.getElem?_eq_getElem hlen
      have hm := hbetween q (q + 1) p b _ a (by omega) hgt (hmap q _ hq) (hmap _ _ hnext)
        (hmap p _ hp) hmb' hma'
      exact ⟨q, b, _, hmap q _ hq, hmap _ _ hnext, hmb, (missed_iff cd _).1 hm⟩

/-- Witness for C27: the loan of the example store, at the reading 0 of the
clock. -/
theorem streak_verdict_iff_two_overdue_witness :
    isDelinquentVerdict ((schedulesOfLoan exampleCreated.schedules 0).map Prod.snd) 0 = true ↔
      ∃ (i j : Nat) (a b : Schedule), i ≠ j ∧
        exampleCreated.schedules[i]? = some a ∧ exampleCreated.schedules[j]? = some b ∧
        a.LoanID = 0 ∧ b.LoanID = 0 ∧
        (a.Paid = false ∧ a.DueDate < 0) ∧ (b.Paid = false ∧ b.DueDate < 0) :=
  (streak_verdict_iff_two_overdue exampleCreated exampleCreated_reachable 0
    (newLoanRow 0 0 100 0 2) rfl 0).2

/-! ## Paying a loan off -/

/-- What holds of a loan of `n` weeks with installment `w` after `k`
payments. -/
theorem payStep {db : DB} {L n k : Nat} {w td : Int} {loan : Loan} (hr : Reachable db)
    (hl : db.loans[L]? = some loan) (hw : weeklyAmount loan = w) (hn : loan.TermWeeks = n)
    (htd : loan.CalculateTotalDue = td)
    (hk : paidCountOfLoan db.schedules L = k) (hrows : ∃ s ∈ db.schedules, s.LoanID = L) :
    countUnpaidOfLoan db.schedules L = n - k ∧ k ≤ n ∧
    (k < n → loan.Status = "active") ∧ (k = n → 1 ≤ n → loan.Status = "closed") ∧
    (k < n → ∀ pd cd, (MakePayment noFaults pd cd L w db).1 = none ∧
      ∃ loan', (MakePayment noFaults pd cd L w db).2.loans[L]? = some loan' ∧
        weeklyAmount loan' = w ∧ loan'.TermWeeks = n ∧ loan'.CalculateTotalDue = td ∧
        paidCountOfLoan (MakePayment noFaults pd cd L w db).2.schedules L = k + 1 ∧
        ∃ s ∈ (MakePayment noFaults pd cd L w db).2.schedules, s.LoanID = L) ∧
    (k = n → ∀ pd cd a, MakePayment noFaults pd cd L a db = (some .noUnpaidSchedules, db)) := by
  have hc := hr.consistent.loan L loan hl
  have hs := hr.shaped L loan hl
  have htot : paidCountOfLoan db.schedules L + countUnpaidOfLoan db.schedules L = n := by
    rcases hs.total with ht | ht
    · rw [ht, hn]
    · obtain ⟨s, hs1, hs2⟩ := hrows
      exact absurd hs2 (ht s hs1)
  have hne : ("active" : String) ≠ "closed" := by decide
  refine ⟨by omega, by omega, ?_, ?_, ?_, ?_⟩
  · intro hlt
    rcases hc.status with ⟨_, h0, _⟩ | ⟨h1, _⟩
    · omega
    · exact h1
  · intro he h1
    rcases hc.status with ⟨h0, _, _⟩ | ⟨_, h0 | h0⟩
    · exact h0
    · omega
    · omega
  · intro hlt pd cd
    have hpos : countUnpaidOfLoan db.schedules L ≠ 0 := by omega
    rcases hu : unpaidSchedulesOfLoan db.schedules L with _ | ⟨⟨i, sch⟩, rest⟩
    · exact absurd (unpaidSchedulesOfLoan_eq_nil.1 hu) hpos
    obtain ⟨hsi, hsL, hsP, -⟩ := unpaidSchedulesOfLoan_head hu
    have hamt : sch.Amount = w := by
      rw [← hw]; exact hc.amount sch (List.getElem?_mem hsi) hsL
    have hok : (MakePayment noFaults pd cd L w db).1 = none := by
      rw [MakePayment_fst, MakePaymentTx_noFaults_fst, hl]
      simp only [hu]
      rw [if_neg (by rw [hamt]; exact fun h => h rfl)]
    refine ⟨hok, ?_⟩
    rcases MakePayment_cases noFaults pd cd L w db with
      ⟨hne', _⟩ | ⟨_, loan0, i0, sch0, rest0, hl0, hu0, ha0, h1⟩
    · exact absurd hok hne'
    · rw [hl] at hl0
      cases hl0
      rw [hu] at hu0
      cases hu0
      rw [h1]
      refine ⟨_, getElem?_set_self_of _ hl, ?_, hn, ?_, ?_, ?_⟩
      · rw [← hw]
        exact (weeklyAmount_congr rfl rfl rfl).1
      · rw [← htd]
        exact (weeklyAmount_congr rfl rfl rfl).2
      · show paidCountOfLoan (List.set _ i _) L = _
        rw [paidCountOfLoan_set L hsi hsP, if_pos hsL, hk]
      · exact ⟨_, List.getElem?_mem (getElem?_set_self_of _ hsi), hsL⟩
  · intro he pd cd a
    have hnil : unpaidSchedulesOfLoan db.schedules L = [] :=
      unpaidSchedulesOfLoan_eq_nil.2 (by omega)
    have h1 : (MakePayment noFaults pd cd L a db).1 = some .noUnpaidSchedules := by
      rw [MakePayment_fst, MakePaymentTx_noFaults_fst, hl]
      simp only [hnil]
    have h2 : (MakePayment noFaults pd cd L a db).2 = db := by
      rcases MakePayment_cases noFaults pd cd L a db with ⟨_, h2⟩ | ⟨h2, _⟩
      · exact h2
      · rw [h1] at h2; cases h2
    exact Prod.ext h1 h2

/-- The state after `k ≤ n` payments of the installment on a fresh loan. -/
theorem payTimes_spec {db0 : DB} {L n : Nat} {w td : Int} {loan : Loan}
    (clock : Nat → Int × Int)
    (hr : Reachable db0) (hl : db0.loans[L]? = some loan) (hw : weeklyAmount loan = w)
    (hn : loan.TermWeeks = n) (htd : loan.CalculateTotalDue = td) (hk : paidCountOfLoan db0.schedules L = 0)
    (hrows : ∃ s ∈ db0.schedules, s.LoanID = L) :
    ∀ k, k ≤ n → Reachable (payTimes clock L w k db0) ∧
      ∃ loan', (payTimes clock L w k db0).loans[L]? = some loan' ∧
        weeklyAmount loan' = w ∧ loan'.TermWeeks = n ∧ loan'.CalculateTotalDue = td ∧
        paidCountOfLoan (payTimes clock L w k db0).schedules L = k ∧
        ∃ s ∈ (payTimes clock L w k db0).schedules, s.LoanID = L := by
  intro k
  induction k with
  | zero => intro _; exact ⟨hr, loan, hl, hw, hn, htd, hk, hrows⟩
  | succ k ih =>
    intro hle
    obtain ⟨hrk, loan', hl', hw', hn', htd', hk', hrows'⟩ := ih (by omega)
    have hstep := (payStep hrk hl' hw' hn' htd' hk' hrows').2.2.2.2.1 (by omega)
      (clock k).1 (clock k).2
    exact ⟨Reachable.makePayment hrk noFaults _ _ L w, hstep.2⟩

theorem payTimes_after {db0 : DB} {L n : Nat} {w : Int} (clock : Nat → Int × Int)
    (hfail : ∀ pd cd a, MakePayment noFaults pd cd L a (payTimes clock L w n db0) =
      (some .noUnpaidSchedules, payTimes clock L w n db0)) :
    ∀ k, n ≤ k → payTimes clock L w k db0 = payTimes clock L w n db0 := by
  intro k hk
  induction k with
  | zero =>
    have : n = 0 := by omega
    subst this
    rfl
  | succ k ih =>
    rcases Nat.eq_or_lt_of_le hk with he | hlt
    · rw [he]
    · have hprev := ih (by omega)
      show (MakePayment noFaults _ _ L w (payTimes clock L w k db0)).2 = _
      rw [hprev, hfail]

/-- The store after a successful `CreateLoan`: reachable, with the new loan
at the next key, all its installments unpaid. -/
theorem CreateLoan_fresh (now : Int) (b : Nat) (amount : Int) (rate : F64) (n : Nat) (db : DB)
    (hr : Reachable db) (br : Borrower) (hb : db.borrowers[b]? = some br) (h1 : 1 ≤ n)
    (h2 : n < 9223372036854775808) :
    Reachable (CreateLoan noFaults now b amount rate n db).2 ∧
    (CreateLoan noFaults now b amount rate n db).2.loans[db.loans.length]? =
      some (newLoanRow now b amount rate n) ∧
    paidCountOfLoan (CreateLoan noFaults now b amount rate n db).2.schedules db.loans.length =
      0 ∧
    ∃ s ∈ (CreateLoan noFaults now b amount rate n db).2.schedules, s.LoanID = db.loans.length := by
  have hr0 := Reachable.createLoan hr noFaults now b amount rate n h2
  have hfresh : ∀ s ∈ db.schedules, s.LoanID ≠ db.loans.length :=
    fun s hs => Nat.ne_of_lt (hr.consistent.schedule_loan s hs)
  refine ⟨hr0, ?_, ?_, ?_⟩
  · rw [CreateLoan_noFaults_ok now b amount rate n db br hb h1 h2]
    show (db.loans ++ [newLoanRow now b amount rate n])[db.loans.length]? = _
    rw [List.getElem?_append_right (Nat.le_refl _)]
    simp
  · rw [CreateLoan_noFaults_ok now b amount rate n db br hb h1 h2]
    show paidCountOfLoan (db.schedules ++ _) db.loans.length = 0
    rw [paidCountOfLoan_append, paidCountOfLoan_eq_zero hfresh, paidCountOfLoan_scheduleRows]
  · have hlen : 0 < (scheduleRows db.loans.length (newLoanRow now b amount rate n)
        (weeklyAmount (newLoanRow now b amount rate n))).length := by
      rw [length_scheduleRows]; exact h1
    obtain ⟨s, hs⟩ := List.exists_mem_of_length_pos hlen
    rw [CreateLoan_noFaults_ok now b amount rate n db br hb h1 h2]
    exact ⟨s, List.mem_append_right _ hs, (mem_scheduleRows hs).1⟩

/-- C29: for a borrower of a reachable store, a term `1 ≤ n < 2^63` and a
repository that does not fail, `CreateLoan` returns a loan, and calls of
`MakePayment` on it with the weekly installment as amount, one after the
other, succeed for the first `n` calls; the loan is active after fewer than
`n` of them and closed after the `n`-th; every call after that (with any
amount) returns "no unpaid schedules found" and leaves the store as it
was. -/
theorem pay_n_times_then_closed (now : Int) (b : Nat) (amount : Int) (rate : F64) (n : Nat)
    (db : DB) (hr : Reachable db) (br : Borrower) (hb : db.borrowers[b]? = some br)
    (h1 : 1 ≤ n) (h2 : n < 9223372036854775808) (clock : Nat → Int × Int) :
    ∃ (id : Nat) (loan : Loan) (w : Int) (db0 : DB),
      CreateLoan noFaults now b amount rate n db = (.ok (id, loan), db0) ∧
      loan.CalculateWeeklyPayment = some w ∧
      (∀ k, k < n →
        (MakePayment noFaults (clock k).1 (clock k).2 id w (payTimes clock id w k db0)).1 =
          none) ∧
      (∀ k, k < n → ∃ loan', (payTimes clock id w k db0).loans[id]? = some loan' ∧
        loan'.Status = "active") ∧
      (∃ loan', (payTimes clock id w n db0).loans[id]? = some loan' ∧
        loan'.Status = "closed") ∧
      (∀ k, n ≤ k → ∀ (pd cd a : Int),
        MakePayment noFaults pd cd id a (payTimes clock id w k db0) =
          (some .noUnpaidSchedules, payTimes clock id w k db0)) := by
  have hcreate := CreateLoan_noFaults_ok now b amount rate n db br hb h1 h2
  have hspec := weeklyAmount_spec (newLoanRow now b amount rate n) h1 h2
  obtain ⟨db0, hdb0⟩ : ∃ db0 : DB, db0 =
      { db with
        loans := db.loans ++ [newLoanRow now b amount rate n]
        schedules := db.schedules ++
          scheduleRows db.loans.length (newLoanRow now b amount rate n)
            (weeklyAmount (newLoanRow now b amount rate n)) } := ⟨_, rfl⟩
  rw [← hdb0] at hcreate
  have hr0 : Reachable db0 := by
    have h := Reachable.createLoan hr noFaults now b amount rate n h2
    rw [hcreate] at h
    exact h
  have hfresh : ∀ s ∈ db.schedules, s.LoanID ≠ db.loans.length :=
    fun s hs => Nat.ne_of_lt (hr.consistent.schedule_loan s hs)
  have hl0 : db0.loans[db.loans.length]? = some (newLoanRow now b amount rate n) := by
    rw [hdb0]
    show (db.loans ++ [newLoanRow now b amount rate n])[db.loans.length]? = _
    rw [List.getElem?_append_right (Nat.le_refl _)]
    simp
  have hk0 : paidCountOfLoan db0.schedules db.loans.length = 0 := by
    rw [hdb0]
    show paidCountOfLoan (db.schedules ++ _) db.loans.length = 0
    rw [paidCountOfLoan_append, paidCountOfLoan_eq_zero hfresh, paidCountOfLoan_scheduleRows]
  have hrows0 : ∃ s ∈ db0.schedules, s.LoanID = db.loans.length := by
    have hlen : 0 < (scheduleRows db.loans.length (newLoanRow now b amount rate n)
        (weeklyAmount (newLoanRow now b amount rate n))).length := by
      rw [length_scheduleRows]; exact h1
    obtain ⟨s, hs⟩ := List.exists_mem_of_length_pos hlen
    rw [hdb0]
    exact ⟨s, List.mem_append_right _ hs, (mem_scheduleRows hs).1⟩
  have hall : ∀ k, k ≤ n → Reachable (payTimes clock db.loans.length
        (weeklyAmount (newLoanRow now b amount rate n)) k db0) ∧
      ∃ loan', (payTimes clock db.loans.length
          (weeklyAmount (newLoanRow now b amount rate n)) k db0).loans[db.loans.length]? =
          some loan' ∧
        weeklyAmount loan' = weeklyAmount (newLoanRow now b amount rate n) ∧
        loan'.TermWeeks = n ∧
        loan'.CalculateTotalDue = (newLoanRow now b amount rate n).CalculateTotalDue ∧
        paidCountOfLoan (payTimes clock db.loans.length
          (weeklyAmount (newLoanRow now b amount rate n)) k db0).schedules db.loans.length = k ∧
        ∃ s ∈ (payTimes clock db.loans.length
          (weeklyAmount (newLoanRow now b amount rate n)) k db0).schedules,
          s.LoanID = db.loans.length :=
    payTimes_spec clock hr0 hl0 rfl rfl rfl hk0 hrows0
  have hfail : ∀ (pd cd a : Int), MakePayment noFaults pd cd db.loans.length a
      (payTimes clock db.loans.length (weeklyAmount (newLoanRow now b amount rate n)) n db0) =
      (some .noUnpaidSchedules,
        payTimes clock db.loans.length (weeklyAmount (newLoanRow now b amount rate n)) n db0) := by
    obtain ⟨hrn, loan', hl', hw', hn', htd', hk', hrows'⟩ := hall n (Nat.le_refl _)
    exact (payStep hrn hl' hw' hn' htd' hk' hrows').2.2.2.2.2 rfl
  refine ⟨db.loans.length, newLoanRow now b amount rate n,
    weeklyAmount (newLoanRow now b amount rate n), db0, hcreate, hspec.1, ?_, ?_, ?_, ?_⟩
  · intro k hk
    obtain ⟨hrk, loan', hl', hw', hn', htd', hk', hrows'⟩ := hall k (by omega)
    exact ((payStep hrk hl' hw' hn' htd' hk' hrows').2.2.2.2.1 hk _ _).1
  · intro k hk
    obtain ⟨hrk, loan', hl', hw', hn', htd', hk', hrows'⟩ := hall k (by omega)
    exact ⟨loan', hl', (payStep hrk hl' hw' hn' htd' hk' hrows').2.2.1 hk⟩
  · obtain ⟨hrn, loan', hl', hw', hn', htd', hk', hrows'⟩ := hall n (Nat.le_refl _)
    exact ⟨loan', hl', (payStep hrn hl' hw' hn' htd' hk' hrows').2.2.2.1 rfl h1⟩
  · intro k hk pd cd a
    rw [payTimes_after clock hfail k hk]
    exact hfail pd cd a

/-- Witness for C29: a loan of 7800 at 10% over 10 weeks for the first
borrower of a store, paid with its installment of 794, with both clock
readings of call `j` equal to `j`. -/
theorem pay_n_times_then_closed_witness :
    ∃ (id : Nat) (loan : Loan) (w : Int) (db0 : DB),
      CreateLoan noFaults 0 0 7800 10 10 (Borrowers.Create noFaults DB.empty "a" "b").2 =
        (.ok (id, loan), db0) ∧
      w = 794 ∧
      (∃ loan', (payTimes (fun j => ((j : Int), (j : Int))) id w 10 db0).loans[id]? =
          some loan' ∧ loan'.Status = "closed") ∧
      MakePayment noFaults 50 50 id w (payTimes (fun j => ((j : Int), (j : Int))) id w 10 db0) =
        (some .noUnpaidSchedules, payTimes (fun j => ((j : Int), (j : Int))) id w 10 db0) := by
  obtain ⟨id, loan, w, db0, h, hw, _, _, hclosed, hafter⟩ :=
    pay_n_times_then_closed 0 0 7800 10 10 (Borrowers.Create noFaults DB.empty "a" "b").2
      (Reachable.createBorrower Reachable.empty noFaults "a" "b") ⟨"a", "b", false⟩ rfl
      (by decide) (by decide) (fun j => ((j : Int), (j : Int)))
  have hloan : loan = newLoanRow 0 0 7800 10 10 := by
    rw [CreateLoan_noFaults_ok 0 0 7800 10 10 (Borrowers.Create noFaults DB.empty "a" "b").2
      ⟨"a", "b", false⟩ rfl (by decide) (by decide)] at h
    injection h with h1 _
    injection h1 with h1
    injection h1 with _ h1
    exact h1.symm
  rw [hloan, calculateWeeklyPayment_7800] at hw
  exact ⟨id, loan, w, db0, h, (Option.some.inj hw).symm, hclosed,
    hafter 10 (Nat.le_refl _) 50 50 w⟩

/-! ## The balance of a loan that was paid off -/


/-- C25: in every reachable state, a loan of at least one week whose
installments exist and are all paid has all `termWeeks` of them paid, is
closed, and `GetOutstanding` returns
`totalDue - termWeeks * weeklyInstallment`, the remainder of the (truncated)
division of `totalDue` by `termWeeks` (`totalDue mod termWeeks` for a total
that is not negative); the remainder is not zero when `termWeeks` does not
divide `totalDue`, and it is 19 for a total of 5,480,769 over 50 weeks. -/
theorem closed_loan_keeps_residual (db : DB) (hr : Reachable db) (L : Nat) (loan : Loan)
    (hloan : db.loans[L]? = some loan) (h1 : 1 ≤ loan.TermWeeks)
    (hrows : ∃ s ∈ db.schedules, s.LoanID = L)
    (hpaid : ∀ s ∈ db.schedules, s.LoanID = L → s.Paid = true) :
    paidCountOfLoan db.schedules L = loan.TermWeeks ∧
    loan.Status = "closed" ∧
    loan.CalculateWeeklyPayment = some (weeklyAmount loan) ∧
    GetOutstanding noFaults L db =
      .ok (loan.CalculateTotalDue - (loan.TermWeeks : Int) * weeklyAmount loan) ∧
    loan.CalculateTotalDue - (loan.TermWeeks : Int) * weeklyAmount loan =
      Int.tmod loan.CalculateTotalDue (loan.TermWeeks : Int) ∧
    (0 ≤ loan.CalculateTotalDue →
      loan.CalculateTotalDue - (loan.TermWeeks : Int) * weeklyAmount loan =
        loan.CalculateTotalDue % (loan.TermWeeks : Int)) ∧
    (¬ (loan.TermWeeks : Int) ∣ loan.CalculateTotalDue →
      loan.CalculateTotalDue - (loan.TermWeeks : Int) * weeklyAmount loan ≠ 0) ∧
    (loan.CalculateTotalDue = 5480769 → loan.TermWeeks = 50 →
      GetOutstanding noFaults L db = .ok 19) := by
  have hc := hr.consistent.loan L loan hloan
  have hs := hr.shaped L loan hloan
  have hu : countUnpaidOfLoan db.schedules L = 0 := countUnpaidOfLoan_eq_zero.2 hpaid
  have hk : paidCountOfLoan db.schedules L = loan.TermWeeks := by
    rcases hs.total with ht | ht
    · omega
    · obtain ⟨s, hs1, hs2⟩ := hrows
      exact absurd hs2 (ht s hs1)
  obtain ⟨hw, hdiv, _⟩ := weeklyAmount_spec loan h1 hc.term
  have hout : GetOutstanding noFaults L db =
      .ok (loan.CalculateTotalDue - (loan.TermWeeks : Int) * weeklyAmount loan) := by
    unfold GetOutstanding Loans.GetByID
    simp only [noFaults, hloan]
    rw [hc.balance, hk]
  have hdm := Int.tdiv_add_tmod loan.CalculateTotalDue (loan.TermWeeks : Int)
  have hres : loan.CalculateTotalDue - (loan.TermWeeks : Int) * weeklyAmount loan =
      Int.tmod loan.CalculateTotalDue (loan.TermWeeks : Int) := by
    rw [hdiv]; omega
  refine ⟨hk, ?_, hw, hout, hres, ?_, ?_, ?_⟩
  · rcases hc.status with ⟨h0, _, _⟩ | ⟨_, h0 | h0⟩
    · exact h0
    · omega
    · omega
  · intro htd
    rw [hres, Int.tmod_eq_emod htd (Int.ofNat_nonneg _)]
  · intro hnd h0
    apply hnd
    exact ⟨weeklyAmount loan, by omega⟩
  · intro htd hn
    rw [hout, hdiv, htd, hn]
    rfl

/-- Witness for C25: the loan of `TestCreateLoan` (5,000,000 at 10% over 50
weeks) after 50 payments of its installment of 109,615 is closed and reports
an outstanding balance of 19; the loan of 7800 at 10% over 10 weeks (total due
7949) after 10 payments of 794 is closed and reports 9. -/
theorem closed_loan_keeps_residual_witness :
    (∃ loan,
      (payTimes (fun j => ((j : Int), (j : Int))) 0 109615 50
        (CreateLoan noFaults 0 0 5000000 10 50
          (Borrowers.Create noFaults DB.empty "a" "b").2).2).loans[0]? = some loan ∧
      loan.Status = "closed" ∧
      GetOutstanding noFaults 0
        (payTimes (fun j => ((j : Int), (j : Int))) 0 109615 50
          (CreateLoan noFaults 0 0 5000000 10 50
            (Borrowers.Create noFaults DB.empty "a" "b").2).2) = .ok 19) ∧
    (∃ loan,
      (payTimes (fun j => ((j : Int), (j : Int))) 0 794 10
        (CreateLoan noFaults 0 0 7800 10 10
          (Borrowers.Create noFaults DB.empty "a" "b").2).2).loans[0]? = some loan ∧
      loan.Status = "closed" ∧
      GetOutstanding noFaults 0
        (payTimes (fun j => ((j : Int), (j : Int))) 0 794 10
          (CreateLoan noFaults 0 0 7800 10 10
            (Borrowers.Create noFaults DB.empty "a" "b").2).2) = .ok 9) := by
  constructor
  · obtain ⟨hr0, hl0, hk0, hrows0⟩ := CreateLoan_fresh 0 0 5000000 10 50
      (Borrowers.Create noFaults DB.empty "a" "b").2
      (Reachable.createBorrower Reachable.empty noFaults "a" "b") ⟨"a", "b", false⟩ rfl
      (by decide) (by decide)
    have hw0 : weeklyAmount (newLoanRow 0 0 5000000 10 50) = 109615 := by
      unfold weeklyAmount
      rw [calculateWeeklyPayment_5000000]
      rfl
    obtain ⟨hr, loan, hl, hw, hn, htd, hk, hrows⟩ :=
      @payTimes_spec _ 0 50 109615 _ _ (fun j => ((j : Int), (j : Int))) hr0 hl0 hw0 rfl rfl
        hk0 hrows0 50 (Nat.le_refl _)
    have hu := (@payStep _ 0 50 50 _ _ _ hr hl hw hn htd hk hrows).1
    have h := closed_loan_keeps_residual _ hr 0 loan hl (by rw [hn]; decide) hrows
      (countUnpaidOfLoan_eq_zero.1 (by rw [hu]))
    exact ⟨loan, hl, h.2.1, h.2.2.2.2.2.2.2 (by rw [htd, calculateTotalDue_5000000]) hn⟩
  · obtain ⟨hr0, hl0, hk0, hrows0⟩ := CreateLoan_fresh 0 0 7800 10 10
      (Borrowers.Create noFaults DB.empty "a" "b").2
      (Reachable.createBorrower Reachable.empty noFaults "a" "b") ⟨"a", "b", false⟩ rfl
      (by decide) (by decide)
    have hw0 : weeklyAmount (newLoanRow 0 0 7800 10 10) = 794 := by
      unfold weeklyAmount
      rw [calculateWeeklyPayment_7800]
      rfl
    have htd0 : (newLoanRow 0 0 7800 10 10).CalculateTotalDue = 7949 := calculateTotalDue_7800
    obtain ⟨hr, loan, hl, hw, hn, htd, hk, hrows⟩ :=
      @payTimes_spec _ 0 10 794 _ _ (fun j => ((j : Int), (j : Int))) hr0 hl0 hw0 rfl htd0
        hk0 hrows0 10 (Nat.le_refl _)
    have hu := (@payStep _ 0 10 10 _ _ _ hr hl hw hn htd hk hrows).1
    have h := closed_loan_keeps_residual _ hr 0 loan hl (by rw [hn]; decide) hrows
      (countUnpaidOfLoan_eq_zero.1 (by rw [hu]))
    refine ⟨loan, hl, h.2.1, ?_⟩
    rw [h.2.2.2.1, htd, hn, hw]
    rfl

/-! ## The worked stores are reachable -/

set_option maxRecDepth 100000 in
theorem newLoanRow_300 : newLoanRow 0 0 300 0 3 = ⟨0, 300, 0, 3, 0, "active", 300, none⟩ := by
  decide

set_option maxRecDepth 100000 in
theorem weeklyAmount_300 :
    weeklyAmount (⟨0, 300, 0, 3, 0, "active", 300, none⟩ : Loan) = 100 := by
  decide

set_option maxRecDepth 100000 in
theorem newLoanRow_200 :
    newLoanRow (20 * nanosPerDay) 0 200 0 2 =
      ⟨0, 200, 0, 2, 20 * nanosPerDay, "active", 200, none⟩ := by
  decide

set_option maxRecDepth 100000 in
theorem weeklyAmount_200 :
    weeklyAmount (⟨0, 200, 0, 2, 20 * nanosPerDay, "active", 200, none⟩ : Loan) = 100 := by
  decide

theorem lateCreated_eq :
    (CreateLoan noFaults 0 0 300 0 3 (Borrowers.Create noFaults DB.empty "a" "b").2).2 =
      lateCreated := by
  rw [CreateLoan_noFaults_ok 0 0 300 0 3 (Borrowers.Create noFaults DB.empty "a" "b").2
      ⟨"a", "b", false⟩ rfl (by decide) (by decide), newLoanRow_300, weeklyAmount_300]
  rfl

theorem lateCreated_reachable : Reachable lateCreated := by
  have h := Reachable.createLoan (Reachable.createBorrower Reachable.empty noFaults "a" "b")
    noFaults 0 0 300 0 3 (by decide)
  rw [lateCreated_eq] at h
  exact h

theorem lateStore_eq :
    MakePayment noFaults (20 * nanosPerDay) (20 * nanosPerDay) 0 100 lateCreated =
      (none, lateStore) := by
  rfl

theorem lateStore_reachable : Reachable lateStore := by
  have h := Reachable.makePayment lateCreated_reachable noFaults (20 * nanosPerDay)
    (20 * nanosPerDay) 0 100
  rw [lateStore_eq] at h
  exact h

theorem twoLoansCreated_eq :
    (CreateLoan noFaults (20 * nanosPerDay) 0 200 0 2 lateCreated).2 = twoLoansCreated := by
  rw [CreateLoan_noFaults_ok (20 * nanosPerDay) 0 200 0 2 lateCreated ⟨"a", "b", false⟩ rfl
      (by decide) (by decide), newLoanRow_200, weeklyAmount_200]
  rfl

theorem twoLoansFlagged_eq :
    IsDelinquent noFaults (22 * nanosPerDay) 0 twoLoansCreated = ((true, none), twoLoansFlagged) := by
  rfl

theorem twoLoansFlagged_reachable : Reachable twoLoansFlagged := by
  have h1 := Reachable.createLoan lateCreated_reachable noFaults (20 * nanosPerDay) 0 200 0 2
    (by decide)
  rw [twoLoansCreated_eq] at h1
  have h2 := Reachable.isDelinquent h1 noFaults (22 * nanosPerDay) 0
  rw [twoLoansFlagged_eq] at h2
  exact h2

theorem checkDelinquency_of_fetch {σ : Type} (fetch : σ → Except Err (List (Nat × Loan)))
    (check : σ → Nat → (Bool × Option Err) × σ) (svc : σ) (loans : List (Nat × Loan))
    (hfetch : fetch svc = .ok loans) :
    checkDelinquency fetch check svc =
      .done loans.length (sweepFlat check loans
        { svc := svc, delinquentCount := 0, evaluated := [], outcomes := [] }) := by
  unfold checkDelinquency
  rw [hfetch]
  simp only []
  rw [processBatches_eq check loans loans.length 0 _ (by omega)]
  simp only [List.drop_zero]

/-! ## The candidate filter and the delinquent loans -/

/-- C24: the sweep does not check every active loan.  In a reachable store
(a loan of three weekly installments created at time 0, the first installment
paid on day 20) the active loan is judged delinquent by the evaluator on day
22 (the installments of days 14 and 21 are unpaid and past due), while the
candidate list of day 22 is empty, the last payment being 2 days old; the
sweep of that day evaluates no loan. -/
theorem prefilter_skips_delinquent_loan :
    Reachable lateStore ∧
    lateStore.loans[0]? = some ⟨0, 300, 0, 3, 0, "active", 200, some (20 * nanosPerDay)⟩ ∧
    isDelinquentVerdict ((schedulesOfLoan lateStore.schedules 0).map Prod.snd)
      (22 * nanosPerDay) = true ∧
    (IsDelinquent noFaults (22 * nanosPerDay) 0 lateStore).1 = (true, none) ∧
    GetPotentialDelinquentLoans noFaults (22 * nanosPerDay) lateStore = .ok [] ∧
    checkDelinquency (fun svc => GetPotentialDelinquentLoans noFaults (22 * nanosPerDay) svc.1)
        (serviceCheck (fun _ => noFaults) (fun _ => 22 * nanosPerDay)) (lateStore, 0) =
      .done 0 { svc := (lateStore, 0), delinquentCount := 0, evaluated := [], outcomes := [] } :=
  ⟨lateStore_reachable, rfl, rfl, rfl, rfl,
    checkDelinquency_of_fetch
      (fun svc => GetPotentialDelinquentLoans noFaults (22 * nanosPerDay) svc.1)
      (serviceCheck (fun _ => noFaults) (fun _ => 22 * nanosPerDay)) (lateStore, 0) [] rfl⟩

/-! ## The flag follows the loan that was paid -/

/-- C26: there is a reachable store in which a borrower, flagged delinquent,
has two loans, the first with two consecutive unpaid installments past due
on day 22 (its verdict is true), and a successful payment on the second loan
on day 22 (the verdict of the second loan is false) sets the borrower's flag
to false, the first loan being as delinquent as before. -/
theorem payment_clears_flag_of_borrower_with_delinquent_loan :
    Reachable twoLoansFlagged ∧
    twoLoansFlagged.borrowers[0]? = some ⟨"a", "b", true⟩ ∧
    twoLoansFlagged.loans[0]? = some ⟨0, 300, 0, 3, 0, "active", 300, none⟩ ∧
    twoLoansFlagged.loans[1]? = some ⟨0, 200, 0, 2, 20 * nanosPerDay, "active", 200, none⟩ ∧
    twoLoansFlagged.schedules[0]? = some ⟨0, 1, 7 * nanosPerDay, 100, false⟩ ∧
    twoLoansFlagged.schedules[1]? = some ⟨0, 2, 14 * nanosPerDay, 100, false⟩ ∧
    7 * nanosPerDay < 22 * nanosPerDay ∧ 14 * nanosPerDay < 22 * nanosPerDay ∧
    isDelinquentVerdict ((schedulesOfLoan twoLoansFlagged.schedules 0).map Prod.snd)
      (22 * nanosPerDay) = true ∧
    (MakePayment noFaults (22 * nanosPerDay) (22 * nanosPerDay) 1 100 twoLoansFlagged).1 = none ∧
    isDelinquentVerdict
      ((schedulesOfLoan
        (MakePayment noFaults (22 * nanosPerDay) (22 * nanosPerDay) 1 100
          twoLoansFlagged).2.schedules 1).map Prod.snd) (22 * nanosPerDay) = false ∧
    (MakePayment noFaults (22 * nanosPerDay) (22 * nanosPerDay) 1 100
      twoLoansFlagged).2.borrowers[0]? = some ⟨"a", "b", false⟩ ∧
    isDelinquentVerdict
      ((schedulesOfLoan
        (MakePayment noFaults (22 * nanosPerDay) (22 * nanosPerDay) 1 100
          twoLoansFlagged).2.schedules 0).map Prod.snd) (22 * nanosPerDay) = true :=
  ⟨twoLoansFlagged_reachable, rfl, rfl, rfl, rfl, rfl, by decide, by decide, rfl, rfl, rfl, rfl,
    rfl⟩

/-! ## The total due is computed in `float64` -/

/-- C12, counterexample: for principal 7800, rate 10.0 and a term of 10
weeks the exact value of the formula is 7950, and the code returns 7949 (the
`float64` product is just below 7950); for 13, 10.0 and 80 weeks the exact
value is 15 and the code returns 14. -/
theorem totalDue_below_exact_floor :
    totalDueExact 7800 10 10 = 7950 ∧ calculateTotalDue 7800 10 10 = 7949 ∧
    (newLoanRow 0 0 7800 10 10).CalculateTotalDue = 7949 ∧
    totalDueExact 13 10 80 = 15 ∧ calculateTotalDue 13 10 80 = 14 := by
  refine ⟨?_, calculateTotalDue_7800, calculateTotalDue_7800, ?_, calculateTotalDue_13⟩
  · unfold totalDueExact
    norm_num
  · unfold totalDueExact
    norm_num

/-- C12, amended: for all inputs `calculateTotalDue` and
`Loan.CalculateTotalDue` return the same number, the `int64` conversion of
`principal * (1 + rate / 100 * termWeeks / 52)` evaluated in `float64`, which
is always within the `int64` range; for principal 5,000,000, rate 10.0 and
term 50 it is 5,480,769, the floor of the exact value, and the weekly
installment is 109,615. -/
theorem totalDue_is_float64_formula :
    (∀ (principal : Int) (rate : F64) (termWeeks : Nat),
      calculateTotalDue principal rate termWeeks = totalDueFloat64 principal rate termWeeks ∧
      inInt64 (calculateTotalDue principal rate termWeeks)) ∧
    (∀ loan : Loan,
      loan.CalculateTotalDue = totalDueFloat64 loan.Amount loan.InterestRate loan.TermWeeks) ∧
    calculateTotalDue 5000000 10 50 = 5480769 ∧
    totalDueExact 5000000 10 50 = 5480769 ∧
    (newLoanRow 0 0 5000000 10 50).CalculateTotalDue = 5480769 ∧
    (newLoanRow 0 0 5000000 10 50).CalculateWeeklyPayment = some 109615 := by
  refine ⟨fun _ _ _ => ⟨rfl, inInt64_toInt64 _⟩, fun _ => rfl, calculateTotalDue_5000000, ?_,
    calculateTotalDue_5000000, calculateWeeklyPayment_5000000⟩
  unfold totalDueExact
  norm_num

/-! ## Rounding loss and the bounds of the balance -/

theorem sum_amounts_scheduleRows (loanID : Nat) (loan : Loan) (w : Int) :
    ((scheduleRows loanID loan w).map (fun s => s.Amount)).sum = (loan.TermWeeks : Int) * w := by
  have h : (scheduleRows loanID loan w).map (fun s => s.Amount) =
      List.replicate loan.TermWeeks w := by
    rw [List.eq_replicate_iff]
    refine ⟨by rw [List.length_map, length_scheduleRows], ?_⟩
    intro b hb
    rw [List.mem_map] at hb
    obtain ⟨s, hs, rfl⟩ := hb
    exact (mem_scheduleRows hs).2.1
  rw [h, List.sum_replicate, nsmul_eq_mul]

/-- C13, counterexample: for principal 9,000,000,000,000,000,000, rate 100
and a term of 52 weeks the `float64` total is above `2^63`, the conversion
gives the most negative `int64`, the installment is negative and the
truncation loss is -8; for principal 100, rate 0 and a term of `2^64 - 1`
weeks the divisor `int64(termWeeks)` is -1, the installment is -100 and the
loss is above the term. -/
theorem truncation_loss_negative_on_overflow :
    0 < (newLoanRow 0 0 9000000000000000000 100 52).Amount ∧
    1 ≤ (newLoanRow 0 0 9000000000000000000 100 52).TermWeeks ∧
    (newLoanRow 0 0 9000000000000000000 100 52).CalculateTotalDue = -9223372036854775808 ∧
    (newLoanRow 0 0 9000000000000000000 100 52).CalculateWeeklyPayment =
      some (-177372539170284150) ∧
    (newLoanRow 0 0 9000000000000000000 100 52).CalculateTotalDue -
      ((newLoanRow 0 0 9000000000000000000 100 52).TermWeeks : Int) * (-177372539170284150) =
        -8 ∧
    (newLoanRow 0 0 100 0 18446744073709551615).CalculateTotalDue = 100 ∧
    (newLoanRow 0 0 100 0 18446744073709551615).CalculateWeeklyPayment = some (-100) ∧
    ((newLoanRow 0 0 100 0 18446744073709551615).TermWeeks : Int) <
      (newLoanRow 0 0 100 0 18446744073709551615).CalculateTotalDue -
        ((newLoanRow 0 0 100 0 18446744073709551615).TermWeeks : Int) * (-100) := by
  have h : (newLoanRow 0 0 9000000000000000000 100 52).CalculateTotalDue =
      -9223372036854775808 := calculateTotalDue_overflow
  refine ⟨by decide, by decide, h, calculateWeeklyPayment_overflow, ?_,
    calculateWeeklyPayment_maxTerm.1, calculateWeeklyPayment_maxTerm.2, ?_⟩
  · rw [h]; decide
  · rw [calculateWeeklyPayment_maxTerm.1]; decide

/-- C13, amended: for a loan with a term between 1 and `2^63 - 1` whose
total due is not negative, the weekly installment is the floor of
`totalDue / termWeeks`, the amounts of the generated installments sum to
`termWeeks * weeklyInstallment`, and the truncation loss
`totalDue - termWeeks * weeklyInstallment` is at least 0 and less than
`termWeeks`. -/
theorem schedule_sum_and_truncation_loss (loanID : Nat) (loan : Loan)
    (h1 : 1 ≤ loan.TermWeeks) (h2 : loan.TermWeeks < 9223372036854775808)
    (htd : 0 ≤ loan.CalculateTotalDue) :
    ∃ w, loan.CalculateWeeklyPayment = some w ∧
      w = loan.CalculateTotalDue / (loan.TermWeeks : Int) ∧
      ((scheduleRows loanID loan w).map (fun s => s.Amount)).sum = (loan.TermWeeks : Int) * w ∧
      0 ≤ loan.CalculateTotalDue - (loan.TermWeeks : Int) * w ∧
      loan.CalculateTotalDue - (loan.TermWeeks : Int) * w < (loan.TermWeeks : Int) := by
  obtain ⟨hw, hdiv, _⟩ := weeklyAmount_spec loan h1 h2
  have hn : (0 : Int) ≤ (loan.TermWeeks : Int) := Int.ofNat_nonneg _
  have hediv : weeklyAmount loan = loan.CalculateTotalDue / (loan.TermWeeks : Int) := by
    rw [hdiv, Int.tdiv_eq_ediv htd hn]
  have hpos : (0 : Int) < (loan.TermWeeks : Int) := by omega
  have hmod := Int.emod_add_ediv loan.CalculateTotalDue (loan.TermWeeks : Int)
  have hm0 := Int.emod_nonneg loan.CalculateTotalDue (ne_of_gt hpos)
  have hm1 := Int.emod_lt_of_pos loan.CalculateTotalDue hpos
  refine ⟨weeklyAmount loan, hw, hediv, sum_amounts_scheduleRows loanID loan _, ?_, ?_⟩
  · rw [hediv]; omega
  · rw [hediv]; omega

/-- Witness for the amended C13: the loan of 7800 at 10% over 10 weeks has a
total due of 7949 and installments of 794; the loss is 9. -/
theorem schedule_sum_and_truncation_loss_witness :
    (newLoanRow 0 0 7800 10 10).CalculateTotalDue = 7949 ∧
    (newLoanRow 0 0 7800 10 10).CalculateWeeklyPayment = some 794 ∧
    ∃ w, (newLoanRow 0 0 7800 10 10).CalculateWeeklyPayment = some w ∧
      w = (newLoanRow 0 0 7800 10 10).CalculateTotalDue /
        ((newLoanRow 0 0 7800 10 10).TermWeeks : Int) ∧
      ((scheduleRows 0 (newLoanRow 0 0 7800 10 10) w).map (fun s => s.Amount)).sum =
        ((newLoanRow 0 0 7800 10 10).TermWeeks : Int) * w ∧
      0 ≤ (newLoanRow 0 0 7800 10 10).CalculateTotalDue -
        ((newLoanRow 0 0 7800 10 10).TermWeeks : Int) * w ∧
      (newLoanRow 0 0 7800 10 10).CalculateTotalDue -
        ((newLoanRow 0 0 7800 10 10).TermWeeks : Int) * w <
          ((newLoanRow 0 0 7800 10 10).TermWeeks : Int) :=
  ⟨calculateTotalDue_7800, calculateWeeklyPayment_7800,
    schedule_sum_and_truncation_loss 0 (newLoanRow 0 0 7800 10 10) (by decide) (by decide)
      (by
        have h : (newLoanRow 0 0 7800 10 10).CalculateTotalDue = 7949 := calculateTotalDue_7800
        rw [h]
        decide)⟩

/-- C30, counterexample: the store reached by creating a borrower and a loan
of 9,000,000,000,000,000,000 at 100% over 52 weeks (positive principal, rate
not negative, term of at least one week): the `float64` total is above
`2^63`, so the balance of the loan is the most negative `int64`. -/
theorem balance_negative_on_overflow :
    Reachable overflowCreated ∧
    overflowCreated.loans[0]? = some (newLoanRow 0 0 9000000000000000000 100 52) ∧
    0 < (newLoanRow 0 0 9000000000000000000 100 52).Amount ∧
    (newLoanRow 0 0 9000000000000000000 100 52).InterestRate = 100 ∧
    1 ≤ (newLoanRow 0 0 9000000000000000000 100 52).TermWeeks ∧
    (newLoanRow 0 0 9000000000000000000 100 52).CurrentBalance = -9223372036854775808 ∧
    (newLoanRow 0 0 9000000000000000000 100 52).CurrentBalance < 0 := by
  have h : (newLoanRow 0 0 9000000000000000000 100 52).CurrentBalance =
      -9223372036854775808 := by
    simp only [newLoanRow]
    exact calculateTotalDue_overflow
  refine ⟨Reachable.createLoan (Reachable.createBorrower Reachable.empty noFaults "a" "b")
    noFaults 0 0 9000000000000000000 100 52 (by decide), rfl, by decide, rfl, by decide, h, ?_⟩
  rw [h]
  decide

/-- C30, amended: in every reachable state, a loan with a term of at least
one week whose total due is not negative has had `k ≤ termWeeks` successful
payments (`k` is the number of its payment records), its balance is
`totalDue - k * weeklyInstallment`, and the balance is neither negative nor
above the total due. -/
theorem reachable_balance_bounds (db : DB) (hr : Reachable db) (L : Nat) (loan : Loan)
    (hloan : db.loans[L]? = some loan) (h1 : 1 ≤ loan.TermWeeks)
    (htd : 0 ≤ calculateTotalDue loan.Amount loan.InterestRate loan.TermWeeks) :
    paymentCountOfLoan db.payments L ≤ loan.TermWeeks ∧
    loan.CalculateWeeklyPayment = some (weeklyAmount loan) ∧
    loan.CurrentBalance =
      calculateTotalDue loan.Amount loan.InterestRate loan.TermWeeks -
        (paymentCountOfLoan db.payments L : Int) * weeklyAmount loan ∧
    0 ≤ loan.CurrentBalance ∧
    loan.CurrentBalance ≤ calculateTotalDue loan.Amount loan.InterestRate loan.TermWeeks := by
  have hc := hr.consistent.loan L loan hloan
  have hk := hr.paymentCount L
  rw [calculateTotalDue_eq] at htd ⊢
  obtain ⟨hw, _, hb⟩ := weeklyAmount_spec loan h1 hc.term
  have hle : paidCountOfLoan db.schedules L ≤ loan.TermWeeks := by
    have := hc.count; omega
  have hbk := (hb (paidCountOfLoan db.schedules L) hle).2 htd
  rw [hk, hc.balance]
  exact ⟨hle, hw, rfl, hbk.1, hbk.2⟩

/-- Witness for the amended C30: the loan of `lateStore` (300 over 3 weeks)
after one payment of its installment of 100 has a balance of 200. -/
theorem reachable_balance_bounds_witness :
    paymentCountOfLoan lateStore.payments 0 = 1 ∧
    (⟨0, 300, 0, 3, 0, "active", 200, some (20 * nanosPerDay)⟩ : Loan).CurrentBalance =
      calculateTotalDue 300 0 3 - (paymentCountOfLoan lateStore.payments 0 : Int) *
        weeklyAmount ⟨0, 300, 0, 3, 0, "active", 200, some (20 * nanosPerDay)⟩ ∧
    0 ≤ (⟨0, 300, 0, 3, 0, "active", 200, some (20 * nanosPerDay)⟩ : Loan).CurrentBalance ∧
    (⟨0, 300, 0, 3, 0, "active", 200, some (20 * nanosPerDay)⟩ : Loan).CurrentBalance ≤
      calculateTotalDue 300 0 3 := by
  have h := reachable_balance_bounds lateStore lateStore_reachable 0
    ⟨0, 300, 0, 3, 0, "active", 200, some (20 * nanosPerDay)⟩ rfl (by decide)
    (by rw [calculateTotalDue_300]; decide)
  exact ⟨by decide, h.2.2.1, h.2.2.2.1, h.2.2.2.2⟩

/-- Witness for C6: the loan of `lateStore` (300 over 3 weeks) after one
payment of 100 has a balance of 200. -/
theorem reachable_balance_eq_totalDue_sub_payments_witness :
    paymentsTotal lateStore.payments 0 = 100 ∧
    (200 : Int) = calculateTotalDue 300 0 3 - paymentsTotal lateStore.payments 0 :=
  ⟨by decide,
    reachable_balance_eq_totalDue_sub_payments lateStore 0
      ⟨0, 300, 0, 3, 0, "active", 200, some (20 * nanosPerDay)⟩ lateStore_reachable rfl⟩

end Billing
